import Mathlib

/-!
Clash Royale improvements: targeting, movement, range, damage, spawning and the
game state; and the two test runners.

A shallow embedding of `src/clash-royale-improvements.js` (namespace
`ClashRoyale`) and of `src/automated-test-runner.js` and
`src/games/clash_royale_test_suite.js` (namespace `TestRunners`).

JavaScript numbers are modelled as exact rationals (`ℚ`); the rounding of
doubles is made explicit (`roundDouble`) where a property depends on it, which
is the case for `drawRangeIndicator`, `improvedUnitSpawning` and the tolerance
test of `testMultiplierCalculations`.  The library functions the code calls
but does not define (`Math.sqrt`, `Math.cos`, `Math.sin`, `Math.random`,
`this.getDistance`, the `update` method of a game object) and the globals it
reads but does not define (`CANVAS_WIDTH`, `CANVAS_HEIGHT`, `Math.PI`,
`cardDatabase`) are parameters of the embedded functions.  Mutation of `this` is
modelled by returning the object after the call; for the frame of
`improvedFindTarget` the function is embedded a second time, statement by
statement, on a store of objects and arrays (`Store.improvedFindTarget`), in
which `push` and `sort` change an array in place.  A test function handed to a
runner is modelled by what a call of it does: the value it returns or the value
it throws.
-/

namespace ClashRoyale

/-! ## Data model -/

/-- The `data` record of an entity (its card data): `data.type`, `data.flying`. -/
structure EntityData where
  type : String
  flying : Bool

/-- A game object as the patch functions read it: a unit, a building or a
tower.  `id` stands for the object's identity (the `!==` test on objects);
`type` is the tower kind (`'princess'`, `'king'`) and is absent on units. -/
structure Entity where
  id : Nat
  owner : String
  type : Option String
  data : Option EntityData
  isDead : Bool
  health : ℚ
  x : ℚ
  y : ℚ
  range : ℚ
  speed : ℚ
  targetType : Option String
  effects : List String

/-- The global `gameState`: the list of entities and the list of towers. -/
structure GameState where
  entities : List Entity
  towers : List Entity

/-- The attacking object `this` of `improvedFindTarget` with its `target` field. -/
structure Attacker where
  self : Entity
  target : Option Entity

/-- The record `{entity, distance}` pushed on the priority lists. -/
structure Candidate where
  entity : Entity
  distance : ℚ

/-- The four priority lists of `improvedFindTarget`. -/
structure Buckets where
  princessTowers : List Candidate
  kingTowers : List Candidate
  buildings : List Candidate
  troops : List Candidate

/-! ## improvedFindTarget -/

/-- The test `entity.data && entity.data.type === 'building'`. -/
def dataIsBuilding (entity : Entity) : Bool :=
  match entity.data with
  | some d => decide (d.type = "building")
  | none => false

/-- The body of the `forEach` callback of `improvedFindTarget`: one entity is
filtered and pushed on the list of its category. -/
def categorize (getDistance : Entity → Entity → ℚ) (self : Entity)
    (b : Buckets) (entity : Entity) : Buckets :=
  if entity.owner ≠ self.owner ∧ entity.isDead = false ∧ entity.health > 0 then
    let distance := getDistance self entity
    if distance ≤ self.range then
      if entity.type = some "princess" then
        { b with princessTowers := b.princessTowers ++ [⟨entity, distance⟩] }
      else if entity.type = some "king" then
        { b with kingTowers := b.kingTowers ++ [⟨entity, distance⟩] }
      else if dataIsBuilding entity = true then
        { b with buildings := b.buildings ++ [⟨entity, distance⟩] }
      else
        { b with troops := b.troops ++ [⟨entity, distance⟩] }
    else b
  else b

/-- The loop `[...gameState.entities, ...gameState.towers].forEach(...)`. -/
def collectTargets (getDistance : Entity → Entity → ℚ) (self : Entity)
    (gameState : GameState) : Buckets :=
  (gameState.entities ++ gameState.towers).foldl (categorize getDistance self) ⟨[], [], [], []⟩

/-- The `if` chain choosing `targetList`. -/
def selectTargetList (self : Entity) (b : Buckets) : List Candidate :=
  if b.princessTowers.length > 0 then b.princessTowers
  else if b.kingTowers.length > 0 then b.kingTowers
  else if self.targetType = some "building" ∧ b.buildings.length > 0 then b.buildings
  else if b.troops.length > 0 then b.troops
  else []

/-- The call `targetList.sort((a, b) => a.distance - b.distance)`: a stable sort by
ascending distance. -/
def sortByDistance (targetList : List Candidate) : List Candidate :=
  targetList.insertionSort (fun a b => a.distance ≤ b.distance)

/-- The value assigned to `this.target`: `targetList[0].entity` after sorting,
or `null`. -/
def pickTarget (targetList : List Candidate) : Option Entity :=
  if targetList.length > 0 then
    match sortByDistance targetList with
    | c :: _ => some c.entity
    | [] => none
  else none

/-- The function `improvedFindTarget`, with `this` passed as `self`: it returns
`this` with its `target` field assigned. -/
def improvedFindTarget (getDistance : Entity → Entity → ℚ) (gameState : GameState)
    (self : Attacker) : Attacker :=
  { self with
    target := pickTarget (selectTargetList self.self (collectTargets getDistance self.self gameState)) }

/-! ## Vocabulary for the targeting claims -/

/-- The four target categories of the priority comment. -/
inductive Category where
  | princess
  | king
  | building
  | troop
deriving DecidableEq

/-- The category the `if` chain of the `forEach` callback files an entity under. -/
def categoryOf (entity : Entity) : Category :=
  if entity.type = some "princess" then Category.princess
  else if entity.type = some "king" then Category.king
  else if dataIsBuilding entity = true then Category.building
  else Category.troop

/-- The priority list of a category. -/
def Buckets.get (b : Buckets) : Category → List Candidate
  | Category.princess => b.princessTowers
  | Category.king => b.kingTowers
  | Category.building => b.buildings
  | Category.troop => b.troops

/-- An enemy of `self` that is not dead, has positive health and lies within
`self.range`. -/
def Eligible (getDistance : Entity → Entity → ℚ) (self entity : Entity) : Prop :=
  entity.owner ≠ self.owner ∧ entity.isDead = false ∧ 0 < entity.health ∧
    getDistance self entity ≤ self.range

instance (getDistance : Entity → Entity → ℚ) (self entity : Entity) :
    Decidable (Eligible getDistance self entity) := by
  unfold Eligible; infer_instance

/-- All objects scanned by `improvedFindTarget`, in scan order. -/
def GameState.all (gameState : GameState) : List Entity :=
  gameState.entities ++ gameState.towers

instance distanceLe_isTotal :
    IsTotal Candidate (fun a b => a.distance ≤ b.distance) :=
  ⟨fun a b => le_total a.distance b.distance⟩

instance distanceLe_isTrans :
    IsTrans Candidate (fun a b => a.distance ≤ b.distance) :=
  ⟨fun _ _ _ hab hbc => le_trans hab hbc⟩

/-! ## Movement -/

/-- A movement target: the fields `x` and `y` the movement functions read. -/
structure Position where
  x : ℚ
  y : ℚ

/-- The function `moveWithImprovedPathfinding`, with `this` passed as `self`; it
returns `this` after the call.  `sqrt` is `Math.sqrt`, `getDistance` is
`this.getDistance`, and `CANVAS_WIDTH`, `CANVAS_HEIGHT` are the two globals.
A division by zero yields `0` here (in JavaScript: `NaN` or an infinity). -/
def moveWithImprovedPathfinding (sqrt : ℚ → ℚ) (getDistance : Entity → Entity → ℚ)
    (CANVAS_WIDTH CANVAS_HEIGHT : ℚ) (gameState : GameState) (self : Entity)
    (target : Position) (deltaTime : ℚ) : Entity :=
  let BRIDGE_Y := CANVAS_HEIGHT / 2
  let BRIDGE_WIDTH : ℚ := 120
  let BRIDGE_X_START := (CANVAS_WIDTH - BRIDGE_WIDTH) / 2
  let speed := if self.effects.contains "rage" then self.speed * 1.4 else self.speed
  let moveDistance := speed * (deltaTime / 1000)
  if (self.owner = "player" ∧ self.y > BRIDGE_Y ∧ target.y < BRIDGE_Y) ∨
      (self.owner = "ai" ∧ self.y < BRIDGE_Y ∧ target.y > BRIDGE_Y) then
    let bridgeEntranceX := BRIDGE_X_START + BRIDGE_WIDTH / 2
    let dx := bridgeEntranceX - self.x
    let dy := BRIDGE_Y - self.y
    let distance := sqrt (dx * dx + dy * dy)
    if distance > 5 then
      { self with
        x := self.x + (dx / distance) * moveDistance
        y := self.y + (dy / distance) * moveDistance }
    else self
  else
    let dx := target.x - self.x
    let dy := target.y - self.y
    let distance := sqrt (dx * dx + dy * dy)
    if distance > 5 then
      let adjusted := gameState.entities.foldl
        (fun (adj : ℚ × ℚ) (entity : Entity) =>
          if entity.id ≠ self.id ∧ entity.owner = self.owner ∧ entity.isDead = false then
            if getDistance self entity < 25 then
              (adj.1 + (self.x - entity.x) * 0.3, adj.2 + (self.y - entity.y) * 0.3)
            else adj
          else adj)
        (dx, dy)
      let adjustedDistance := sqrt (adjusted.1 * adjusted.1 + adjusted.2 * adjusted.2)
      { self with
        x := self.x + (adjusted.1 / adjustedDistance) * moveDistance
        y := self.y + (adjusted.2 / adjustedDistance) * moveDistance }
    else self

/-- The function `improvedMoveTowards`, with `this` passed as `self`; it returns
`this` after the call, or `none` when reading `this.data.flying` throws because
`this.data` is absent.  `random` is the value `Math.random()` returns. -/
def improvedMoveTowards (sqrt : ℚ → ℚ) (random : ℚ) (getDistance : Entity → Entity → ℚ)
    (CANVAS_WIDTH CANVAS_HEIGHT : ℚ) (gameState : GameState) (self : Entity)
    (target : Position) (deltaTime : ℚ) : Option Entity :=
  match self.data with
  | none => none
  | some data =>
    if data.flying = true then
      let dx := target.x - self.x
      let dy := target.y - self.y
      let distance := sqrt (dx * dx + dy * dy)
      if distance > 5 then
        let speed := if self.effects.contains "rage" then self.speed * 1.4 else self.speed
        let moveDistance := speed * (deltaTime / 1000)
        let randomOffset := (random - 0.5) * 2
        some { self with
          x := self.x + ((dx / distance) * moveDistance + randomOffset * 0.5)
          y := self.y + ((dy / distance) * moveDistance + randomOffset * 0.5) }
      else some self
    else
      some (moveWithImprovedPathfinding sqrt getDistance CANVAS_WIDTH CANVAS_HEIGHT
        gameState self target deltaTime)

/-- A computable square root on `ℚ` for evaluating the movement functions on
concrete inputs: exact on the square of a rational, and the quotient of the
integer square roots of numerator and denominator otherwise. -/
def sqrtQ (q : ℚ) : ℚ := (Nat.sqrt q.num.toNat : ℚ) / (Nat.sqrt q.den : ℚ)

/-- The Euclidean distance between two entities, through `sqrtQ`. -/
def euclid (a b : Entity) : ℚ :=
  sqrtQ ((a.x - b.x) * (a.x - b.x) + (a.y - b.y) * (a.y - b.y))

/-- The bridge line `y = BRIDGE_Y` meets the segment from `(x0, y0)` to `(x1, y1)`
at a point whose abscissa lies between `BRIDGE_X_START` and `BRIDGE_X_END`. -/
def CrossesAtBridge (CANVAS_WIDTH CANVAS_HEIGHT x0 y0 x1 y1 : ℚ) : Prop :=
  ∃ t : ℚ, 0 ≤ t ∧ t ≤ 1 ∧ y0 + t * (y1 - y0) = CANVAS_HEIGHT / 2 ∧
    (CANVAS_WIDTH - 120) / 2 ≤ x0 + t * (x1 - x0) ∧
    x0 + t * (x1 - x0) ≤ (CANVAS_WIDTH - 120) / 2 + 120

/-- The ordinates `y0` and `y1` lie strictly on opposite sides of `BRIDGE_Y`. -/
def OppositeSides (CANVAS_HEIGHT y0 y1 : ℚ) : Prop :=
  (y0 < CANVAS_HEIGHT / 2 ∧ CANVAS_HEIGHT / 2 < y1) ∨
    (y1 < CANVAS_HEIGHT / 2 ∧ CANVAS_HEIGHT / 2 < y0)

/-! ## Sample arena for concrete evaluation -/

/-- A player unit at the origin with range 60 that targets buildings. -/
def sampleKnight : Entity :=
  { id := 0, owner := "player", type := none, data := some ⟨"troop", false⟩,
    isDead := false, health := 100, x := 0, y := 0, range := 60, speed := 60,
    targetType := some "building", effects := [] }

/-- An enemy princess tower at distance 50 from the origin. -/
def samplePrincess : Entity :=
  { id := 1, owner := "ai", type := some "princess", data := none,
    isDead := false, health := 1400, x := 30, y := 40, range := 60, speed := 0,
    targetType := none, effects := [] }

/-- An enemy king tower at distance 30 from the origin. -/
def sampleKing : Entity :=
  { id := 2, owner := "ai", type := some "king", data := none,
    isDead := false, health := 2400, x := 0, y := 30, range := 60, speed := 0,
    targetType := none, effects := [] }

/-- An enemy building at distance 10 from the origin. -/
def sampleCannon : Entity :=
  { id := 3, owner := "ai", type := none, data := some ⟨"building", false⟩,
    isDead := false, health := 300, x := 6, y := 8, range := 60, speed := 0,
    targetType := none, effects := [] }

/-- An enemy troop at distance 5 from the origin. -/
def sampleGoblin : Entity :=
  { id := 4, owner := "ai", type := none, data := some ⟨"troop", false⟩,
    isDead := false, health := 80, x := 3, y := 4, range := 10, speed := 120,
    targetType := none, effects := [] }

/-- An arena with an enemy troop, building, king tower and princess tower in range. -/
def sampleArena : GameState :=
  { entities := [sampleKnight, sampleGoblin, sampleCannon], towers := [sampleKing, samplePrincess] }

/-- An arena with an enemy troop, building and king tower in range. -/
def sampleArenaKing : GameState :=
  { entities := [sampleKnight, sampleGoblin, sampleCannon], towers := [sampleKing] }

/-- An arena with an enemy troop and an enemy building in range and no tower. -/
def sampleArenaBuilding : GameState :=
  { entities := [sampleKnight, sampleGoblin, sampleCannon], towers := [] }

/-- A player ground unit standing on the far side of the river, at `(10, 259)`. -/
def sampleReturning : Entity :=
  { id := 5, owner := "player", type := none, data := some ⟨"troop", false⟩,
    isDead := false, health := 100, x := 10, y := 259, range := 10, speed := 100,
    targetType := none, effects := [] }

/-- A player ground unit on its own side at `(195, 300)`, 50 away from the bridge entrance. -/
def sampleAdvancing : Entity :=
  { id := 6, owner := "player", type := none, data := some ⟨"troop", false⟩,
    isDead := false, health := 100, x := 195, y := 300, range := 10, speed := 100,
    targetType := none, effects := ["rage"] }

/-- A flying player unit at `(195, 300)`. -/
def sampleDragon : Entity :=
  { id := 7, owner := "player", type := none, data := some ⟨"troop", true⟩,
    isDead := false, health := 100, x := 195, y := 300, range := 10, speed := 100,
    targetType := none, effects := [] }

/-! ## Combat damage -/

/-- The fields `authenticCombatDamage` reads on its arguments: `damage`, the
optional `effects` list and the optional `level`. -/
structure Combatant where
  damage : ℚ
  effects : Option (List String)
  level : Option ℤ

/-- The function `Math.round`: the nearest integer, a half rounded up. -/
def mathRound (x : ℚ) : ℤ := ⌊x + 1 / 2⌋

/-- The expression `level || 11`: the right operand replaces a missing level and
every falsy one, of which `0` is the only number modelled. -/
def levelOrDefault (level : Option ℤ) : ℤ :=
  match level with
  | some l => if l = 0 then 11 else l
  | none => 11

/-- The test `attacker.effects && attacker.effects.includes('rage')`. -/
def hasRage (effects : Option (List String)) : Bool :=
  match effects with
  | some es => es.contains "rage"
  | none => false

/-- The function `authenticCombatDamage`; `Math.pow(1.1, n)` is the integer power
of the rational `1.1`. -/
def authenticCombatDamage (attacker defender : Combatant) : ℤ :=
  let baseDamage := attacker.damage
  let baseDamage := if hasRage attacker.effects = true then baseDamage * 1.4 else baseDamage
  let levelDifference := levelOrDefault attacker.level - levelOrDefault defender.level
  let levelMultiplier := (1.1 : ℚ) ^ levelDifference
  let finalDamage := mathRound (baseDamage * levelMultiplier)
  finalDamage

/-- The level as the claim reads it: the level itself, and 11 when it is missing. -/
def claimedLevel (level : Option ℤ) : ℤ := level.getD 11

/-- The damage as the claim states it: `Math.round` of
`damage * r * 1.1 ^ (La - Ld)` with `claimedLevel` for the two levels. -/
def claimedCombatDamage (attacker defender : Combatant) : ℤ :=
  mathRound (attacker.damage * (if hasRage attacker.effects = true then 1.4 else 1) *
    (1.1 : ℚ) ^ (claimedLevel attacker.level - claimedLevel defender.level))

/-! ## Range scaling -/

/-- The function `calculateProportionalRange`.  The two local constants
`CANVAS_WIDTH = 450` and `CANVAS_HEIGHT = 520` of the source are never read. -/
def calculateProportionalRange (baseRange : ℚ) : ℚ :=
  let BASE_SCALE : ℚ := 12
  let scaleFactor := BASE_SCALE
  baseRange * scaleFactor

/-- Rounding to the nearest integer, a tie going to the even neighbour. -/
def roundHalfEven (q : ℚ) : ℤ :=
  let f := ⌊q⌋
  if q - f < 1 / 2 then f
  else if 1 / 2 < q - f then f + 1
  else if f % 2 = 0 then f
  else f + 1

/-- The double nearest to an exact value (IEEE 754 binary64, round to nearest,
ties to even): 53 significant bits.  Overflow and subnormal values are not
modelled, so the function is the rounding of JavaScript arithmetic for values
of magnitude between `2 ^ (-1022)` and `2 ^ 1023`. -/
def roundDouble (q : ℚ) : ℚ :=
  if q = 0 then 0
  else
    let e := Int.log 2 |q|
    (roundHalfEven (q / 2 ^ (e - 52)) : ℚ) * 2 ^ (e - 52)

/-- The arguments `x`, `y` and `radius` of the one `ctx.arc` call of
`drawRangeIndicator`. -/
structure ArcCall where
  x : ℚ
  y : ℚ
  radius : ℚ

/-- The function `drawRangeIndicator`, as the circle it draws.  `fl` is the
rounding applied to the result of each arithmetic operation: the identity for
exact arithmetic, `roundDouble` for JavaScript numbers. -/
def drawRangeIndicator (fl : ℚ → ℚ) (x y range : ℚ) : ArcCall :=
  let scaledRange := fl (calculateProportionalRange (fl (range / 12)))
  { x := x, y := y, radius := scaledRange }

/-! ## Sample arena for the null target -/

/-- A player unit at the origin with range 60 and no `targetType`. -/
def sampleArcher : Entity :=
  { id := 8, owner := "player", type := none, data := some ⟨"troop", false⟩,
    isDead := false, health := 100, x := 0, y := 0, range := 60, speed := 60,
    targetType := none, effects := [] }

/-- An arena whose only enemy in range is a building. -/
def sampleArenaCannonOnly : GameState :=
  { entities := [sampleArcher, sampleCannon], towers := [] }

/-! ## EnhancedGameState -/

/-- The field `performanceMetrics` of `EnhancedGameState`. -/
structure PerformanceMetrics where
  frameTime : ℚ
  entityCount : ℚ
  renderTime : ℚ

/-- The fields of `EnhancedGameState` that `update` reads or writes.  The two
arrays hold references to game objects; a reference is a number, and the heap
gives the object it points to. -/
structure EnhancedGameState where
  entities : List Nat
  towers : List Nat
  lastUpdate : ℚ
  performanceMetrics : PerformanceMetrics

/-- The heap during `update`, and the references on which `update(deltaTime)`
has been called so far, in call order. -/
structure UpdateRun where
  heap : Nat → Entity
  updated : List Nat

/-- One of the two loops `forEach(entity => { if (!entity.isDead)
entity.update(deltaTime) })`.  The method `update` of a game object is not part
of the source: `objectUpdate r deltaTime` is its effect on the heap when it is
called on the object `r`; it may change any object and leaves the two arrays
as they are. -/
def forEachUpdate (objectUpdate : Nat → ℚ → (Nat → Entity) → (Nat → Entity))
    (deltaTime : ℚ) : List Nat → UpdateRun → UpdateRun
  | [], run => run
  | r :: rest, run =>
    if (run.heap r).isDead = false then
      forEachUpdate objectUpdate deltaTime rest
        { heap := objectUpdate r deltaTime run.heap, updated := run.updated ++ [r] }
    else forEachUpdate objectUpdate deltaTime rest run

/-- The method `EnhancedGameState.update`; `now` is the value of `Date.now()`,
`updateStart` and `updateEnd` are the two values of `performance.now()`. -/
def EnhancedGameState.update (objectUpdate : Nat → ℚ → (Nat → Entity) → (Nat → Entity))
    (now updateStart updateEnd : ℚ) (self : EnhancedGameState) (heap : Nat → Entity) :
    EnhancedGameState × UpdateRun :=
  let deltaTime := now - self.lastUpdate
  let run1 := forEachUpdate objectUpdate deltaTime self.entities { heap := heap, updated := [] }
  let run2 := forEachUpdate objectUpdate deltaTime self.towers run1
  let entities := self.entities.filter (fun r => !(run2.heap r).isDead)
  ({ entities := entities
     towers := self.towers
     lastUpdate := now
     performanceMetrics :=
       { self.performanceMetrics with
         frameTime := updateEnd - updateStart
         entityCount := (entities.length : ℚ) + (self.towers.length : ℚ) } },
   run2)

/-- A heap in which the object 4 is dead and every other object is alive. -/
def sampleHeap : Nat → Entity :=
  fun r => { sampleKnight with id := r, isDead := decide (r = 4) }

/-- An `update` method: the object 2 (a tower) kills the object 1, the object 3
brings the object 4 back, and every other object changes nothing. -/
def sampleObjectUpdate : Nat → ℚ → (Nat → Entity) → (Nat → Entity) :=
  fun r _ heap =>
    if r = 2 then fun i => if i = 1 then { heap i with isDead := true } else heap i
    else if r = 3 then fun i => if i = 4 then { heap i with isDead := false } else heap i
    else heap

/-- A game state with the troop 1 and the tower 2. -/
def sampleStateTower : EnhancedGameState :=
  { entities := [1], towers := [2], lastUpdate := 0, performanceMetrics := ⟨0, 0, 0⟩ }

/-- A game state with the troops 3 and 4. -/
def sampleStateRevive : EnhancedGameState :=
  { entities := [3, 4], towers := [], lastUpdate := 0, performanceMetrics := ⟨0, 0, 0⟩ }

/-- An `update` method that changes nothing. -/
def sampleIdleUpdate : Nat → ℚ → (Nat → Entity) → (Nat → Entity) :=
  fun _ _ heap => heap

/-! ## improvedUnitSpawning -/

/-- The fields of a `cardDatabase` entry that `improvedUnitSpawning` reads. -/
structure CardData where
  type : Option String
  count : Option ℚ

/-- The constructor called for a spawned object. -/
inductive SpawnKind where
  | building
  | unit

/-- One element of the array returned: the call `new Building(pos.x, pos.y,
cardData, owner)` or `new Unit(pos.x, pos.y, cardData, owner)`, by its arguments. -/
structure SpawnedEntity where
  kind : SpawnKind
  x : ℚ
  y : ℚ
  cardData : CardData
  owner : String

/-- The loop `for (let i = 0; i < cardData.count; i++)` from the index `i` on,
with the array `spawnPositions` built so far.  `cos` and `sin` are `Math.cos`
and `Math.sin`; `fl` is the rounding applied to the result of each product and
sum (`roundDouble` for JavaScript, `id` for exact arithmetic). -/
def spawnLoop (fl : ℚ → ℚ) (cos sin : ℚ → ℚ) (x y count angleStep : ℚ) (i : Nat)
    (spawnPositions : List Position) : List Position :=
  if (i : ℚ) < count then
    let spreadRadius : ℚ := 30
    let angle := fl ((i : ℚ) * angleStep)
    let spawnX := fl (x + fl (cos angle * spreadRadius))
    let spawnY := fl (y + fl (sin angle * spreadRadius))
    spawnLoop fl cos sin x y count angleStep (i + 1) (spawnPositions ++ [⟨spawnX, spawnY⟩])
  else spawnPositions
termination_by ⌈count⌉₊ - i
decreasing_by
  have h1 : i < ⌈count⌉₊ := Nat.lt_ceil.2 (by assumption)
  omega

/-- The function `improvedUnitSpawning`; `none` is the `null` returned for a
card that `cardDatabase` does not hold.  `PI` is `Math.PI`, and `fl` is the
rounding applied to the result of each arithmetic operation. -/
def improvedUnitSpawning (fl : ℚ → ℚ) (cos sin : ℚ → ℚ) (PI : ℚ)
    (cardDatabase : String → Option CardData)
    (x y : ℚ) (cardType owner : String) : Option (List SpawnedEntity) :=
  match cardDatabase cardType with
  | none => none
  | some cardData =>
    let spawnPositions : List Position :=
      match cardData.count with
      | some count =>
        if count ≠ 0 ∧ count > 1 then
          spawnLoop fl cos sin x y count (fl (fl (PI * 2) / count)) 0 []
        else [⟨x, y⟩]
      | none => [⟨x, y⟩]
    some (spawnPositions.map (fun pos =>
      if cardData.type = some "building" then
        { kind := SpawnKind.building, x := pos.x, y := pos.y, cardData := cardData,
          owner := owner }
      else
        { kind := SpawnKind.unit, x := pos.x, y := pos.y, cardData := cardData,
          owner := owner }))

/-- The constructor the `map` callback calls for a card. -/
def spawnKindOf (cardData : CardData) : SpawnKind :=
  if cardData.type = some "building" then SpawnKind.building else SpawnKind.unit

/-- A computable cosine on `ℚ` for concrete evaluation, by the half-angle
parametrisation of the circle: `cosQ a` and `sinQ a` are the coordinates of a
point of the unit circle, near `cos a` and `sin a` for a small `a`. -/
def cosQ (a : ℚ) : ℚ := (1 - (a / 2) * (a / 2)) / (1 + (a / 2) * (a / 2))

/-- The sine that goes with `cosQ`. -/
def sinQ (a : ℚ) : ℚ := a / (1 + (a / 2) * (a / 2))

/-- A card database with the card `minions`, of count 3. -/
def sampleCardDatabase : String → Option CardData :=
  fun cardType => if cardType = "minions" then some ⟨some "troop", some 3⟩ else none

/-- The double `Math.PI`, `3.141592653589793`. -/
def sampleMathPI : ℚ := 884279719003555 / 2 ^ 48

/-- The doubles `Math.cos` returns at the three angles reached for a count of 3:
`1` at `0`, `-0.4999999999999998` at `2.0943951023931953` and
`-0.5000000000000004` at `4.1887902047863905`. -/
def sampleMathCos (a : ℚ) : ℚ :=
  if a = 4716158501352293 / 2 ^ 50 then -1125899906842625 / 2 ^ 51
  else if a = 4716158501352293 / 2 ^ 51 then -2251799813685247 / 2 ^ 52
  else 1

/-- The doubles `Math.sin` returns at the same angles: `0` at `0`,
`0.8660254037844387` at `2.0943951023931953` and `-0.8660254037844384` at
`4.1887902047863905`. -/
def sampleMathSin (a : ℚ) : ℚ :=
  if a = 4716158501352293 / 2 ^ 50 then -975057921444245 / 2 ^ 50
  else if a = 4716158501352293 / 2 ^ 51 then 7800463371553963 / 2 ^ 53
  else 0

/-! ## improvedFindTarget on a store of objects and arrays -/

/-- An element of an array: a reference to a game object, or a record
`{entity, distance}` pushed on a priority list, `entity` being a reference. -/
inductive ArrayItem where
  | object (ref : Nat)
  | candidate (entity : Nat) (distance : ℚ)

/-- The store a call of `improvedFindTarget` runs in: the fields of every object
other than `target`, by reference; the field `target` of every object (a
reference, or `null`); the elements of every array, by reference; and the next
array reference not yet in use. -/
structure Store where
  objects : Nat → Entity
  target : Nat → Option Nat
  arrays : Nat → List ArrayItem
  nextArray : Nat

/-- An array literal or a spread: a new array with the given elements, whose
reference is `store.nextArray`. -/
def Store.allocate (store : Store) (items : List ArrayItem) : Store :=
  { store with
    arrays := fun a => if a = store.nextArray then items else store.arrays a
    nextArray := store.nextArray + 1 }

/-- The call `array.push(item)`, which changes the array in place. -/
def Store.push (store : Store) (array : Nat) (item : ArrayItem) : Store :=
  { store with
    arrays := fun a => if a = array then store.arrays array ++ [item] else store.arrays a }

/-- The property `distance` of an array element. -/
def ArrayItem.distance : ArrayItem → ℚ
  | ArrayItem.object _ => 0
  | ArrayItem.candidate _ distance => distance

/-- The call `array.sort((a, b) => a.distance - b.distance)`, which sorts the
array in place (a stable sort by ascending distance). -/
def Store.sort (store : Store) (array : Nat) : Store :=
  { store with
    arrays := fun a =>
      if a = array then (store.arrays array).insertionSort (fun i j => i.distance ≤ j.distance)
      else store.arrays a }

/-- The assignment `object.target = value`. -/
def Store.setTarget (store : Store) (object : Nat) (value : Option Nat) : Store :=
  { store with target := fun o => if o = object then value else store.target o }

/-- The body of the `forEach` callback of `improvedFindTarget` on the store.  The
call `this.getDistance(entity)` is a call of a method the source does not define:
it returns a number and the store it leaves.  An array element that is not a game
object has no `health` and fails the first test. -/
def Store.categorize (getDistance : Store → Nat → Nat → ℚ × Store)
    (self princessTowers kingTowers buildings troops : Nat)
    (store : Store) (item : ArrayItem) : Store :=
  match item with
  | ArrayItem.candidate _ _ => store
  | ArrayItem.object entity =>
    if (store.objects entity).owner ≠ (store.objects self).owner ∧
        (store.objects entity).isDead = false ∧ (store.objects entity).health > 0 then
      let distance := (getDistance store self entity).1
      let store1 := (getDistance store self entity).2
      if distance ≤ (store1.objects self).range then
        if (store1.objects entity).type = some "princess" then
          store1.push princessTowers (ArrayItem.candidate entity distance)
        else if (store1.objects entity).type = some "king" then
          store1.push kingTowers (ArrayItem.candidate entity distance)
        else if dataIsBuilding (store1.objects entity) = true then
          store1.push buildings (ArrayItem.candidate entity distance)
        else
          store1.push troops (ArrayItem.candidate entity distance)
      else store1
    else store

/-- The value `targetList[0].entity`. -/
def firstEntity (items : List ArrayItem) : Option Nat :=
  match items with
  | ArrayItem.candidate entity _ :: _ => some entity
  | _ => none

/-- The function `improvedFindTarget`, statement by statement, on the store:
`entities` and `towers` are the references of the arrays `gameState.entities` and
`gameState.towers`, and `self` is the reference of `this`.  The four priority
lists, the spread `[...gameState.entities, ...gameState.towers]` and the initial
`targetList` are new arrays; `targetList` is then made to refer to one of the
priority lists, which `sort` changes in place. -/
def Store.improvedFindTarget (getDistance : Store → Nat → Nat → ℚ × Store)
    (entities towers self : Nat) (store : Store) : Store :=
  let princessTowers := store.nextArray
  let store1 := store.allocate []
  let kingTowers := store1.nextArray
  let store2 := store1.allocate []
  let buildings := store2.nextArray
  let store3 := store2.allocate []
  let troops := store3.nextArray
  let store4 := store3.allocate []
  let scanned := store4.nextArray
  let store5 := store4.allocate (store4.arrays entities ++ store4.arrays towers)
  let store6 := (store5.arrays scanned).foldl
    (Store.categorize getDistance self princessTowers kingTowers buildings troops) store5
  let empty := store6.nextArray
  let store7 := store6.allocate []
  let targetList :=
    if (store7.arrays princessTowers).length > 0 then princessTowers
    else if (store7.arrays kingTowers).length > 0 then kingTowers
    else if (store7.objects self).targetType = some "building" ∧
        (store7.arrays buildings).length > 0 then buildings
    else if (store7.arrays troops).length > 0 then troops
    else empty
  if (store7.arrays targetList).length > 0 then
    let store8 := store7.sort targetList
    store8.setTarget self (firstEntity (store8.arrays targetList))
  else store7.setTarget self none

/-- The distance method of the sample arena on the store: the Euclidean distance
of the two objects, computed without writing anything. -/
def sampleGetDistance : Store → Nat → Nat → ℚ × Store :=
  fun store a b => (euclid (store.objects a) (store.objects b), store)

/-- The sample arena in a store, each object under the reference of its `id`: the
knight (0), the goblin (4) and the cannon (3) in the array `gameState.entities`
(array 0), the king tower (2) and the princess tower (1) in the array
`gameState.towers` (array 1). -/
def sampleStore : Store :=
  { objects := fun r =>
      if r = 0 then sampleKnight else if r = 1 then samplePrincess
      else if r = 2 then sampleKing else if r = 3 then sampleCannon else sampleGoblin
    target := fun _ => none
    arrays := fun a =>
      if a = 0 then [ArrayItem.object 0, ArrayItem.object 4, ArrayItem.object 3]
      else if a = 1 then [ArrayItem.object 2, ArrayItem.object 1]
      else []
    nextArray := 2 }

/-- An array element read as a record `{entity, distance}` of objects. -/
def toCandidate (objects : Nat → Entity) : ArrayItem → Candidate
  | ArrayItem.object ref => ⟨objects ref, 0⟩
  | ArrayItem.candidate entity distance => ⟨objects entity, distance⟩

/-- The element is a record `{entity, distance}`. -/
def ArrayItem.isCandidate : ArrayItem → Bool
  | ArrayItem.object _ => false
  | ArrayItem.candidate _ _ => true

/-- The four priority lists held in the arrays `p`, `k`, `b` and `t` of a store. -/
def Store.buckets (store : Store) (p k b t : Nat) : Buckets :=
  { princessTowers := (store.arrays p).map (toCandidate store.objects)
    kingTowers := (store.arrays k).map (toCandidate store.objects)
    buildings := (store.arrays b).map (toCandidate store.objects)
    troops := (store.arrays t).map (toCandidate store.objects) }

end ClashRoyale

/-!
The two test runners: `src/automated-test-runner.js` and
`src/games/clash_royale_test_suite.js`.
-/

namespace TestRunners

/-! ## JavaScript values of the test runners -/

/-- A JavaScript value as the test runners see it: enough to decide truthiness
and to store the value in a result record. -/
inductive JsValue where
  | undefined
  | null
  | bool (b : Bool)
  | number (q : ℚ)
  | nan
  | string (s : String)
  | object (ref : Nat)

/-- The truthiness of a value (what `if (v)`, `v ? a : b` and `v || w` test). -/
def JsValue.truthy : JsValue → Bool
  | JsValue.undefined => false
  | JsValue.null => false
  | JsValue.bool b => b
  | JsValue.number q => decide (q ≠ 0)
  | JsValue.nan => false
  | JsValue.string s => decide (s ≠ "")
  | JsValue.object _ => true

/-- The properties `message` and `stack` of a thrown value that is not `null` or
`undefined`; `none` stands for a property that is `undefined`, a string for the
text of the property. -/
structure ErrorObject where
  message : Option String
  stack : Option String

/-- A thrown value: `null` or `undefined`, on which reading `.message` raises a
`TypeError`, or any other value, on which it does not. -/
inductive Thrown where
  | nullish
  | error (e : ErrorObject)

/-- The text a template literal gives for a property read: the string, or
`undefined`. -/
def renderProperty (p : Option String) : String := p.getD "undefined"

/-- A property read stored as a value. -/
def propertyValue (p : Option String) : JsValue :=
  match p with
  | some s => JsValue.string s
  | none => JsValue.undefined

/-! ## MinesGameTester -/

/-- What a test function handed to `runTest` returns: `null` or `undefined`, a
primitive (whose properties are all `undefined`), or an object with its
properties `passed`, `message` and `details`. -/
inductive TestReturn where
  | nullish
  | primitive
  | object (passed message details : JsValue)

/-- What one call `testFunction()` does: it returns or it throws. -/
inductive RunOutcome where
  | returns (result : TestReturn)
  | throws (error : Thrown)

/-- One element of `testResults` of the Mines tester. -/
structure MinesTestResult where
  name : String
  passed : JsValue
  message : JsValue
  details : JsValue

/-- The fields of `MinesGameTester` (the reference `originalGame` is left out). -/
structure MinesGameTester where
  testResults : List MinesTestResult
  testCount : Nat
  passCount : Nat
  failCount : Nat

/-- The tester after a call of one of its methods, and whether the call ended
by an exception that left the method. -/
structure TesterCall where
  tester : MinesGameTester
  escaped : Bool

/-- The constructor of `MinesGameTester`. -/
def MinesGameTester.new : MinesGameTester :=
  { testResults := [], testCount := 0, passCount := 0, failCount := 0 }

/-- The `catch` block of `runTest`, entered with the counter already advanced.
Reading `error.message` of `null` or `undefined` raises a `TypeError` that
leaves `runTest`. -/
def MinesGameTester.runTestCatch (t : MinesGameTester) (testName : String)
    (error : Thrown) : TesterCall :=
  match error with
  | Thrown.nullish => { tester := t, escaped := true }
  | Thrown.error e =>
    { tester :=
        { t with
          failCount := t.failCount + 1
          testResults := t.testResults ++
            [{ name := testName, passed := JsValue.bool false,
               message := JsValue.string ("Test threw error: " ++ renderProperty e.message),
               details := propertyValue e.stack }] }
      escaped := false }

/-- The method `runTest`.  `typeError` is the exception the engine raises when a
property of `null` or `undefined` is read. -/
def MinesGameTester.runTest (typeError : ErrorObject) (t : MinesGameTester)
    (testName : String) (testFunction : RunOutcome) : TesterCall :=
  let t1 := { t with testCount := t.testCount + 1 }
  match testFunction with
  | RunOutcome.returns TestReturn.nullish =>
    MinesGameTester.runTestCatch t1 testName (Thrown.error typeError)
  | RunOutcome.returns TestReturn.primitive =>
    { tester :=
        { t1 with
          failCount := t1.failCount + 1
          testResults := t1.testResults ++
            [{ name := testName, passed := JsValue.undefined, message := JsValue.undefined,
               details := JsValue.null }] }
      escaped := false }
  | RunOutcome.returns (TestReturn.object passed message details) =>
    let t2 :=
      if passed.truthy = true then { t1 with passCount := t1.passCount + 1 }
      else { t1 with failCount := t1.failCount + 1 }
    { tester :=
        { t2 with
          testResults := t2.testResults ++
            [{ name := testName, passed := passed, message := message,
               details := if details.truthy = true then details else JsValue.null }] }
      escaped := false }
  | RunOutcome.throws error => MinesGameTester.runTestCatch t1 testName error

/-- The names of the eight tests of `runAllTests`, in call order. -/
def minesTestNames : List String :=
  ["Input Validation Bypass", "Multiplier Calculations", "Potential Winnings Calculation",
   "Mine Generation Uniqueness", "Balance Manipulation Security", "Double Click Protection",
   "Minimum Balance Edge Case", "Rapid Mine Clicking"]

/-- The eight calls `this.testX()` of `runAllTests`, each of which is a call of
`runTest`; an exception that leaves one of them leaves `runAllTests` too. -/
def MinesGameTester.runTests (typeError : ErrorObject) :
    List (String × RunOutcome) → MinesGameTester → TesterCall
  | [], t => { tester := t, escaped := false }
  | (testName, testFunction) :: rest, t =>
    let r := MinesGameTester.runTest typeError t testName testFunction
    if r.escaped = true then r else MinesGameTester.runTests typeError rest r.tester

/-- The method `runAllTests`.  `gameFound` is the result of `this.init()`, and
`outcomes i` is what the test function of the `i`-th test does in the page at
hand.  `printSummary` only writes to the console. -/
def MinesGameTester.runAllTests (typeError : ErrorObject) (gameFound : Bool)
    (outcomes : Nat → RunOutcome) (t : MinesGameTester) : TesterCall :=
  if gameFound = false then { tester := t, escaped := false }
  else
    let t1 : MinesGameTester :=
      { t with testCount := 0, passCount := 0, failCount := 0, testResults := [] }
    MinesGameTester.runTests typeError
      (minesTestNames.zip ((List.range minesTestNames.length).map outcomes)) t1

/-- A call made on a tester from outside. -/
inductive TesterInvocation where
  | runTest (testName : String) (testFunction : RunOutcome)
  | runAllTests (gameFound : Bool) (outcomes : Nat → RunOutcome)

/-- The tester after one call made from outside. -/
def MinesGameTester.invoke (typeError : ErrorObject) (t : MinesGameTester) :
    TesterInvocation → MinesGameTester
  | TesterInvocation.runTest testName testFunction =>
    (MinesGameTester.runTest typeError t testName testFunction).tester
  | TesterInvocation.runAllTests gameFound outcomes =>
    (MinesGameTester.runAllTests typeError gameFound outcomes t).tester

/-- The tester after a sequence of calls made from outside, an exception that
leaves a call being caught by the caller. -/
def MinesGameTester.invokeAll (typeError : ErrorObject) (t : MinesGameTester)
    (calls : List TesterInvocation) : MinesGameTester :=
  calls.foldl (MinesGameTester.invoke typeError) t

/-- The tallies agree: `testCount = passCount + failCount = testResults.length`. -/
def MinesGameTester.Consistent (t : MinesGameTester) : Prop :=
  t.testCount = t.passCount + t.failCount ∧ t.passCount + t.failCount = t.testResults.length

/-- No test function of the call throws `null` or `undefined`. -/
def TesterInvocation.ThrowsNoNullish : TesterInvocation → Prop
  | TesterInvocation.runTest _ testFunction => testFunction ≠ RunOutcome.throws Thrown.nullish
  | TesterInvocation.runAllTests _ outcomes =>
    ∀ i, outcomes i ≠ RunOutcome.throws Thrown.nullish

/-- The `TypeError` of the engine, for concrete evaluation. -/
def sampleTypeError : ErrorObject :=
  { message := some "Cannot read properties of undefined", stack := none }

/-! ## testMultiplierCalculations -/

/-- The conversion to a number (`ToNumber`) of the values that are not
primitives of a fixed meaning: what a string parses to and what an object
converts to, `none` standing for `NaN`. -/
structure NumberCoercion where
  ofString : String → Option ℚ
  ofObject : Nat → Option ℚ

/-- The conversion of a value to a number, as the operator `-` applies it to its
operands; `none` is `NaN`.  `undefined` converts to `NaN`, `null` to `0`, `false`
to `0` and `true` to `1`. -/
def JsValue.toNumber (coercion : NumberCoercion) : JsValue → Option ℚ
  | JsValue.undefined => none
  | JsValue.null => some 0
  | JsValue.bool b => some (if b = true then 1 else 0)
  | JsValue.number q => some q
  | JsValue.nan => none
  | JsValue.string s => coercion.ofString s
  | JsValue.object ref => coercion.ofObject ref

/-- The table `expectedMultipliers`, whose values are the doubles written `0.2`,
`0.3`, ..., `1.0`; it is read at the keys 1 to 10 only, and the value given here
for any other key is never used. -/
def expectedMultipliers (mines : Nat) : ℚ :=
  ClashRoyale.roundDouble
    (match mines with
     | 1 => 0.2
     | 2 => 0.3
     | 3 => 0.4
     | 4 => 0.5
     | 5 => 0.6
     | 6 => 0.7
     | 7 => 0.8
     | 8 => 0.9
     | 9 => 1.0
     | 10 => 1.0
     | _ => 0)

/-- What the page does in one round of the loop, where the mine count is written
to the input, `updateMultiplier()` is called, `multiplier` is read and converted
to a number by the subtraction: an exception, raised by the page or by the
conversion, or the value read. -/
inductive MultiplierReply where
  | throws (error : Thrown)
  | multiplier (value : JsValue)

/-- The test `Math.abs(actualMultiplier - expectedMultiplier) > 0.01` in
JavaScript arithmetic: the value read is converted to a number, the difference
is rounded to a double and compared with the double written `0.01`; the test is
false when the difference is `NaN`. -/
def multiplierIsOff (coercion : NumberCoercion) (actualMultiplier : JsValue)
    (expectedMultiplier : ℚ) : Bool :=
  match actualMultiplier.toNumber coercion with
  | some q =>
    decide (|ClashRoyale.roundDouble (q - expectedMultiplier)| > ClashRoyale.roundDouble 0.01)
  | none => false

/-- The loop `for (let mines = 1; mines <= 10; mines++)` over the mine counts
still to visit, with the variables `allCorrect` and `details` (kept as the list
of the mine counts reported). -/
def multiplierLoop (coercion : NumberCoercion) (page : Nat → MultiplierReply) :
    List Nat → Bool × List Nat → Except Thrown (Bool × List Nat)
  | [], state => Except.ok state
  | mines :: rest, (allCorrect, details) =>
    match page mines with
    | MultiplierReply.throws error => Except.error error
    | MultiplierReply.multiplier actualMultiplier =>
      if multiplierIsOff coercion actualMultiplier (expectedMultipliers mines) = true then
        multiplierLoop coercion page rest (false, details ++ [mines])
      else multiplierLoop coercion page rest (allCorrect, details)

/-- The test function of `testMultiplierCalculations`; the array `details` is
stored as an object. -/
def multiplierTestFunction (coercion : NumberCoercion) (page : Nat → MultiplierReply) :
    RunOutcome :=
  match multiplierLoop coercion page (List.range' 1 10) (true, []) with
  | Except.error error => RunOutcome.throws error
  | Except.ok (allCorrect, _) =>
    RunOutcome.returns (TestReturn.object (JsValue.bool allCorrect)
      (JsValue.string (if allCorrect = true then "All multiplier calculations are correct"
        else "Some multiplier calculations are incorrect"))
      (JsValue.object 0))

/-- The method `testMultiplierCalculations`. -/
def MinesGameTester.testMultiplierCalculations (coercion : NumberCoercion)
    (typeError : ErrorObject) (page : Nat → MultiplierReply) (t : MinesGameTester) :
    TesterCall :=
  MinesGameTester.runTest typeError t "Multiplier Calculations"
    (multiplierTestFunction coercion page)

/-- The test passed: the call ended normally and counted one more pass. -/
def MultiplierTestPassed (coercion : NumberCoercion) (typeError : ErrorObject)
    (page : Nat → MultiplierReply) (t : MinesGameTester) : Prop :=
  (MinesGameTester.testMultiplierCalculations coercion typeError page t).escaped = false ∧
    (MinesGameTester.testMultiplierCalculations coercion typeError page t).tester.passCount =
      t.passCount + 1

/-- The condition as the claim states it: for every mine count `m` from 1 to 10
the multiplier read is a number that differs by at most 0.01 from
`min(1, (m + 1) / 10)`. -/
def MultipliersWithinTolerance (coercion : NumberCoercion) (page : Nat → MultiplierReply) :
    Prop :=
  ∀ m, 1 ≤ m → m ≤ 10 →
    ∃ (v : JsValue) (q : ℚ), page m = MultiplierReply.multiplier v ∧
      v.toNumber coercion = some q ∧ |q - min 1 (((m : ℚ) + 1) / 10)| ≤ 0.01

/-- A page whose game has no `multiplier`: the value read is `undefined` at every
mine count. -/
def samplePageNoMultiplier : Nat → MultiplierReply :=
  fun _ => MultiplierReply.multiplier JsValue.undefined

/-- A page whose multiplier is the table value, the double written
`0.2`, ..., `1.0`. -/
def samplePageExact : Nat → MultiplierReply :=
  fun m => MultiplierReply.multiplier (JsValue.number (expectedMultipliers m))

/-- A conversion under which no string and no object is a number. -/
def sampleCoercion : NumberCoercion :=
  { ofString := fun _ => none, ofObject := fun _ => none }

/-! ## ClashRoyaleTestSuite -/

/-- One element of `bugs`, `polishIssues` or `authenticityIssues`. -/
structure Issue where
  priority : String
  title : String
  description : String
  type : String

/-- One element of `testResults` of the suite; `error` is absent on a result
without error. -/
structure SuiteResult where
  name : String
  passed : JsValue
  status : String
  error : Option JsValue

/-- The fields of `ClashRoyaleTestSuite` that its methods write (the references
`canvas`, `ctx`, `gameState` and `cardDatabase` are read only). -/
structure ClashRoyaleTestSuite where
  testResults : List SuiteResult
  bugs : List Issue
  polishIssues : List Issue
  authenticityIssues : List Issue

/-- The constructor of `ClashRoyaleTestSuite`. -/
def ClashRoyaleTestSuite.new : ClashRoyaleTestSuite :=
  { testResults := [], bugs := [], polishIssues := [], authenticityIssues := [] }

/-- What one call `testFunction()` of a check does: it returns a value or it
throws. -/
inductive CheckOutcome where
  | returns (value : JsValue)
  | throws (error : Thrown)

/-- A check function handed to `test`, as what it does when it is called: the
issues it files through `addBug`, `addPolishIssue` and `addAuthenticityIssue`,
and how it ends. -/
structure CheckRun where
  bugs : List Issue
  polishIssues : List Issue
  authenticityIssues : List Issue
  outcome : CheckOutcome

/-- The suite after a call of `test`, and the value returned, `none` when the
call ended by an exception that left `test`. -/
structure SuiteCall where
  suite : ClashRoyaleTestSuite
  returned : Option JsValue

/-- The method `test`.  In the `catch` block the element pushed is built first,
and reading `error.message` of `null` or `undefined` raises a `TypeError` that
leaves `test` before anything is pushed. -/
def ClashRoyaleTestSuite.test (s : ClashRoyaleTestSuite) (name : String)
    (testFunction : CheckRun) : SuiteCall :=
  let s1 : ClashRoyaleTestSuite :=
    { s with
      bugs := s.bugs ++ testFunction.bugs
      polishIssues := s.polishIssues ++ testFunction.polishIssues
      authenticityIssues := s.authenticityIssues ++ testFunction.authenticityIssues }
  match testFunction.outcome with
  | CheckOutcome.returns passed =>
    { suite :=
        { s1 with
          testResults := s1.testResults ++
            [{ name := name, passed := passed,
               status := if passed.truthy = true then "✅ PASS" else "❌ FAIL",
               error := none }] }
      returned := some passed }
  | CheckOutcome.throws Thrown.nullish => { suite := s1, returned := none }
  | CheckOutcome.throws (Thrown.error e) =>
    { suite :=
        { s1 with
          testResults := s1.testResults ++
            [{ name := name, passed := JsValue.bool false, status := "💥 ERROR",
               error := some (propertyValue e.message) }] }
      returned := some (JsValue.bool false) }

/-- The names of the checks of `testGameMechanics`. -/
def testGameMechanics : List String :=
  ["Elixir generation timing", "Game duration authenticity", "Double elixir timing",
   "Arena size proportions"]

/-- The names of the checks of `testCardFunctionality`. -/
def testCardFunctionality : List String :=
  ["Deployment zone restrictions", "Card cost balance", "Card rarity authenticity"]

/-- The names of the checks of `testTowerBehavior`. -/
def testTowerBehavior : List String :=
  ["Tower HP authenticity", "Tower targeting restrictions"]

/-- The names of the checks of `testElixirSystem`. -/
def testElixirSystem : List String :=
  ["Maximum elixir limit", "Double elixir timing"]

/-- The names of the checks of `testPathfinding`. -/
def testPathfinding : List String :=
  ["Bridge crossing logic", "Flying vs ground unit pathfinding"]

/-- The names of the checks of `testBridgeRestrictions`. -/
def testBridgeRestrictions : List String :=
  ["Ground troop bridge crossing"]

/-- The names of the checks of `testWinConditions`. -/
def testWinConditions : List String :=
  ["Three crown victory", "Time-based victory conditions"]

/-- The names of the checks of `testXBowFunctionality`. -/
def testXBowFunctionality : List String :=
  ["X-Bow range accuracy", "X-Bow building targeting behavior", "X-Bow attack speed"]

/-- The names of the checks of `testBuildingLifetimes`. -/
def testBuildingLifetimes : List String :=
  ["Building lifetime authenticity"]

/-- The names of the checks of `testSpellEffects`. -/
def testSpellEffects : List String :=
  ["Spell damage values", "Missing spell mechanics"]

/-- The names of the checks of `testTroopAbilities`. -/
def testTroopAbilities : List String :=
  ["Flying troop mechanics", "Prince charge mechanic", "Splash damage implementation"]

/-- The names of the checks of `testVisualEffects`. -/
def testVisualEffects : List String :=
  ["Damage number effects", "Attack visual effects"]

/-- The names of the checks of `testAuthenticityIssues`. -/
def testAuthenticityIssues : List String :=
  ["Missing core CR features", "UI/UX authenticity", "Battle mechanics authenticity"]

/-- The names of the checks of `testPolishIssues`. -/
def testPolishIssues : List String :=
  ["Mobile optimization", "Audio feedback", "Animation quality"]

/-- The names of the checks of `testPerformanceIssues`. -/
def testPerformanceIssues : List String :=
  ["Canvas rendering efficiency", "Memory management"]

/-- The names of the checks of `testUIUXIssues`. -/
def testUIUXIssues : List String :=
  ["Card selection clarity", "Deployment zone indicators"]

/-- The checks of `runAllTests`, in the order in which it calls the sixteen
methods above. -/
def suiteCheckNames : List String :=
  testGameMechanics ++ testCardFunctionality ++ testTowerBehavior ++ testElixirSystem ++
    testPathfinding ++ testBridgeRestrictions ++ testWinConditions ++
    testXBowFunctionality ++ testBuildingLifetimes ++ testSpellEffects ++
    testTroopAbilities ++ testVisualEffects ++
    testAuthenticityIssues ++
    testPolishIssues ++ testPerformanceIssues ++ testUIUXIssues

/-- A run of calls of `test` in sequence; an exception that leaves one of them
ends the sequence.  The flag tells whether that happened. -/
def ClashRoyaleTestSuite.runChecks :
    List (String × CheckRun) → ClashRoyaleTestSuite → ClashRoyaleTestSuite × Bool
  | [], s => (s, false)
  | (name, testFunction) :: rest, s =>
    match (ClashRoyaleTestSuite.test s name testFunction).returned with
    | none => ((ClashRoyaleTestSuite.test s name testFunction).suite, true)
    | some _ =>
      ClashRoyaleTestSuite.runChecks rest (ClashRoyaleTestSuite.test s name testFunction).suite

/-- The `summary` of the report, without its `successRate` text. -/
structure ReportSummary where
  totalTests : Nat
  passedTests : Nat
  failedTests : Nat

/-- The summary computed by `generateReport`. -/
def ClashRoyaleTestSuite.generateReport (s : ClashRoyaleTestSuite) : ReportSummary :=
  let totalTests := s.testResults.length
  let passedTests := (s.testResults.filter (fun t => t.passed.truthy)).length
  let failedTests := totalTests - passedTests
  { totalTests := totalTests, passedTests := passedTests, failedTests := failedTests }

/-- The method `runAllTests`: the suite afterwards and the report generated,
`none` when an exception ended the run before `generateReport`.  `environment i`
is what the `i`-th check, in call order, does in the page at hand: the checks
read `gameState`, `cardDatabase`, `document` and `Tower`, so that a check may
return any value and may throw any value, `null` and `undefined` included. -/
def ClashRoyaleTestSuite.runAllTests (environment : Nat → CheckRun)
    (s : ClashRoyaleTestSuite) : ClashRoyaleTestSuite × Option ReportSummary :=
  let r := ClashRoyaleTestSuite.runChecks
    (suiteCheckNames.zip ((List.range suiteCheckNames.length).map environment)) s
  if r.2 = true then (r.1, none) else (r.1, some (ClashRoyaleTestSuite.generateReport r.1))

/-- An environment in which every check returns `false` and files nothing. -/
def sampleEnvironment : Nat → CheckRun :=
  fun _ => { bugs := [], polishIssues := [], authenticityIssues := [], outcome := CheckOutcome.returns (JsValue.bool false) }

/-- An environment whose global `Tower` has a `toString` that throws `null`: the
check `Tower HP authenticity`, the eighth in call order, calls `Tower.toString()`
and ends by that exception; the other checks return `false`. -/
def sampleEnvironmentTowerThrows : Nat → CheckRun :=
  fun i =>
    if i = 7 then
      { bugs := [], polishIssues := [], authenticityIssues := [], outcome := CheckOutcome.throws Thrown.nullish }
    else sampleEnvironment i

end TestRunners

namespace ClashRoyale

/-! ## Lemmas on the scan -/

theorem mem_get_categorize (gd : Entity → Entity → ℚ) (self : Entity) (b : Buckets)
    (e : Entity) (k : Category) (c : Candidate) :
    c ∈ (categorize gd self b e).get k ↔
      c ∈ b.get k ∨ (Eligible gd self e ∧ categoryOf e = k ∧ c = ⟨e, gd self e⟩) := by
  unfold categorize categoryOf Eligible
  by_cases h1 : e.owner ≠ self.owner ∧ e.isDead = false ∧ e.health > 0
  · by_cases h2 : gd self e ≤ self.range
    · obtain ⟨ho, hd, hh⟩ := h1
      by_cases hp : e.type = some "princess"
      · cases k <;> simp [Buckets.get, ho, hd, hh, h2, hp]
      · by_cases hk : e.type = some "king"
        · cases k <;> simp [Buckets.get, ho, hd, hh, h2, hp, hk]
        · by_cases hb : dataIsBuilding e = true
          · cases k <;> simp [Buckets.get, ho, hd, hh, h2, hp, hk, hb]
          · cases k <;> simp [Buckets.get, ho, hd, hh, h2, hp, hk, hb]
    · have : ¬ (e.owner ≠ self.owner ∧ e.isDead = false ∧ 0 < e.health ∧
          gd self e ≤ self.range) := fun h => h2 h.2.2.2
      simp [h1, h2, this]
  · have : ¬ (e.owner ≠ self.owner ∧ e.isDead = false ∧ 0 < e.health ∧
        gd self e ≤ self.range) := fun h => h1 ⟨h.1, h.2.1, h.2.2.1⟩
    simp [h1, this]

theorem mem_get_foldl (gd : Entity → Entity → ℚ) (self : Entity) (k : Category)
    (c : Candidate) (l : List Entity) :
    ∀ b : Buckets, c ∈ (l.foldl (categorize gd self) b).get k ↔
      c ∈ b.get k ∨ ∃ e ∈ l, Eligible gd self e ∧ categoryOf e = k ∧ c = ⟨e, gd self e⟩ := by
  induction l with
  | nil => intro b; simp
  | cons a l ih =>
    intro b
    rw [List.foldl_cons, ih, mem_get_categorize]
    constructor
    · rintro ((h | h) | ⟨e, he, h⟩)
      · exact Or.inl h
      · exact Or.inr ⟨a, List.mem_cons_self _ _, h⟩
      · exact Or.inr ⟨e, List.mem_cons_of_mem _ he, h⟩
    · rintro (h | ⟨e, he, h⟩)
      · exact Or.inl (Or.inl h)
      · rcases List.mem_cons.1 he with rfl | he
        · exact Or.inl (Or.inr h)
        · exact Or.inr ⟨e, he, h⟩

/-- What the scan leaves on the list of category `k`. -/
theorem mem_collectTargets (gd : Entity → Entity → ℚ) (self : Entity) (gs : GameState)
    (k : Category) (c : Candidate) :
    c ∈ (collectTargets gd self gs).get k ↔
      ∃ e ∈ gs.all, Eligible gd self e ∧ categoryOf e = k ∧ c = ⟨e, gd self e⟩ := by
  unfold collectTargets GameState.all
  rw [mem_get_foldl]
  simp [Buckets.get]
  cases k <;> simp

/-! ## Lemmas on the choice of the closest candidate -/

/-- On a non-empty list `pickTarget` returns the entity of a member of least distance. -/
theorem pickTarget_of_ne_nil (l : List Candidate) (hne : l ≠ []) :
    ∃ c ∈ l, pickTarget l = some c.entity ∧ ∀ d ∈ l, c.distance ≤ d.distance := by
  have hperm : List.Perm (sortByDistance l) l := List.perm_insertionSort _ l
  have hsorted : (sortByDistance l).Sorted (fun a b => a.distance ≤ b.distance) :=
    List.sorted_insertionSort _ l
  have hlen : l.length > 0 := List.length_pos.2 hne
  unfold pickTarget
  rw [if_pos hlen]
  cases hs : sortByDistance l with
  | nil =>
    rw [hs] at hperm
    exact absurd hperm.symm.eq_nil hne
  | cons c r =>
    rw [hs] at hperm hsorted
    refine ⟨c, hperm.mem_iff.1 (List.mem_cons_self _ _), rfl, ?_⟩
    intro d hd
    rcases List.mem_cons.1 (hperm.mem_iff.2 hd) with rfl | hdr
    · exact le_refl _
    · exact List.rel_of_sorted_cons hsorted d hdr

theorem pickTarget_nil : pickTarget [] = none := rfl

/-- Whatever `pickTarget` returns is the entity of a member of least distance. -/
theorem pickTarget_eq_some (l : List Candidate) (t : Entity) (h : pickTarget l = some t) :
    ∃ c ∈ l, c.entity = t ∧ ∀ d ∈ l, c.distance ≤ d.distance := by
  by_cases hne : l = []
  · subst hne; simp [pickTarget_nil] at h
  · obtain ⟨c, hc, hpick, hmin⟩ := pickTarget_of_ne_nil l hne
    rw [hpick] at h
    exact ⟨c, hc, Option.some.inj h, hmin⟩

/-- The selected list is one of the four priority lists or is empty. -/
theorem selectTargetList_cases (self : Entity) (b : Buckets) :
    (∃ k, selectTargetList self b = b.get k) ∨ selectTargetList self b = [] := by
  unfold selectTargetList
  split_ifs
  · exact Or.inl ⟨Category.princess, rfl⟩
  · exact Or.inl ⟨Category.king, rfl⟩
  · exact Or.inl ⟨Category.building, rfl⟩
  · exact Or.inl ⟨Category.troop, rfl⟩
  · exact Or.inr rfl

theorem selectTargetList_princess (self : Entity) (b : Buckets)
    (h : b.princessTowers ≠ []) : selectTargetList self b = b.princessTowers := by
  unfold selectTargetList
  rw [if_pos (List.length_pos.2 h)]

theorem selectTargetList_king (self : Entity) (b : Buckets)
    (hp : b.princessTowers = []) (h : b.kingTowers ≠ []) :
    selectTargetList self b = b.kingTowers := by
  unfold selectTargetList
  rw [if_neg (by simp [hp]), if_pos (List.length_pos.2 h)]

theorem selectTargetList_building (self : Entity) (b : Buckets)
    (hp : b.princessTowers = []) (hk : b.kingTowers = [])
    (ht : self.targetType = some "building") (h : b.buildings ≠ []) :
    selectTargetList self b = b.buildings := by
  unfold selectTargetList
  rw [if_neg (by simp [hp]), if_neg (by simp [hk]), if_pos ⟨ht, List.length_pos.2 h⟩]

/-- A list of the scan is empty when no eligible entity has its category. -/
theorem get_collectTargets_eq_nil (gd : Entity → Entity → ℚ) (self : Entity)
    (gs : GameState) (k : Category)
    (h : ∀ e ∈ gs.all, Eligible gd self e → categoryOf e ≠ k) :
    (collectTargets gd self gs).get k = [] := by
  apply List.eq_nil_iff_forall_not_mem.2
  intro c hc
  obtain ⟨e, he, hel, hcat, -⟩ := (mem_collectTargets gd self gs k c).1 hc
  exact h e he hel hcat

/-- A list of the scan is non-empty when an eligible entity has its category. -/
theorem get_collectTargets_ne_nil (gd : Entity → Entity → ℚ) (self : Entity)
    (gs : GameState) (k : Category) (e : Entity) (he : e ∈ gs.all)
    (hel : Eligible gd self e) (hcat : categoryOf e = k) :
    (collectTargets gd self gs).get k ≠ [] := by
  intro hnil
  have : (⟨e, gd self e⟩ : Candidate) ∈ (collectTargets gd self gs).get k :=
    (mem_collectTargets gd self gs k _).2 ⟨e, he, hel, hcat, rfl⟩
  rw [hnil] at this
  exact List.not_mem_nil _ this

theorem categoryOf_eq_princess (e : Entity) :
    categoryOf e = Category.princess ↔ e.type = some "princess" := by
  unfold categoryOf
  split_ifs <;> simp_all

theorem categoryOf_eq_king (e : Entity) :
    categoryOf e = Category.king ↔ e.type = some "king" := by
  unfold categoryOf
  split_ifs with h1 h2 h3
  · simp [h1]
  · simp [h2]
  · simp [h2]
  · simp [h2]

theorem categoryOf_eq_building (e : Entity) :
    categoryOf e = Category.building ↔
      e.type ≠ some "princess" ∧ e.type ≠ some "king" ∧ dataIsBuilding e = true := by
  unfold categoryOf
  split_ifs <;> simp_all

/-! ## The computable square root -/

theorem sqrtQ_mul_self (r : ℚ) (hr : 0 ≤ r) : sqrtQ (r * r) = r := by
  unfold sqrtQ
  have hnum : 0 ≤ r.num := Rat.num_nonneg.2 hr
  have h1 : (r * r).num.toNat = r.num.toNat * r.num.toNat := by
    rw [Rat.mul_self_num]
    apply Int.ofNat.inj
    simp only [Int.ofNat_eq_coe]
    rw [Int.toNat_of_nonneg (mul_nonneg hnum hnum)]
    push_cast
    rw [Int.toNat_of_nonneg hnum]
  rw [h1, Rat.mul_self_den, Nat.sqrt_eq, Nat.sqrt_eq]
  have h2 : ((r.num.toNat : ℕ) : ℚ) = (r.num : ℚ) := by
    have : ((r.num.toNat : ℕ) : ℤ) = r.num := Int.toNat_of_nonneg hnum
    exact_mod_cast this
  rw [h2]
  exact Rat.num_div_den r

theorem sqrtQ_eq (q r : ℚ) (hr : 0 ≤ r) (h : q = r * r) : sqrtQ q = r := by
  rw [h]; exact sqrtQ_mul_self r hr

theorem euclid_eq (a b : Entity) (r : ℚ) (hr : 0 ≤ r)
    (h : (a.x - b.x) * (a.x - b.x) + (a.y - b.y) * (a.y - b.y) = r * r) :
    euclid a b = r := sqrtQ_eq _ r hr h

theorem euclid_knight_princess : euclid sampleKnight samplePrincess = 50 :=
  euclid_eq _ _ 50 (by norm_num) (by norm_num [sampleKnight, samplePrincess])

theorem euclid_knight_king : euclid sampleKnight sampleKing = 30 :=
  euclid_eq _ _ 30 (by norm_num) (by norm_num [sampleKnight, sampleKing])

theorem euclid_knight_cannon : euclid sampleKnight sampleCannon = 10 :=
  euclid_eq _ _ 10 (by norm_num) (by norm_num [sampleKnight, sampleCannon])

theorem euclid_knight_goblin : euclid sampleKnight sampleGoblin = 5 :=
  euclid_eq _ _ 5 (by norm_num) (by norm_num [sampleKnight, sampleGoblin])

theorem eligible_princess : Eligible euclid sampleKnight samplePrincess :=
  ⟨by decide, rfl, by norm_num [samplePrincess],
    by rw [euclid_knight_princess]; norm_num [sampleKnight]⟩

theorem eligible_king : Eligible euclid sampleKnight sampleKing :=
  ⟨by decide, rfl, by norm_num [sampleKing],
    by rw [euclid_knight_king]; norm_num [sampleKnight]⟩

theorem eligible_cannon : Eligible euclid sampleKnight sampleCannon :=
  ⟨by decide, rfl, by norm_num [sampleCannon],
    by rw [euclid_knight_cannon]; norm_num [sampleKnight]⟩

theorem eligible_goblin : Eligible euclid sampleKnight sampleGoblin :=
  ⟨by decide, rfl, by norm_num [sampleGoblin],
    by rw [euclid_knight_goblin]; norm_num [sampleKnight]⟩

theorem not_eligible_knight : ¬ Eligible euclid sampleKnight sampleKnight :=
  fun h => h.1 rfl

/-! ## Targeting priority -/

/-- C1: when an enemy princess tower that is not dead, has positive health and
lies within the attacker's range exists among the entities and towers,
`improvedFindTarget` sets the target to a princess tower of the game state,
whatever else is in range and however near. -/
theorem improvedFindTarget_princess_priority (getDistance : Entity → Entity → ℚ)
    (gameState : GameState) (self : Attacker)
    (h : ∃ e ∈ gameState.entities ++ gameState.towers, e.type = some "princess" ∧
      e.owner ≠ self.self.owner ∧ e.isDead = false ∧ 0 < e.health ∧
      getDistance self.self e ≤ self.self.range) :
    ∃ t ∈ gameState.entities ++ gameState.towers,
      (improvedFindTarget getDistance gameState self).target = some t ∧
      t.type = some "princess" := by
  obtain ⟨e, he, hty, ho, hd, hh, hr⟩ := h
  have hne : (collectTargets getDistance self.self gameState).get Category.princess ≠ [] :=
    get_collectTargets_ne_nil _ _ _ _ e he ⟨ho, hd, hh, hr⟩
      ((categoryOf_eq_princess e).2 hty)
  have hsel := selectTargetList_princess self.self _ hne
  obtain ⟨c, hc, hpick, -⟩ := pickTarget_of_ne_nil _ hne
  obtain ⟨t, ht, -, hcat, rfl⟩ := (mem_collectTargets _ _ _ _ c).1 hc
  refine ⟨t, ht, ?_, (categoryOf_eq_princess t).1 hcat⟩
  show pickTarget (selectTargetList self.self _) = some t
  rw [hsel]
  exact hpick

/-- C1 at the sample arena: a troop, a building and a king tower are nearer than
the princess tower, which is still the one targeted. -/
theorem improvedFindTarget_princess_priority_witness :
    (∃ e ∈ sampleArena.entities ++ sampleArena.towers, e.type = some "princess" ∧
      e.owner ≠ sampleKnight.owner ∧ e.isDead = false ∧ 0 < e.health ∧
      euclid sampleKnight e ≤ sampleKnight.range) ∧
    ∃ t ∈ sampleArena.entities ++ sampleArena.towers,
      (improvedFindTarget euclid sampleArena ⟨sampleKnight, none⟩).target = some t ∧
      t.type = some "princess" :=
  have hyp : ∃ e ∈ sampleArena.entities ++ sampleArena.towers, e.type = some "princess" ∧
      e.owner ≠ sampleKnight.owner ∧ e.isDead = false ∧ 0 < e.health ∧
      euclid sampleKnight e ≤ sampleKnight.range :=
    ⟨samplePrincess, by simp [sampleArena], rfl, eligible_princess⟩
  ⟨hyp, improvedFindTarget_princess_priority euclid sampleArena ⟨sampleKnight, none⟩ hyp⟩

/-- C2: the target that `improvedFindTarget` sets is itself an eligible candidate
of the game state, and no eligible candidate of its category is strictly nearer
to the attacker. -/
theorem improvedFindTarget_closest_first (getDistance : Entity → Entity → ℚ)
    (gameState : GameState) (self : Attacker) (t : Entity)
    (h : (improvedFindTarget getDistance gameState self).target = some t) :
    t ∈ gameState.entities ++ gameState.towers ∧ Eligible getDistance self.self t ∧
    ∀ e ∈ gameState.entities ++ gameState.towers, Eligible getDistance self.self e →
      categoryOf e = categoryOf t →
      ¬ getDistance self.self e < getDistance self.self t := by
  have h1 : pickTarget (selectTargetList self.self
      (collectTargets getDistance self.self gameState)) = some t := h
  obtain ⟨c, hc, hct, hmin⟩ := pickTarget_eq_some _ t h1
  rcases selectTargetList_cases self.self (collectTargets getDistance self.self gameState)
    with ⟨k, hk⟩ | hnil
  · rw [hk] at hc hmin
    obtain ⟨e0, he0, hel0, hcat0, rfl⟩ := (mem_collectTargets _ _ _ _ c).1 hc
    have ht0 : e0 = t := hct
    subst ht0
    refine ⟨he0, hel0, ?_⟩
    intro e he hel hcat
    have hmem : (⟨e, getDistance self.self e⟩ : Candidate) ∈
        (collectTargets getDistance self.self gameState).get k :=
      (mem_collectTargets _ _ _ _ _).2 ⟨e, he, hel, hcat.trans hcat0, rfl⟩
    exact not_lt.2 (hmin _ hmem)
  · rw [hnil] at hc
    exact absurd hc (List.not_mem_nil _)

/-- C3: a building-targeting attacker with no eligible princess or king tower,
but with an eligible building and an eligible troop, gets as target an eligible
building that is nearest among the eligible buildings (hence not a troop). -/
theorem improvedFindTarget_building_over_troop (getDistance : Entity → Entity → ℚ)
    (gameState : GameState) (self : Attacker)
    (htt : self.self.targetType = some "building")
    (hno : ∀ e ∈ gameState.entities ++ gameState.towers, Eligible getDistance self.self e →
      e.type ≠ some "princess" ∧ e.type ≠ some "king")
    (hb : ∃ e ∈ gameState.entities ++ gameState.towers,
      Eligible getDistance self.self e ∧ dataIsBuilding e = true)
    (_htroop : ∃ e ∈ gameState.entities ++ gameState.towers,
      Eligible getDistance self.self e ∧ dataIsBuilding e = false) :
    ∃ t ∈ gameState.entities ++ gameState.towers,
      (improvedFindTarget getDistance gameState self).target = some t ∧
      Eligible getDistance self.self t ∧ dataIsBuilding t = true ∧
      categoryOf t = Category.building ∧
      ∀ e ∈ gameState.entities ++ gameState.towers, Eligible getDistance self.self e →
        dataIsBuilding e = true → getDistance self.self t ≤ getDistance self.self e := by
  have hp : (collectTargets getDistance self.self gameState).get Category.princess = [] :=
    get_collectTargets_eq_nil _ _ _ _ fun e he hel hcat =>
      (hno e he hel).1 ((categoryOf_eq_princess e).1 hcat)
  have hk : (collectTargets getDistance self.self gameState).get Category.king = [] :=
    get_collectTargets_eq_nil _ _ _ _ fun e he hel hcat =>
      (hno e he hel).2 ((categoryOf_eq_king e).1 hcat)
  obtain ⟨b, hbm, hbel, hbb⟩ := hb
  have hne : (collectTargets getDistance self.self gameState).get Category.building ≠ [] :=
    get_collectTargets_ne_nil _ _ _ _ b hbm hbel
      ((categoryOf_eq_building b).2 ⟨(hno b hbm hbel).1, (hno b hbm hbel).2, hbb⟩)
  have hsel := selectTargetList_building self.self _ hp hk htt hne
  obtain ⟨c, hc, hpick, hmin⟩ := pickTarget_of_ne_nil _ hne
  obtain ⟨t, ht, htel, hcat, rfl⟩ := (mem_collectTargets _ _ _ _ c).1 hc
  refine ⟨t, ht, ?_, htel, ((categoryOf_eq_building t).1 hcat).2.2, hcat, ?_⟩
  · show pickTarget (selectTargetList self.self _) = some t
    rw [hsel]
    exact hpick
  · intro e he hel heb
    have hmem : (⟨e, getDistance self.self e⟩ : Candidate) ∈
        (collectTargets getDistance self.self gameState).get Category.building :=
      (mem_collectTargets _ _ _ _ _).2 ⟨e, he, hel,
        (categoryOf_eq_building e).2 ⟨(hno e he hel).1, (hno e he hel).2, heb⟩, rfl⟩
    exact hmin _ hmem

/-- C4: when no eligible princess tower exists and an eligible king tower does,
the target set is a king tower of the game state, whatever buildings and troops
are in range and whatever the attacker's `targetType`. -/
theorem improvedFindTarget_king_fallback (getDistance : Entity → Entity → ℚ)
    (gameState : GameState) (self : Attacker)
    (hno : ∀ e ∈ gameState.entities ++ gameState.towers, Eligible getDistance self.self e →
      e.type ≠ some "princess")
    (hk : ∃ e ∈ gameState.entities ++ gameState.towers,
      Eligible getDistance self.self e ∧ e.type = some "king") :
    ∃ t ∈ gameState.entities ++ gameState.towers,
      (improvedFindTarget getDistance gameState self).target = some t ∧
      t.type = some "king" := by
  have hp : (collectTargets getDistance self.self gameState).get Category.princess = [] :=
    get_collectTargets_eq_nil _ _ _ _ fun e he hel hcat =>
      hno e he hel ((categoryOf_eq_princess e).1 hcat)
  obtain ⟨k, hkm, hkel, hkt⟩ := hk
  have hne : (collectTargets getDistance self.self gameState).get Category.king ≠ [] :=
    get_collectTargets_ne_nil _ _ _ _ k hkm hkel ((categoryOf_eq_king k).2 hkt)
  have hsel := selectTargetList_king self.self _ hp hne
  obtain ⟨c, hc, hpick, -⟩ := pickTarget_of_ne_nil _ hne
  obtain ⟨t, ht, -, hcat, rfl⟩ := (mem_collectTargets _ _ _ _ c).1 hc
  refine ⟨t, ht, ?_, (categoryOf_eq_king t).1 hcat⟩
  show pickTarget (selectTargetList self.self _) = some t
  rw [hsel]
  exact hpick

theorem categorize_of_not_eligible (gd : Entity → Entity → ℚ) (self : Entity) (b : Buckets)
    (e : Entity) (h : ¬ Eligible gd self e) : categorize gd self b e = b := by
  unfold categorize
  by_cases h1 : e.owner ≠ self.owner ∧ e.isDead = false ∧ e.health > 0
  · have h2 : ¬ gd self e ≤ self.range := fun h2 => h ⟨h1.1, h1.2.1, h1.2.2, h2⟩
    rw [if_pos h1]
    simp only [if_neg h2]
  · rw [if_neg h1]

theorem categorize_of_eligible (gd : Entity → Entity → ℚ) (self : Entity) (b : Buckets)
    (e : Entity) (h : Eligible gd self e) :
    categorize gd self b e =
      if e.type = some "princess" then
        { b with princessTowers := b.princessTowers ++ [⟨e, gd self e⟩] }
      else if e.type = some "king" then
        { b with kingTowers := b.kingTowers ++ [⟨e, gd self e⟩] }
      else if dataIsBuilding e = true then
        { b with buildings := b.buildings ++ [⟨e, gd self e⟩] }
      else
        { b with troops := b.troops ++ [⟨e, gd self e⟩] } := by
  unfold categorize
  rw [if_pos ⟨h.1, h.2.1, h.2.2.1⟩]
  simp only [if_pos h.2.2.2]

theorem sampleArena_collect :
    collectTargets euclid sampleKnight sampleArena =
      ⟨[⟨samplePrincess, 50⟩], [⟨sampleKing, 30⟩], [⟨sampleCannon, 10⟩], [⟨sampleGoblin, 5⟩]⟩ := by
  unfold collectTargets sampleArena
  dsimp only
  rw [List.cons_append, List.cons_append, List.cons_append, List.nil_append]
  rw [List.foldl_cons, categorize_of_not_eligible _ _ _ _ not_eligible_knight]
  rw [List.foldl_cons, categorize_of_eligible _ _ _ _ eligible_goblin]
  rw [List.foldl_cons, categorize_of_eligible _ _ _ _ eligible_cannon]
  rw [List.foldl_cons, categorize_of_eligible _ _ _ _ eligible_king]
  rw [List.foldl_cons, categorize_of_eligible _ _ _ _ eligible_princess, List.foldl_nil]
  rw [euclid_knight_goblin, euclid_knight_cannon, euclid_knight_king, euclid_knight_princess]
  simp [sampleGoblin, sampleCannon, sampleKing, samplePrincess, dataIsBuilding]

theorem sampleArena_target :
    (improvedFindTarget euclid sampleArena ⟨sampleKnight, none⟩).target =
      some samplePrincess := by
  show pickTarget (selectTargetList sampleKnight
    (collectTargets euclid sampleKnight sampleArena)) = some samplePrincess
  rw [sampleArena_collect]
  simp [selectTargetList, pickTarget, sortByDistance]

/-- C2 at the sample arena: the princess tower is targeted and no eligible
princess tower is strictly nearer. -/
theorem improvedFindTarget_closest_first_witness :
    (improvedFindTarget euclid sampleArena ⟨sampleKnight, none⟩).target = some samplePrincess ∧
    (samplePrincess ∈ sampleArena.entities ++ sampleArena.towers ∧
      Eligible euclid sampleKnight samplePrincess ∧
      ∀ e ∈ sampleArena.entities ++ sampleArena.towers, Eligible euclid sampleKnight e →
        categoryOf e = categoryOf samplePrincess →
        ¬ euclid sampleKnight e < euclid sampleKnight samplePrincess) :=
  ⟨sampleArena_target,
    improvedFindTarget_closest_first euclid sampleArena ⟨sampleKnight, none⟩ samplePrincess
      sampleArena_target⟩

/-- C3 at an arena with a troop at distance 5 and a building at distance 10: the
building is targeted. -/
theorem improvedFindTarget_building_over_troop_witness :
    sampleKnight.targetType = some "building" ∧
    (∀ e ∈ sampleArenaBuilding.entities ++ sampleArenaBuilding.towers,
      Eligible euclid sampleKnight e → e.type ≠ some "princess" ∧ e.type ≠ some "king") ∧
    (∃ e ∈ sampleArenaBuilding.entities ++ sampleArenaBuilding.towers,
      Eligible euclid sampleKnight e ∧ dataIsBuilding e = true) ∧
    (∃ e ∈ sampleArenaBuilding.entities ++ sampleArenaBuilding.towers,
      Eligible euclid sampleKnight e ∧ dataIsBuilding e = false) ∧
    ∃ t ∈ sampleArenaBuilding.entities ++ sampleArenaBuilding.towers,
      (improvedFindTarget euclid sampleArenaBuilding ⟨sampleKnight, none⟩).target = some t ∧
      Eligible euclid sampleKnight t ∧ dataIsBuilding t = true ∧
      categoryOf t = Category.building ∧
      ∀ e ∈ sampleArenaBuilding.entities ++ sampleArenaBuilding.towers,
        Eligible euclid sampleKnight e → dataIsBuilding e = true →
        euclid sampleKnight t ≤ euclid sampleKnight e :=
  have hno : ∀ e ∈ sampleArenaBuilding.entities ++ sampleArenaBuilding.towers,
      Eligible euclid sampleKnight e → e.type ≠ some "princess" ∧ e.type ≠ some "king" := by
    intro e he _
    simp only [sampleArenaBuilding, List.append_nil, List.mem_cons, List.mem_singleton,
      List.not_mem_nil, or_false] at he
    rcases he with rfl | rfl | rfl <;> exact ⟨by decide, by decide⟩
  have hb : ∃ e ∈ sampleArenaBuilding.entities ++ sampleArenaBuilding.towers,
      Eligible euclid sampleKnight e ∧ dataIsBuilding e = true :=
    ⟨sampleCannon, by simp [sampleArenaBuilding], eligible_cannon, by decide⟩
  have ht : ∃ e ∈ sampleArenaBuilding.entities ++ sampleArenaBuilding.towers,
      Eligible euclid sampleKnight e ∧ dataIsBuilding e = false :=
    ⟨sampleGoblin, by simp [sampleArenaBuilding], eligible_goblin, by decide⟩
  ⟨rfl, hno, hb, ht,
    improvedFindTarget_building_over_troop euclid sampleArenaBuilding ⟨sampleKnight, none⟩
      rfl hno hb ht⟩

/-- C4 at an arena with a troop, a building and a king tower in range: the king
tower is targeted although the attacker targets buildings. -/
theorem improvedFindTarget_king_fallback_witness :
    (∀ e ∈ sampleArenaKing.entities ++ sampleArenaKing.towers,
      Eligible euclid sampleKnight e → e.type ≠ some "princess") ∧
    (∃ e ∈ sampleArenaKing.entities ++ sampleArenaKing.towers,
      Eligible euclid sampleKnight e ∧ e.type = some "king") ∧
    ∃ t ∈ sampleArenaKing.entities ++ sampleArenaKing.towers,
      (improvedFindTarget euclid sampleArenaKing ⟨sampleKnight, none⟩).target = some t ∧
      t.type = some "king" :=
  have hno : ∀ e ∈ sampleArenaKing.entities ++ sampleArenaKing.towers,
      Eligible euclid sampleKnight e → e.type ≠ some "princess" := by
    intro e he _
    simp only [sampleArenaKing, List.cons_append, List.nil_append, List.mem_cons,
      List.mem_singleton, List.not_mem_nil, or_false] at he
    rcases he with rfl | rfl | rfl | rfl <;> decide
  have hk : ∃ e ∈ sampleArenaKing.entities ++ sampleArenaKing.towers,
      Eligible euclid sampleKnight e ∧ e.type = some "king" :=
    ⟨sampleKing, by simp [sampleArenaKing], eligible_king, rfl⟩
  ⟨hno, hk,
    improvedFindTarget_king_fallback euclid sampleArenaKing ⟨sampleKnight, none⟩ hno hk⟩

/-! ## Ground movement and the bridge -/

/-- C5 at a failing input: with a 450 by 520 canvas, a player ground unit at
`(10, 259)` whose target is at `(10, 265)` moves in one call (speed 100,
`deltaTime` 20) to `(10, 261)`: it passes from one side of `BRIDGE_Y = 260` to
the other, and the segment it travels meets the bridge line at `x = 10`, outside
the bridge `[165, 285]`. -/
theorem moveWithImprovedPathfinding_crosses_off_bridge :
    (moveWithImprovedPathfinding sqrtQ euclid 450 520 ⟨[sampleReturning], []⟩
      sampleReturning ⟨10, 265⟩ 20).x = 10 ∧
    (moveWithImprovedPathfinding sqrtQ euclid 450 520 ⟨[sampleReturning], []⟩
      sampleReturning ⟨10, 265⟩ 20).y = 261 ∧
    OppositeSides 520 sampleReturning.y
      (moveWithImprovedPathfinding sqrtQ euclid 450 520 ⟨[sampleReturning], []⟩
        sampleReturning ⟨10, 265⟩ 20).y ∧
    ¬ CrossesAtBridge 450 520 sampleReturning.x sampleReturning.y
      (moveWithImprovedPathfinding sqrtQ euclid 450 520 ⟨[sampleReturning], []⟩
        sampleReturning ⟨10, 265⟩ 20).x
      (moveWithImprovedPathfinding sqrtQ euclid 450 520 ⟨[sampleReturning], []⟩
        sampleReturning ⟨10, 265⟩ 20).y := by
  have hs : sqrtQ 36 = 6 := sqrtQ_eq 36 6 (by norm_num) (by norm_num)
  have hmove : moveWithImprovedPathfinding sqrtQ euclid 450 520 ⟨[sampleReturning], []⟩
      sampleReturning ⟨10, 265⟩ 20 = { sampleReturning with x := 10, y := 261 } := by
    simp [moveWithImprovedPathfinding, sampleReturning]
    norm_num [hs]
  rw [hmove]
  refine ⟨rfl, rfl, Or.inl ⟨by norm_num [sampleReturning], by norm_num⟩, ?_⟩
  rintro ⟨t, -, -, -, hx, -⟩
  norm_num [sampleReturning] at hx

/-- The branch taken when the unit needs the bridge and is farther than 5 from
the bridge entrance. -/
theorem moveWithImprovedPathfinding_bridge_branch (sqrt : ℚ → ℚ)
    (getDistance : Entity → Entity → ℚ) (CANVAS_WIDTH CANVAS_HEIGHT : ℚ)
    (gameState : GameState) (self : Entity) (target : Position) (deltaTime : ℚ)
    (hneeds : (self.owner = "player" ∧ self.y > CANVAS_HEIGHT / 2 ∧
        target.y < CANVAS_HEIGHT / 2) ∨
      (self.owner = "ai" ∧ self.y < CANVAS_HEIGHT / 2 ∧ target.y > CANVAS_HEIGHT / 2))
    (hfar : 5 < sqrt ((CANVAS_WIDTH / 2 - self.x) * (CANVAS_WIDTH / 2 - self.x) +
      (CANVAS_HEIGHT / 2 - self.y) * (CANVAS_HEIGHT / 2 - self.y))) :
    moveWithImprovedPathfinding sqrt getDistance CANVAS_WIDTH CANVAS_HEIGHT gameState self
        target deltaTime =
      { self with
        x := self.x + (CANVAS_WIDTH / 2 - self.x) /
            sqrt ((CANVAS_WIDTH / 2 - self.x) * (CANVAS_WIDTH / 2 - self.x) +
              (CANVAS_HEIGHT / 2 - self.y) * (CANVAS_HEIGHT / 2 - self.y)) *
            ((if self.effects.contains "rage" then self.speed * 1.4 else self.speed) *
              (deltaTime / 1000))
        y := self.y + (CANVAS_HEIGHT / 2 - self.y) /
            sqrt ((CANVAS_WIDTH / 2 - self.x) * (CANVAS_WIDTH / 2 - self.x) +
              (CANVAS_HEIGHT / 2 - self.y) * (CANVAS_HEIGHT / 2 - self.y)) *
            ((if self.effects.contains "rage" then self.speed * 1.4 else self.speed) *
              (deltaTime / 1000)) } := by
  have hx : (CANVAS_WIDTH - 120) / 2 + 120 / 2 - self.x = CANVAS_WIDTH / 2 - self.x := by ring
  unfold moveWithImprovedPathfinding
  simp only [hx]
  rw [if_pos hneeds, if_pos hfar]

/-- When the unit needs the bridge, a call that takes it across the river does so
through the bridge entrance `(CANVAS_WIDTH / 2, CANVAS_HEIGHT / 2)`. -/
theorem moveWithImprovedPathfinding_bridge_branch_crosses (sqrt : ℚ → ℚ)
    (getDistance : Entity → Entity → ℚ) (CANVAS_WIDTH CANVAS_HEIGHT : ℚ)
    (gameState : GameState) (self : Entity) (target : Position) (deltaTime : ℚ)
    (hneeds : (self.owner = "player" ∧ self.y > CANVAS_HEIGHT / 2 ∧
        target.y < CANVAS_HEIGHT / 2) ∨
      (self.owner = "ai" ∧ self.y < CANVAS_HEIGHT / 2 ∧ target.y > CANVAS_HEIGHT / 2))
    (hopp : OppositeSides CANVAS_HEIGHT self.y
      (moveWithImprovedPathfinding sqrt getDistance CANVAS_WIDTH CANVAS_HEIGHT gameState self
        target deltaTime).y) :
    CrossesAtBridge CANVAS_WIDTH CANVAS_HEIGHT self.x self.y
      (moveWithImprovedPathfinding sqrt getDistance CANVAS_WIDTH CANVAS_HEIGHT gameState self
        target deltaTime).x
      (moveWithImprovedPathfinding sqrt getDistance CANVAS_WIDTH CANVAS_HEIGHT gameState self
        target deltaTime).y := by
  by_cases hfar : 5 < sqrt ((CANVAS_WIDTH / 2 - self.x) * (CANVAS_WIDTH / 2 - self.x) +
      (CANVAS_HEIGHT / 2 - self.y) * (CANVAS_HEIGHT / 2 - self.y))
  · rw [moveWithImprovedPathfinding_bridge_branch sqrt getDistance CANVAS_WIDTH CANVAS_HEIGHT
      gameState self target deltaTime hneeds hfar] at hopp ⊢
    simp only at hopp ⊢
    generalize sqrt ((CANVAS_WIDTH / 2 - self.x) * (CANVAS_WIDTH / 2 - self.x) +
      (CANVAS_HEIGHT / 2 - self.y) * (CANVAS_HEIGHT / 2 - self.y)) = d at hopp ⊢
    generalize (if self.effects.contains "rage" then self.speed * 1.4 else self.speed) *
      (deltaTime / 1000) = m at hopp ⊢
    have hy : ∀ a : ℚ, a / d * m = a * (m / d) := fun a => by ring
    rw [hy] at hopp
    rw [hy, hy]
    generalize m / d = k at hopp ⊢
    have hk : 1 < k := by
      rcases hopp with ⟨h1, h2⟩ | ⟨h1, h2⟩
      · have hpos : 0 < CANVAS_HEIGHT / 2 - self.y := by linarith
        by_contra hk
        have : (CANVAS_HEIGHT / 2 - self.y) * k ≤ (CANVAS_HEIGHT / 2 - self.y) * 1 :=
          mul_le_mul_of_nonneg_left (not_lt.1 hk) hpos.le
        linarith
      · have hpos : 0 < self.y - CANVAS_HEIGHT / 2 := by linarith
        by_contra hk
        have : (self.y - CANVAS_HEIGHT / 2) * k ≤ (self.y - CANVAS_HEIGHT / 2) * 1 :=
          mul_le_mul_of_nonneg_left (not_lt.1 hk) hpos.le
        linarith
    have hk0 : 0 < k := by linarith
    have hkk : 1 / k * k = 1 := by field_simp
    refine ⟨1 / k, by positivity, ?_, ?_, ?_, ?_⟩
    · rw [div_le_iff₀ hk0]; linarith
    · have : self.y + 1 / k * (self.y + (CANVAS_HEIGHT / 2 - self.y) * k - self.y) =
          self.y + (CANVAS_HEIGHT / 2 - self.y) * (1 / k * k) := by ring
      rw [this, hkk]; ring
    · have : self.x + 1 / k * (self.x + (CANVAS_WIDTH / 2 - self.x) * k - self.x) =
          self.x + (CANVAS_WIDTH / 2 - self.x) * (1 / k * k) := by ring
      rw [this, hkk]; linarith
    · have : self.x + 1 / k * (self.x + (CANVAS_WIDTH / 2 - self.x) * k - self.x) =
          self.x + (CANVAS_WIDTH / 2 - self.x) * (1 / k * k) := by ring
      rw [this, hkk]; linarith
  · have hx : (CANVAS_WIDTH - 120) / 2 + 120 / 2 - self.x = CANVAS_WIDTH / 2 - self.x := by
      ring
    have hstay : moveWithImprovedPathfinding sqrt getDistance CANVAS_WIDTH CANVAS_HEIGHT
        gameState self target deltaTime = self := by
      unfold moveWithImprovedPathfinding
      simp only [hx]
      rw [if_pos hneeds, if_neg hfar]
    rw [hstay] at hopp
    rcases hopp with ⟨h1, h2⟩ | ⟨h1, h2⟩ <;> linarith

/-- C6: when the unit needs the bridge and is farther than 5 from the bridge
entrance `(CANVAS_WIDTH / 2, CANVAS_HEIGHT / 2)`, one call adds to its position
the move distance times `(dx / d, dy / d)`, where `(dx, dy)` points from the unit
to the entrance and `d = sqrt (dx * dx + dy * dy)`; that vector has length 1 when
`sqrt` is exact there; and the result is the same for every `target.x`, every
list of entities and every `getDistance`. -/
theorem moveWithImprovedPathfinding_heads_for_bridge (sqrt : ℚ → ℚ)
    (getDistance : Entity → Entity → ℚ) (CANVAS_WIDTH CANVAS_HEIGHT : ℚ)
    (gameState : GameState) (self : Entity) (target : Position) (deltaTime : ℚ)
    (hneeds : (self.owner = "player" ∧ self.y > CANVAS_HEIGHT / 2 ∧
        target.y < CANVAS_HEIGHT / 2) ∨
      (self.owner = "ai" ∧ self.y < CANVAS_HEIGHT / 2 ∧ target.y > CANVAS_HEIGHT / 2))
    (hfar : 5 < sqrt ((CANVAS_WIDTH / 2 - self.x) * (CANVAS_WIDTH / 2 - self.x) +
      (CANVAS_HEIGHT / 2 - self.y) * (CANVAS_HEIGHT / 2 - self.y))) :
    (moveWithImprovedPathfinding sqrt getDistance CANVAS_WIDTH CANVAS_HEIGHT gameState self
        target deltaTime).x =
      self.x + (CANVAS_WIDTH / 2 - self.x) /
        sqrt ((CANVAS_WIDTH / 2 - self.x) * (CANVAS_WIDTH / 2 - self.x) +
          (CANVAS_HEIGHT / 2 - self.y) * (CANVAS_HEIGHT / 2 - self.y)) *
        ((if self.effects.contains "rage" then self.speed * 1.4 else self.speed) *
          (deltaTime / 1000)) ∧
    (moveWithImprovedPathfinding sqrt getDistance CANVAS_WIDTH CANVAS_HEIGHT gameState self
        target deltaTime).y =
      self.y + (CANVAS_HEIGHT / 2 - self.y) /
        sqrt ((CANVAS_WIDTH / 2 - self.x) * (CANVAS_WIDTH / 2 - self.x) +
          (CANVAS_HEIGHT / 2 - self.y) * (CANVAS_HEIGHT / 2 - self.y)) *
        ((if self.effects.contains "rage" then self.speed * 1.4 else self.speed) *
          (deltaTime / 1000)) ∧
    (∀ d : ℚ, d = sqrt ((CANVAS_WIDTH / 2 - self.x) * (CANVAS_WIDTH / 2 - self.x) +
          (CANVAS_HEIGHT / 2 - self.y) * (CANVAS_HEIGHT / 2 - self.y)) →
        d * d = (CANVAS_WIDTH / 2 - self.x) * (CANVAS_WIDTH / 2 - self.x) +
          (CANVAS_HEIGHT / 2 - self.y) * (CANVAS_HEIGHT / 2 - self.y) →
        (CANVAS_WIDTH / 2 - self.x) / d * ((CANVAS_WIDTH / 2 - self.x) / d) +
          (CANVAS_HEIGHT / 2 - self.y) / d * ((CANVAS_HEIGHT / 2 - self.y) / d) = 1) ∧
    ∀ (getDistance2 : Entity → Entity → ℚ) (gameState2 : GameState) (targetX : ℚ),
      moveWithImprovedPathfinding sqrt getDistance2 CANVAS_WIDTH CANVAS_HEIGHT gameState2 self
          ⟨targetX, target.y⟩ deltaTime =
        moveWithImprovedPathfinding sqrt getDistance CANVAS_WIDTH CANVAS_HEIGHT gameState self
          target deltaTime := by
  refine ⟨?_, ?_, ?_, ?_⟩
  · rw [moveWithImprovedPathfinding_bridge_branch sqrt getDistance CANVAS_WIDTH CANVAS_HEIGHT
      gameState self target deltaTime hneeds hfar]
  · rw [moveWithImprovedPathfinding_bridge_branch sqrt getDistance CANVAS_WIDTH CANVAS_HEIGHT
      gameState self target deltaTime hneeds hfar]
  · intro d hd hsq
    have hd5 : 5 < d := hd ▸ hfar
    have hd0 : d ≠ 0 := by linarith
    field_simp
    linarith
  · intro getDistance2 gameState2 targetX
    rw [moveWithImprovedPathfinding_bridge_branch sqrt getDistance CANVAS_WIDTH CANVAS_HEIGHT
      gameState self target deltaTime hneeds hfar,
      moveWithImprovedPathfinding_bridge_branch sqrt getDistance2 CANVAS_WIDTH CANVAS_HEIGHT
      gameState2 self ⟨targetX, target.y⟩ deltaTime hneeds hfar]

theorem sqrtQ_sampleAdvancing :
    sqrtQ ((450 / 2 - sampleAdvancing.x) * (450 / 2 - sampleAdvancing.x) +
      (520 / 2 - sampleAdvancing.y) * (520 / 2 - sampleAdvancing.y)) = 50 :=
  sqrtQ_eq _ 50 (by norm_num) (by norm_num [sampleAdvancing])

/-- C6 at a concrete input: an enraged player unit at `(195, 300)`, 50 away from
the bridge entrance `(225, 260)`, with speed 100 and `deltaTime` 500, moves by
70 along `(3/5, -4/5)` to `(237, 244)`. -/
theorem moveWithImprovedPathfinding_heads_for_bridge_witness :
    ((sampleAdvancing.owner = "player" ∧ sampleAdvancing.y > (520 : ℚ) / 2 ∧
        (100 : ℚ) < 520 / 2) ∨
      (sampleAdvancing.owner = "ai" ∧ sampleAdvancing.y < (520 : ℚ) / 2 ∧
        (100 : ℚ) > 520 / 2)) ∧
    5 < sqrtQ ((450 / 2 - sampleAdvancing.x) * (450 / 2 - sampleAdvancing.x) +
      (520 / 2 - sampleAdvancing.y) * (520 / 2 - sampleAdvancing.y)) ∧
    (moveWithImprovedPathfinding sqrtQ euclid 450 520 ⟨[sampleAdvancing], []⟩ sampleAdvancing
      ⟨100, 100⟩ 500).x = 237 ∧
    (moveWithImprovedPathfinding sqrtQ euclid 450 520 ⟨[sampleAdvancing], []⟩ sampleAdvancing
      ⟨100, 100⟩ 500).y = 244 :=
  have hneeds : (sampleAdvancing.owner = "player" ∧ sampleAdvancing.y > (520 : ℚ) / 2 ∧
        (100 : ℚ) < 520 / 2) ∨
      (sampleAdvancing.owner = "ai" ∧ sampleAdvancing.y < (520 : ℚ) / 2 ∧
        (100 : ℚ) > 520 / 2) :=
    Or.inl ⟨rfl, by norm_num [sampleAdvancing], by norm_num⟩
  have hfar : 5 < sqrtQ ((450 / 2 - sampleAdvancing.x) * (450 / 2 - sampleAdvancing.x) +
      (520 / 2 - sampleAdvancing.y) * (520 / 2 - sampleAdvancing.y)) := by
    rw [sqrtQ_sampleAdvancing]; norm_num
  have h := moveWithImprovedPathfinding_heads_for_bridge sqrtQ euclid 450 520
    ⟨[sampleAdvancing], []⟩ sampleAdvancing ⟨100, 100⟩ 500 hneeds hfar
  ⟨hneeds, hfar,
    by rw [h.1, sqrtQ_sampleAdvancing]; norm_num [sampleAdvancing],
    by rw [h.2.1, sqrtQ_sampleAdvancing]; norm_num [sampleAdvancing]⟩

/-! ## Flying movement -/

/-- C7: for a flying unit and a value `random` of `Math.random` in `[0, 1)`, when
the distance `d` to the target exceeds 5 one call of `improvedMoveTowards` adds
`(dx / d) * moveDistance + off` to `x` and `(dy / d) * moveDistance + off` to `y`
with one offset `off`, `|off| ≤ 1/2`, and changes nothing else; when `d ≤ 5` the
unit is unchanged; and the result does not depend on the canvas size (hence the
bridge position), on the game state or on `getDistance`, which only the ground
pathfinding reads. -/
theorem improvedMoveTowards_flying (sqrt : ℚ → ℚ) (random : ℚ)
    (getDistance : Entity → Entity → ℚ) (CANVAS_WIDTH CANVAS_HEIGHT : ℚ)
    (gameState : GameState) (self : Entity) (target : Position) (deltaTime : ℚ)
    (data : EntityData) (hdata : self.data = some data) (hfly : data.flying = true)
    (hr0 : 0 ≤ random) (hr1 : random < 1) :
    (5 < sqrt ((target.x - self.x) * (target.x - self.x) +
        (target.y - self.y) * (target.y - self.y)) →
      ∃ off : ℚ, |off| ≤ 1 / 2 ∧
        improvedMoveTowards sqrt random getDistance CANVAS_WIDTH CANVAS_HEIGHT gameState self
            target deltaTime =
          some { self with
            x := self.x + ((target.x - self.x) /
                sqrt ((target.x - self.x) * (target.x - self.x) +
                  (target.y - self.y) * (target.y - self.y)) *
                ((if self.effects.contains "rage" then self.speed * 1.4 else self.speed) *
                  (deltaTime / 1000)) + off)
            y := self.y + ((target.y - self.y) /
                sqrt ((target.x - self.x) * (target.x - self.x) +
                  (target.y - self.y) * (target.y - self.y)) *
                ((if self.effects.contains "rage" then self.speed * 1.4 else self.speed) *
                  (deltaTime / 1000)) + off) }) ∧
    (sqrt ((target.x - self.x) * (target.x - self.x) +
        (target.y - self.y) * (target.y - self.y)) ≤ 5 →
      improvedMoveTowards sqrt random getDistance CANVAS_WIDTH CANVAS_HEIGHT gameState self
        target deltaTime = some self) ∧
    ∀ (getDistance2 : Entity → Entity → ℚ) (width2 height2 : ℚ) (gameState2 : GameState),
      improvedMoveTowards sqrt random getDistance2 width2 height2 gameState2 self target
          deltaTime =
        improvedMoveTowards sqrt random getDistance CANVAS_WIDTH CANVAS_HEIGHT gameState self
          target deltaTime := by
  refine ⟨?_, ?_, ?_⟩
  · intro hfar
    refine ⟨(random - 0.5) * 2 * 0.5, ?_, ?_⟩
    · rw [abs_le]
      constructor <;> norm_num <;> linarith
    · unfold improvedMoveTowards
      rw [hdata]
      simp only [hfly, if_true, if_pos hfar]
  · intro hnear
    unfold improvedMoveTowards
    rw [hdata]
    simp only [hfly, if_true, if_neg (not_lt.2 hnear)]
  · intro getDistance2 width2 height2 gameState2
    unfold improvedMoveTowards
    rw [hdata]
    simp only [hfly, if_true]

theorem sqrtQ_sampleDragon :
    sqrtQ ((225 - sampleDragon.x) * (225 - sampleDragon.x) +
      (260 - sampleDragon.y) * (260 - sampleDragon.y)) = 50 :=
  sqrtQ_eq _ 50 (by norm_num) (by norm_num [sampleDragon])

/-- C7 at a concrete input: a flying unit at `(195, 300)` with speed 100 and
`deltaTime` 500 flies the 50 to its target `(225, 260)` and ends within `1/2` of
it in each coordinate. -/
theorem improvedMoveTowards_flying_witness :
    sampleDragon.data = some ⟨"troop", true⟩ ∧ (0 : ℚ) ≤ 1 / 4 ∧ (1 / 4 : ℚ) < 1 ∧
    5 < sqrtQ ((225 - sampleDragon.x) * (225 - sampleDragon.x) +
      (260 - sampleDragon.y) * (260 - sampleDragon.y)) ∧
    ∃ u : Entity,
      improvedMoveTowards sqrtQ (1 / 4) euclid 450 520 ⟨[sampleDragon], []⟩ sampleDragon
        ⟨225, 260⟩ 500 = some u ∧ |u.x - 225| ≤ 1 / 2 ∧ |u.y - 260| ≤ 1 / 2 := by
  have hfar : 5 < sqrtQ ((225 - sampleDragon.x) * (225 - sampleDragon.x) +
      (260 - sampleDragon.y) * (260 - sampleDragon.y)) := by
    rw [sqrtQ_sampleDragon]; norm_num
  have h := improvedMoveTowards_flying sqrtQ (1 / 4) euclid 450 520 ⟨[sampleDragon], []⟩
    sampleDragon ⟨225, 260⟩ 500 ⟨"troop", true⟩ rfl rfl (by norm_num) (by norm_num)
  obtain ⟨off, hoff, hres⟩ := h.1 hfar
  refine ⟨rfl, by norm_num, by norm_num, hfar, _, hres, ?_, ?_⟩
  · simp only [sqrtQ_sampleDragon]
    have : sampleDragon.x + ((225 - sampleDragon.x) / 50 *
        ((if sampleDragon.effects.contains "rage" = true then sampleDragon.speed * 1.4
          else sampleDragon.speed) * (500 / 1000)) + off) - 225 = off := by
      norm_num [sampleDragon]
      ring
    rw [this]; exact hoff
  · simp only [sqrtQ_sampleDragon]
    have : sampleDragon.y + ((260 - sampleDragon.y) / 50 *
        ((if sampleDragon.effects.contains "rage" = true then sampleDragon.speed * 1.4
          else sampleDragon.speed) * (500 / 1000)) + off) - 260 = off := by
      norm_num [sampleDragon]
      ring
    rw [this]; exact hoff

/-! ## Combat damage -/

/-- C8 as stated fails at level 0: with damage 100, no rage, attacker level 0 and
defender level 1 the code returns 259 (it reads the level 0 as 11), while the
claimed formula gives 91. -/
theorem authenticCombatDamage_level_zero :
    authenticCombatDamage ⟨100, none, some 0⟩ ⟨0, none, some 1⟩ = 259 ∧
    claimedCombatDamage ⟨100, none, some 0⟩ ⟨0, none, some 1⟩ = 91 ∧
    authenticCombatDamage ⟨100, none, some 0⟩ ⟨0, none, some 1⟩ ≠
      claimedCombatDamage ⟨100, none, some 0⟩ ⟨0, none, some 1⟩ := by
  have h1 : authenticCombatDamage ⟨100, none, some 0⟩ ⟨0, none, some 1⟩ = 259 := by
    simp only [authenticCombatDamage, hasRage, levelOrDefault, mathRound]
    rw [Int.floor_eq_iff]
    norm_num
  have h2 : claimedCombatDamage ⟨100, none, some 0⟩ ⟨0, none, some 1⟩ = 91 := by
    simp only [claimedCombatDamage, hasRage, claimedLevel, mathRound]
    rw [Int.floor_eq_iff]
    norm_num
  refine ⟨h1, h2, ?_⟩
  rw [h1, h2]
  decide

/-- C8, amended: `authenticCombatDamage` is `Math.round` of
`damage * r * 1.1 ^ (La - Ld)`, where `r` is 1.4 under rage and 1 otherwise and
each of `La`, `Ld` is the level when it is present and not 0, and 11 when it is
missing or 0; with `r = 1` and `La = Ld` an integer damage is returned unchanged. -/
theorem authenticCombatDamage_formula (attacker defender : Combatant) (r : ℚ) (La Ld : ℤ)
    (hr : ((∃ es, attacker.effects = some es ∧ "rage" ∈ es) ∧ r = 1.4) ∨
      ((¬ ∃ es, attacker.effects = some es ∧ "rage" ∈ es) ∧ r = 1))
    (hLa : (attacker.level = some La ∧ La ≠ 0) ∨
      ((attacker.level = none ∨ attacker.level = some 0) ∧ La = 11))
    (hLd : (defender.level = some Ld ∧ Ld ≠ 0) ∨
      ((defender.level = none ∨ defender.level = some 0) ∧ Ld = 11)) :
    authenticCombatDamage attacker defender =
      mathRound (attacker.damage * r * (1.1 : ℚ) ^ (La - Ld)) ∧
    (r = 1 → La = Ld → ∀ n : ℤ, attacker.damage = n →
      authenticCombatDamage attacker defender = n) := by
  have hlevel : ∀ (level : Option ℤ) (L : ℤ),
      ((level = some L ∧ L ≠ 0) ∨ ((level = none ∨ level = some 0) ∧ L = 11)) →
      levelOrDefault level = L := by
    intro level L h
    rcases h with ⟨h1, h2⟩ | ⟨h1 | h1, h2⟩
    · simp [levelOrDefault, h1, h2]
    · simp [levelOrDefault, h1, h2]
    · simp [levelOrDefault, h1, h2]
  have hrage : (if hasRage attacker.effects = true then attacker.damage * 1.4
      else attacker.damage) = attacker.damage * r := by
    rcases hr with ⟨⟨es, hes, hmem⟩, hr⟩ | ⟨hno, hr⟩
    · have : hasRage attacker.effects = true := by simp [hasRage, hes, hmem]
      rw [if_pos this, hr]
    · have : ¬ hasRage attacker.effects = true := by
        intro h
        apply hno
        cases hes : attacker.effects with
        | none => simp [hasRage, hes] at h
        | some es => exact ⟨es, rfl, by simpa [hasRage, hes] using h⟩
      rw [if_neg this, hr, mul_one]
  have hmain : authenticCombatDamage attacker defender =
      mathRound (attacker.damage * r * (1.1 : ℚ) ^ (La - Ld)) := by
    simp only [authenticCombatDamage]
    rw [hrage, hlevel _ _ hLa, hlevel _ _ hLd]
  refine ⟨hmain, ?_⟩
  intro hr1 hL n hn
  rw [hmain, hr1, hL, hn, sub_self, zpow_zero, mul_one, mul_one]
  unfold mathRound
  rw [Int.floor_eq_iff]
  constructor <;> linarith

/-- C8, amended, at a concrete input: damage 100 under rage, attacker level missing
and defender level 10, gives `100 * 1.4 * 1.1 = 154`. -/
theorem authenticCombatDamage_formula_witness :
    (((∃ es, (some ["rage"] : Option (List String)) = some es ∧ "rage" ∈ es) ∧
        (1.4 : ℚ) = 1.4) ∨
      ((¬ ∃ es, (some ["rage"] : Option (List String)) = some es ∧ "rage" ∈ es) ∧
        (1.4 : ℚ) = 1)) ∧
    authenticCombatDamage ⟨100, some ["rage"], none⟩ ⟨0, none, some 10⟩ = 154 := by
  have hr : ((∃ es, (some ["rage"] : Option (List String)) = some es ∧ "rage" ∈ es) ∧
        (1.4 : ℚ) = 1.4) ∨
      ((¬ ∃ es, (some ["rage"] : Option (List String)) = some es ∧ "rage" ∈ es) ∧
        (1.4 : ℚ) = 1) :=
    Or.inl ⟨⟨["rage"], rfl, by simp⟩, rfl⟩
  have h := (authenticCombatDamage_formula ⟨100, some ["rage"], none⟩ ⟨0, none, some 10⟩
    1.4 11 10 hr (Or.inr ⟨Or.inl rfl, rfl⟩) (Or.inl ⟨rfl, by decide⟩)).1
  refine ⟨hr, ?_⟩
  rw [h]
  unfold mathRound
  rw [Int.floor_eq_iff]
  norm_num

/-! ## Range scaling -/

/-- C9: `calculateProportionalRange` returns 12 times its argument, for every
argument; it has no other input. -/
theorem calculateProportionalRange_eq (baseRange : ℚ) :
    calculateProportionalRange baseRange = 12 * baseRange := by
  unfold calculateProportionalRange
  ring

/-! ## Rounding to a double -/

theorem int_log_two_eq (q : ℚ) (e : ℤ) (hq : 0 < q) (hlo : (2 : ℚ) ^ e ≤ q)
    (hhi : q < (2 : ℚ) ^ (e + 1)) : Int.log 2 q = e := by
  have h2 : ((2 : ℕ) : ℚ) = 2 := by norm_num
  have hle : e ≤ Int.log 2 q :=
    (Int.zpow_le_iff_le_log (by norm_num) hq).1 (by rw [h2]; exact hlo)
  have hlt : Int.log 2 q < e + 1 :=
    (Int.lt_zpow_iff_log_lt (by norm_num) hq).1 (by rw [h2]; exact hhi)
  omega

/-- The rounding of a positive value of the binade `[2 ^ e, 2 ^ (e + 1))`. -/
theorem roundDouble_eq (q : ℚ) (e : ℤ) (hq : 0 < q) (hlo : (2 : ℚ) ^ e ≤ q)
    (hhi : q < (2 : ℚ) ^ (e + 1)) :
    roundDouble q = (roundHalfEven (q / 2 ^ (e - 52)) : ℚ) * 2 ^ (e - 52) := by
  unfold roundDouble
  rw [if_neg hq.ne', abs_of_pos hq]
  simp only [int_log_two_eq q e hq hlo hhi]

theorem roundHalfEven_of_lt (q : ℚ) (n : ℤ) (h1 : (n : ℚ) ≤ q) (h2 : q < n + 1 / 2) :
    roundHalfEven q = n := by
  have hf : ⌊q⌋ = n := Int.floor_eq_iff.2 ⟨h1, by linarith⟩
  unfold roundHalfEven
  simp only [hf]
  rw [if_pos (by linarith)]

theorem roundHalfEven_of_gt (q : ℚ) (n : ℤ) (h1 : (n : ℚ) + 1 / 2 < q) (h2 : q < n + 1) :
    roundHalfEven q = n + 1 := by
  have hf : ⌊q⌋ = n := Int.floor_eq_iff.2 ⟨by linarith, h2⟩
  unfold roundHalfEven
  simp only [hf]
  rw [if_neg (by linarith), if_pos (by linarith)]

theorem roundHalfEven_tie_even (q : ℚ) (n : ℤ) (hq : q = n + 1 / 2) (heven : n % 2 = 0) :
    roundHalfEven q = n := by
  have hf : ⌊q⌋ = n := Int.floor_eq_iff.2 ⟨by linarith, by linarith⟩
  unfold roundHalfEven
  simp only [hf]
  rw [if_neg (by linarith), if_neg (by linarith), if_pos heven]

/-- A value with at most 53 significant bits in its binade is its own rounding. -/
theorem roundDouble_of_exact (q : ℚ) (e n : ℤ) (hq : 0 < q) (hlo : (2 : ℚ) ^ e ≤ q)
    (hhi : q < (2 : ℚ) ^ (e + 1)) (hn : q / 2 ^ (e - 52) = n) : roundDouble q = q := by
  rw [roundDouble_eq q e hq hlo hhi, hn,
    roundHalfEven_of_lt (n : ℚ) n le_rfl (by linarith), ← hn]
  have : (2 : ℚ) ^ (e - 52) ≠ 0 := zpow_ne_zero _ (by norm_num)
  field_simp

/-- The double written `7.3`. -/
theorem roundDouble_seven_point_three :
    roundDouble (73 / 10) = 8219069319951155 / 2 ^ 50 := by
  rw [roundDouble_eq (73 / 10) 2 (by norm_num) (by norm_num) (by norm_num),
    roundHalfEven_of_lt _ 8219069319951155 (by norm_num) (by norm_num)]
  norm_num

/-- The quotient `7.3 / 12` in doubles. -/
theorem roundDouble_seven_point_three_div :
    roundDouble (8219069319951155 / 2 ^ 50 / 12) = 5479379546634103 / 2 ^ 53 := by
  rw [roundDouble_eq _ (-1) (by norm_num) (by norm_num) (by norm_num),
    roundHalfEven_of_lt _ 5479379546634103 (by norm_num) (by norm_num)]
  norm_num

/-- The product `(7.3 / 12) * 12` in doubles: a tie, rounded to the even neighbour
below `7.3`. -/
theorem roundDouble_seven_point_three_mul :
    roundDouble (5479379546634103 / 2 ^ 53 * 12) = 8219069319951154 / 2 ^ 50 := by
  rw [roundDouble_eq _ 2 (by norm_num) (by norm_num) (by norm_num),
    roundHalfEven_tie_even _ 8219069319951154 (by norm_num) (by decide)]
  norm_num

/-- C10 as stated fails in JavaScript arithmetic: for the double `7.3` the
quotient by 12 and the product by 12 are both rounded, and the radius drawn is
the double just below `7.3` (`7.299999999999999`). -/
theorem drawRangeIndicator_loses_precision :
    roundDouble (73 / 10) = 8219069319951155 / 2 ^ 50 ∧
    (drawRangeIndicator roundDouble 0 0 (8219069319951155 / 2 ^ 50)).radius =
      8219069319951154 / 2 ^ 50 ∧
    (drawRangeIndicator roundDouble 0 0 (8219069319951155 / 2 ^ 50)).radius ≠
      8219069319951155 / 2 ^ 50 := by
  have h : (drawRangeIndicator roundDouble 0 0 (8219069319951155 / 2 ^ 50)).radius =
      8219069319951154 / 2 ^ 50 := by
    simp only [drawRangeIndicator, calculateProportionalRange]
    rw [roundDouble_seven_point_three_div, roundDouble_seven_point_three_mul]
  refine ⟨roundDouble_seven_point_three, h, ?_⟩
  rw [h]
  norm_num

/-- C10, amended: in every arithmetic in which the quotient `range / 12` is not
rounded and `range` is one of its values, the radius drawn equals `range`; in
exact arithmetic the radius drawn equals `range` for every `range`, and
`calculateProportionalRange (range / 12) = range`. -/
theorem drawRangeIndicator_radius (fl : ℚ → ℚ) (x y range : ℚ) :
    (fl (range / 12) = range / 12 → fl range = range →
      (drawRangeIndicator fl x y range).radius = range) ∧
    (drawRangeIndicator id x y range).radius = range ∧
    calculateProportionalRange (range / 12) = range := by
  have hround : range / 12 * 12 = range := by ring
  refine ⟨?_, ?_, ?_⟩
  · intro hdiv hrange
    simp only [drawRangeIndicator, calculateProportionalRange]
    rw [hdiv, hround, hrange]
  · simp only [drawRangeIndicator, calculateProportionalRange, id]
    exact hround
  · simp only [calculateProportionalRange]
    exact hround

/-- C10, amended, in JavaScript arithmetic at `range = 66`: `66 / 12 = 5.5` is a
double, and the radius drawn is 66. -/
theorem drawRangeIndicator_radius_witness :
    roundDouble (66 / 12) = 66 / 12 ∧ roundDouble 66 = 66 ∧
    (drawRangeIndicator roundDouble 0 0 66).radius = 66 :=
  have hdiv : roundDouble (66 / 12) = 66 / 12 :=
    roundDouble_of_exact (66 / 12) 2 6192449487634432 (by norm_num) (by norm_num)
      (by norm_num) (by norm_num)
  have hrange : roundDouble 66 = 66 :=
    roundDouble_of_exact 66 6 4644337115725824 (by norm_num) (by norm_num)
      (by norm_num) (by norm_num)
  ⟨hdiv, hrange, (drawRangeIndicator_radius roundDouble 0 0 66).1 hdiv hrange⟩

/-! ## Eligibility of the target and the null target -/

theorem pickTarget_eq_none_iff (l : List Candidate) : pickTarget l = none ↔ l = [] := by
  constructor
  · intro h
    by_contra hne
    obtain ⟨c, -, hpick, -⟩ := pickTarget_of_ne_nil l hne
    rw [hpick] at h
    exact Option.noConfusion h
  · rintro rfl
    exact pickTarget_nil

theorem categoryOf_eq_troop (e : Entity) :
    categoryOf e = Category.troop ↔
      e.type ≠ some "princess" ∧ e.type ≠ some "king" ∧ dataIsBuilding e = false := by
  unfold categoryOf
  split_ifs <;> simp_all

/-- The selected list is empty exactly when the two tower lists and the troop
list are empty and the building list is empty or not asked for. -/
theorem selectTargetList_eq_nil_iff (self : Entity) (b : Buckets) :
    selectTargetList self b = [] ↔
      b.princessTowers = [] ∧ b.kingTowers = [] ∧ b.troops = [] ∧
        (self.targetType ≠ some "building" ∨ b.buildings = []) := by
  unfold selectTargetList
  by_cases hp : b.princessTowers = []
  · by_cases hk : b.kingTowers = []
    · by_cases hb : self.targetType = some "building" ∧ b.buildings.length > 0
      · have hb2 : b.buildings ≠ [] := List.length_pos.1 hb.2
        have hb3 : 0 < b.buildings.length := hb.2
        simp [hp, hk, hb.1, hb2, hb3]
      · by_cases ht : b.troops = []
        · have hor : self.targetType ≠ some "building" ∨ b.buildings = [] := by
            by_cases h1 : self.targetType = some "building"
            · right
              by_contra h2
              exact hb ⟨h1, List.length_pos.2 h2⟩
            · left; exact h1
          simp [hp, hk, hb, ht, hor]
        · have : b.troops.length > 0 := List.length_pos.2 ht
          simp [hp, hk, hb, ht, this]
    · have : b.kingTowers.length > 0 := List.length_pos.2 hk
      simp [hp, hk, this]
  · have : b.princessTowers.length > 0 := List.length_pos.2 hp
    simp [hp, this]

theorem get_collectTargets_eq_nil_iff (gd : Entity → Entity → ℚ) (self : Entity)
    (gs : GameState) (k : Category) :
    (collectTargets gd self gs).get k = [] ↔
      ∀ e ∈ gs.all, Eligible gd self e → categoryOf e ≠ k := by
  constructor
  · intro hnil e he hel hcat
    exact get_collectTargets_ne_nil gd self gs k e he hel hcat hnil
  · exact get_collectTargets_eq_nil gd self gs k

/-- C17: the target that `improvedFindTarget` sets, when it is not null, is an
element of `gameState.entities` or `gameState.towers` whose owner differs from
the attacker's, that is not dead, has positive health and lies within the
attacker's range. -/
theorem improvedFindTarget_target_eligible (getDistance : Entity → Entity → ℚ)
    (gameState : GameState) (self : Attacker) (t : Entity)
    (h : (improvedFindTarget getDistance gameState self).target = some t) :
    (t ∈ gameState.entities ∨ t ∈ gameState.towers) ∧ t.owner ≠ self.self.owner ∧
      t.isDead = false ∧ 0 < t.health ∧ getDistance self.self t ≤ self.self.range := by
  have h1 : pickTarget (selectTargetList self.self
      (collectTargets getDistance self.self gameState)) = some t := h
  obtain ⟨c, hc, hct, -⟩ := pickTarget_eq_some _ t h1
  rcases selectTargetList_cases self.self (collectTargets getDistance self.self gameState)
    with ⟨k, hk⟩ | hnil
  · rw [hk] at hc
    obtain ⟨e0, he0, hel0, -, rfl⟩ := (mem_collectTargets _ _ _ _ c).1 hc
    have ht0 : e0 = t := hct
    subst ht0
    exact ⟨List.mem_append.1 he0, hel0.1, hel0.2.1, hel0.2.2.1, hel0.2.2.2⟩
  · rw [hnil] at hc
    exact absurd hc (List.not_mem_nil _)

/-- C17 at the sample arena: the princess tower that is targeted is an enemy, not
dead, of positive health and within range. -/
theorem improvedFindTarget_target_eligible_witness :
    (improvedFindTarget euclid sampleArena ⟨sampleKnight, none⟩).target = some samplePrincess ∧
    ((samplePrincess ∈ sampleArena.entities ∨ samplePrincess ∈ sampleArena.towers) ∧
      samplePrincess.owner ≠ sampleKnight.owner ∧ samplePrincess.isDead = false ∧
      0 < samplePrincess.health ∧ euclid sampleKnight samplePrincess ≤ sampleKnight.range) :=
  ⟨sampleArena_target,
    improvedFindTarget_target_eligible euclid sampleArena ⟨sampleKnight, none⟩ samplePrincess
      sampleArena_target⟩

/-- C18: the target set is null exactly when no eligible entity is a princess
tower, a king tower or a troop, and the attacker does not target buildings or no
eligible entity is a building.  Hence an attacker that does not target buildings
gets a null target when every eligible entity is a building, and a
building-targeting attacker with no eligible tower or building and some eligible
troop gets an eligible troop nearest among the eligible troops. -/
theorem improvedFindTarget_null_iff (getDistance : Entity → Entity → ℚ)
    (gameState : GameState) (self : Attacker) :
    ((improvedFindTarget getDistance gameState self).target = none ↔
      (∀ e ∈ gameState.entities ++ gameState.towers, Eligible getDistance self.self e →
        categoryOf e ≠ Category.princess) ∧
      (∀ e ∈ gameState.entities ++ gameState.towers, Eligible getDistance self.self e →
        categoryOf e ≠ Category.king) ∧
      (∀ e ∈ gameState.entities ++ gameState.towers, Eligible getDistance self.self e →
        categoryOf e ≠ Category.troop) ∧
      (self.self.targetType ≠ some "building" ∨
        ∀ e ∈ gameState.entities ++ gameState.towers, Eligible getDistance self.self e →
          categoryOf e ≠ Category.building)) ∧
    (self.self.targetType ≠ some "building" →
      (∀ e ∈ gameState.entities ++ gameState.towers, Eligible getDistance self.self e →
        categoryOf e = Category.building) →
      (improvedFindTarget getDistance gameState self).target = none) ∧
    (self.self.targetType = some "building" →
      (∀ e ∈ gameState.entities ++ gameState.towers, Eligible getDistance self.self e →
        categoryOf e = Category.troop) →
      (∃ e ∈ gameState.entities ++ gameState.towers, Eligible getDistance self.self e) →
      ∃ t ∈ gameState.entities ++ gameState.towers,
        (improvedFindTarget getDistance gameState self).target = some t ∧
        Eligible getDistance self.self t ∧ categoryOf t = Category.troop ∧
        ∀ e ∈ gameState.entities ++ gameState.towers, Eligible getDistance self.self e →
          getDistance self.self t ≤ getDistance self.self e) := by
  have hiff : (improvedFindTarget getDistance gameState self).target = none ↔
      (∀ e ∈ gameState.entities ++ gameState.towers, Eligible getDistance self.self e →
        categoryOf e ≠ Category.princess) ∧
      (∀ e ∈ gameState.entities ++ gameState.towers, Eligible getDistance self.self e →
        categoryOf e ≠ Category.king) ∧
      (∀ e ∈ gameState.entities ++ gameState.towers, Eligible getDistance self.self e →
        categoryOf e ≠ Category.troop) ∧
      (self.self.targetType ≠ some "building" ∨
        ∀ e ∈ gameState.entities ++ gameState.towers, Eligible getDistance self.self e →
          categoryOf e ≠ Category.building) := by
    have h0 : (improvedFindTarget getDistance gameState self).target =
        pickTarget (selectTargetList self.self
          (collectTargets getDistance self.self gameState)) := rfl
    rw [h0, pickTarget_eq_none_iff, selectTargetList_eq_nil_iff]
    have hp := get_collectTargets_eq_nil_iff getDistance self.self gameState Category.princess
    have hk := get_collectTargets_eq_nil_iff getDistance self.self gameState Category.king
    have hb := get_collectTargets_eq_nil_iff getDistance self.self gameState Category.building
    have ht := get_collectTargets_eq_nil_iff getDistance self.self gameState Category.troop
    simp only [Buckets.get, GameState.all] at hp hk hb ht
    rw [hp, hk, hb, ht]
  refine ⟨hiff, ?_, ?_⟩
  · intro htt hall
    refine hiff.2 ⟨?_, ?_, ?_, Or.inl htt⟩
    · intro e he hel hc
      have := hall e he hel
      rw [hc] at this
      exact Category.noConfusion this
    · intro e he hel hc
      have := hall e he hel
      rw [hc] at this
      exact Category.noConfusion this
    · intro e he hel hc
      have := hall e he hel
      rw [hc] at this
      exact Category.noConfusion this
  · intro _ hall hex
    obtain ⟨e1, he1, hel1⟩ := hex
    have hne : (collectTargets getDistance self.self gameState).get Category.troop ≠ [] :=
      get_collectTargets_ne_nil _ _ _ _ e1 he1 hel1 (hall e1 he1 hel1)
    have hempty : ∀ k, k ≠ Category.troop →
        (collectTargets getDistance self.self gameState).get k = [] := by
      intro k hk
      apply get_collectTargets_eq_nil
      intro e he hel hc
      have := hall e he hel
      rw [hc] at this
      exact hk this
    have hsel : selectTargetList self.self (collectTargets getDistance self.self gameState) =
        (collectTargets getDistance self.self gameState).troops := by
      have h1 := hempty Category.princess (by decide)
      have h2 := hempty Category.king (by decide)
      have h3 := hempty Category.building (by decide)
      have h4 : (collectTargets getDistance self.self gameState).troops ≠ [] := hne
      simp only [Buckets.get] at h1 h2 h3
      unfold selectTargetList
      simp [h1, h2, h3, List.length_pos.2 h4]
    obtain ⟨c, hc, hpick, hmin⟩ := pickTarget_of_ne_nil _ hne
    obtain ⟨t, ht, htel, hcat, rfl⟩ := (mem_collectTargets _ _ _ _ c).1 hc
    refine ⟨t, ht, ?_, htel, hcat, ?_⟩
    · show pickTarget (selectTargetList self.self _) = some t
      rw [hsel]
      exact hpick
    · intro e he hel
      have hmem : (⟨e, getDistance self.self e⟩ : Candidate) ∈
          (collectTargets getDistance self.self gameState).get Category.troop :=
        (mem_collectTargets _ _ _ _ _).2 ⟨e, he, hel, hall e he hel, rfl⟩
      exact hmin _ hmem

theorem euclid_archer_cannon : euclid sampleArcher sampleCannon = 10 :=
  euclid_eq _ _ 10 (by norm_num) (by norm_num [sampleArcher, sampleCannon])

/-- C18 at an arena whose only enemy in range is a building, for an attacker that
does not target buildings: the target is null. -/
theorem improvedFindTarget_null_iff_witness :
    sampleArcher.targetType ≠ some "building" ∧
    (∀ e ∈ sampleArenaCannonOnly.entities ++ sampleArenaCannonOnly.towers,
      Eligible euclid sampleArcher e → categoryOf e = Category.building) ∧
    Eligible euclid sampleArcher sampleCannon ∧
    (improvedFindTarget euclid sampleArenaCannonOnly ⟨sampleArcher, none⟩).target = none :=
  have htt : sampleArcher.targetType ≠ some "building" := by decide
  have hall : ∀ e ∈ sampleArenaCannonOnly.entities ++ sampleArenaCannonOnly.towers,
      Eligible euclid sampleArcher e → categoryOf e = Category.building := by
    intro e he hel
    simp only [sampleArenaCannonOnly, List.append_nil, List.mem_cons, List.mem_singleton,
      List.not_mem_nil, or_false] at he
    rcases he with rfl | rfl
    · exact absurd rfl hel.1
    · exact (categoryOf_eq_building sampleCannon).2 ⟨by decide, by decide, by decide⟩
  have hel : Eligible euclid sampleArcher sampleCannon :=
    ⟨by decide, rfl, by norm_num [sampleCannon],
      by rw [euclid_archer_cannon]; norm_num [sampleArcher]⟩
  ⟨htt, hall, hel,
    (improvedFindTarget_null_iff euclid sampleArenaCannonOnly ⟨sampleArcher, none⟩).2.1 htt hall⟩

/-! ## Rounding to a double, for values of either sign -/

/-- The rounding of a value whose magnitude lies in the binade
`[2 ^ e, 2 ^ (e + 1))`. -/
theorem roundDouble_eq_abs (q : ℚ) (e : ℤ) (hlo : (2 : ℚ) ^ e ≤ |q|)
    (hhi : |q| < (2 : ℚ) ^ (e + 1)) :
    roundDouble q = (roundHalfEven (q / 2 ^ (e - 52)) : ℚ) * 2 ^ (e - 52) := by
  have hpos : 0 < |q| := lt_of_lt_of_le (zpow_pos (by norm_num) e) hlo
  have hq : q ≠ 0 := abs_pos.1 hpos
  unfold roundDouble
  rw [if_neg hq]
  simp only [int_log_two_eq |q| e hpos hlo hhi]

/-- A value of either sign with at most 53 significant bits in its binade is its
own rounding. -/
theorem roundDouble_of_exact_abs (q : ℚ) (e n : ℤ) (hlo : (2 : ℚ) ^ e ≤ |q|)
    (hhi : |q| < (2 : ℚ) ^ (e + 1)) (hn : q / 2 ^ (e - 52) = n) : roundDouble q = q := by
  rw [roundDouble_eq_abs q e hlo hhi, hn,
    roundHalfEven_of_lt (n : ℚ) n le_rfl (by linarith), ← hn]
  have : (2 : ℚ) ^ (e - 52) ≠ 0 := zpow_ne_zero _ (by norm_num)
  field_simp

theorem roundDouble_zero : roundDouble 0 = 0 := by
  unfold roundDouble
  rw [if_pos rfl]

/-! ## improvedUnitSpawning -/

theorem spawnLoop_lt (fl : ℚ → ℚ) (cos sin : ℚ → ℚ) (x y count angleStep : ℚ) (i : Nat)
    (spawnPositions : List Position) (h : (i : ℚ) < count) :
    spawnLoop fl cos sin x y count angleStep i spawnPositions =
      spawnLoop fl cos sin x y count angleStep (i + 1)
        (spawnPositions ++ [⟨fl (x + fl (cos (fl ((i : ℚ) * angleStep)) * 30)),
          fl (y + fl (sin (fl ((i : ℚ) * angleStep)) * 30))⟩]) := by
  rw [spawnLoop, if_pos h]

theorem spawnLoop_ge (fl : ℚ → ℚ) (cos sin : ℚ → ℚ) (x y count angleStep : ℚ) (i : Nat)
    (spawnPositions : List Position) (h : ¬ (i : ℚ) < count) :
    spawnLoop fl cos sin x y count angleStep i spawnPositions = spawnPositions := by
  rw [spawnLoop, if_neg h]

/-- For a count that is the natural number `n`, the loop appends the positions
of the indices from `i` to `n - 1`. -/
theorem spawnLoop_natCast (fl : ℚ → ℚ) (cos sin : ℚ → ℚ) (x y angleStep : ℚ) (n : Nat) :
    ∀ (k i : Nat) (spawnPositions : List Position), i + k = n →
      spawnLoop fl cos sin x y (n : ℚ) angleStep i spawnPositions =
        spawnPositions ++ (List.range' i k).map (fun (j : Nat) =>
          (⟨fl (x + fl (cos (fl ((j : ℚ) * angleStep)) * 30)),
            fl (y + fl (sin (fl ((j : ℚ) * angleStep)) * 30))⟩ : Position)) := by
  intro k
  induction k with
  | zero =>
    intro i spawnPositions h
    have hi : ¬ (i : ℚ) < (n : ℚ) := by
      have : n ≤ i := by omega
      exact not_lt.2 (by exact_mod_cast this)
    rw [spawnLoop_ge _ _ _ _ _ _ _ _ _ hi]
    simp
  | succ k ih =>
    intro i spawnPositions h
    have hi : (i : ℚ) < (n : ℚ) := by
      have : i < n := by omega
      exact_mod_cast this
    rw [spawnLoop_lt _ _ _ _ _ _ _ _ _ hi, ih (i + 1) _ (by omega)]
    simp [List.range'_succ]

/-- The array returned for a card whose count is the natural number `n > 1`. -/
theorem improvedUnitSpawning_natCast (fl : ℚ → ℚ) (cos sin : ℚ → ℚ) (PI : ℚ)
    (cardDatabase : String → Option CardData) (x y : ℚ) (cardType owner : String)
    (cardData : CardData) (n : Nat) (hcard : cardDatabase cardType = some cardData)
    (hn : 1 < n) (hcount : cardData.count = some (n : ℚ)) :
    improvedUnitSpawning fl cos sin PI cardDatabase x y cardType owner =
      some ((List.range' 0 n).map (fun (j : Nat) =>
        (⟨spawnKindOf cardData,
          fl (x + fl (cos (fl ((j : ℚ) * fl (fl (PI * 2) / (n : ℚ)))) * 30)),
          fl (y + fl (sin (fl ((j : ℚ) * fl (fl (PI * 2) / (n : ℚ)))) * 30)),
          cardData, owner⟩ : SpawnedEntity))) := by
  have hn1 : (1 : ℚ) < (n : ℚ) := by exact_mod_cast hn
  have hn0 : (n : ℚ) ≠ 0 := by linarith
  have hcond : (n : ℚ) ≠ 0 ∧ (n : ℚ) > 1 := ⟨hn0, hn1⟩
  unfold improvedUnitSpawning
  simp only [hcard, hcount, if_pos hcond]
  rw [spawnLoop_natCast fl cos sin x y (fl (fl (PI * 2) / (n : ℚ))) n n 0 [] (by omega)]
  simp only [List.nil_append, List.map_map]
  congr 1
  apply List.map_congr_left
  intro j _
  simp only [Function.comp]
  by_cases hb : cardData.type = some "building"
  · simp only [hb, if_true, spawnKindOf]
  · simp only [hb, if_false, spawnKindOf]

theorem cosQ_sq_add_sinQ_sq (a : ℚ) : cosQ a * cosQ a + sinQ a * sinQ a = 1 := by
  have ht : ∀ t : ℚ, (1 - t * t) / (1 + t * t) * ((1 - t * t) / (1 + t * t)) +
      2 * t / (1 + t * t) * (2 * t / (1 + t * t)) = 1 := by
    intro t
    have h : 1 + t * t ≠ 0 := by nlinarith [mul_self_nonneg t]
    field_simp
    ring
  have ha : a = 2 * (a / 2) := by ring
  unfold cosQ sinQ
  rw [show a / (1 + a / 2 * (a / 2)) = 2 * (a / 2) / (1 + a / 2 * (a / 2)) by rw [← ha]]
  exact ht (a / 2)

/-- The double `Math.PI * 2`: doubling is exact. -/
theorem roundDouble_two_pi :
    roundDouble (sampleMathPI * 2) = 884279719003555 / 2 ^ 47 := by
  have h : sampleMathPI * 2 = 884279719003555 / 2 ^ 47 := by
    unfold sampleMathPI
    norm_num
  rw [h]
  exact roundDouble_of_exact _ 2 7074237752028440 (by norm_num) (by norm_num) (by norm_num)
    (by norm_num)

/-- The double `(Math.PI * 2) / 3`, `2.0943951023931953`. -/
theorem roundDouble_angle_step :
    roundDouble (884279719003555 / 2 ^ 47 / 3) = 4716158501352293 / 2 ^ 51 := by
  rw [roundDouble_eq _ 1 (by norm_num) (by norm_num) (by norm_num),
    roundHalfEven_of_lt _ 4716158501352293 (by norm_num) (by norm_num)]
  norm_num

/-- The double `2 * angleStep`, `4.1887902047863905`: doubling is exact. -/
theorem roundDouble_angle_two :
    roundDouble (2 * (4716158501352293 / 2 ^ 51)) = 4716158501352293 / 2 ^ 50 := by
  have h : (2 : ℚ) * (4716158501352293 / 2 ^ 51) = 4716158501352293 / 2 ^ 50 := by norm_num
  rw [h]
  exact roundDouble_of_exact _ 2 4716158501352293 (by norm_num) (by norm_num) (by norm_num)
    (by norm_num)

/-- The double `Math.cos(angle) * 30` for the third unit, `-15.000000000000014`:
a tie, rounded to the even neighbour. -/
theorem roundDouble_cos_times_radius :
    roundDouble (-1125899906842625 / 2 ^ 51 * 30) = -1055531162664961 / 2 ^ 46 := by
  rw [roundDouble_eq_abs _ 3 (by rw [abs_of_neg (by norm_num)]; norm_num)
      (by rw [abs_of_neg (by norm_num)]; norm_num),
    roundHalfEven_tie_even _ (-8444249301319688) (by norm_num) (by decide)]
  norm_num

/-- The double `100 + Math.cos(angle) * 30` for the third unit,
`84.99999999999999`. -/
theorem roundDouble_spawn_x :
    roundDouble (100 + -1055531162664961 / 2 ^ 46) = 5981343255101439 / 2 ^ 46 := by
  have h : (100 : ℚ) + -1055531162664961 / 2 ^ 46 = 5981343255101439 / 2 ^ 46 := by norm_num
  rw [h]
  exact roundDouble_of_exact _ 6 5981343255101439 (by norm_num) (by norm_num) (by norm_num)
    (by norm_num)

/-- The double `Math.sin(angle) * 30` for the third unit, `-25.980762113533153`:
a tie, rounded to the even neighbour. -/
theorem roundDouble_sin_times_radius :
    roundDouble (-975057921444245 / 2 ^ 50 * 30) = -3656467205415919 / 2 ^ 47 := by
  rw [roundDouble_eq_abs _ 4 (by rw [abs_of_neg (by norm_num)]; norm_num)
      (by rw [abs_of_neg (by norm_num)]; norm_num),
    roundHalfEven_tie_even _ (-7312934410831838) (by norm_num) (by decide)]
  norm_num

/-- The double `200 + Math.sin(angle) * 30` for the third unit,
`174.01923788646684`. -/
theorem roundDouble_spawn_y :
    roundDouble (200 + -3656467205415919 / 2 ^ 47) = 1530689404103105 / 2 ^ 43 := by
  rw [roundDouble_eq _ 7 (by norm_num) (by norm_num) (by norm_num),
    roundHalfEven_of_lt _ 6122757616412420 (by norm_num) (by norm_num)]
  norm_num

/-- The third unit of the card `minions` deployed at `(100, 200)`, in JavaScript
arithmetic. -/
theorem improvedUnitSpawning_third_minion :
    ∃ l, improvedUnitSpawning roundDouble sampleMathCos sampleMathSin sampleMathPI
        sampleCardDatabase 100 200 "minions" "player" = some l ∧ l.length = 3 ∧
      l[2]? = some (⟨SpawnKind.unit, 5981343255101439 / 2 ^ 46, 1530689404103105 / 2 ^ 43,
        ⟨some "troop", some 3⟩, "player"⟩ : SpawnedEntity) := by
  have hcard : sampleCardDatabase "minions" = some ⟨some "troop", some ((3 : Nat) : ℚ)⟩ := by
    simp [sampleCardDatabase]
  refine ⟨_, improvedUnitSpawning_natCast roundDouble sampleMathCos sampleMathSin sampleMathPI
    sampleCardDatabase 100 200 "minions" "player" _ 3 hcard (by decide) rfl, by simp, ?_⟩
  rw [List.getElem?_map, List.getElem?_range' _ _ (by decide)]
  have hcos : sampleMathCos (4716158501352293 / 2 ^ 50) = -1125899906842625 / 2 ^ 51 := by
    unfold sampleMathCos
    rw [if_pos rfl]
  have hsin : sampleMathSin (4716158501352293 / 2 ^ 50) = -975057921444245 / 2 ^ 50 := by
    unfold sampleMathSin
    rw [if_pos rfl]
  have hkind : spawnKindOf ⟨some "troop", some 3⟩ = SpawnKind.unit := by
    simp [spawnKindOf]
  simp only [Option.map_some', Nat.zero_add, Nat.one_mul, Nat.cast_ofNat, roundDouble_two_pi,
    roundDouble_angle_step, roundDouble_angle_two, hcos, hsin, roundDouble_cos_times_radius,
    roundDouble_spawn_x, roundDouble_sin_times_radius, roundDouble_spawn_y, hkind]

/-- C11 as stated fails in JavaScript arithmetic: for the card `minions` of count
3 deployed at `(100, 200)`, the third unit (`i = 2`) is placed at
`(84.99999999999999, 174.01923788646684)`, whose squared distance to the deploy
point is not 900 (it is larger), so its distance is not exactly 30. -/
theorem improvedUnitSpawning_distance_not_exact :
    ∃ l e, improvedUnitSpawning roundDouble sampleMathCos sampleMathSin sampleMathPI
        sampleCardDatabase 100 200 "minions" "player" = some l ∧ l[2]? = some e ∧
      e.x = 5981343255101439 / 2 ^ 46 ∧ e.y = 1530689404103105 / 2 ^ 43 ∧
      (e.x - 100) * (e.x - 100) + (e.y - 200) * (e.y - 200) ≠ 30 * 30 ∧
      30 * 30 < (e.x - 100) * (e.x - 100) + (e.y - 200) * (e.y - 200) := by
  obtain ⟨l, hl, -, h2⟩ := improvedUnitSpawning_third_minion
  refine ⟨l, _, hl, h2, rfl, rfl, ?_, ?_⟩
  · norm_num
  · norm_num

/-- C11, amended: for a known card whose count is an integer `n > 1` the function
returns `n` objects, the `i`-th at `(x + cos(a) * 30, y + sin(a) * 30)` with
`a = i * ((PI * 2) / n)`, the result of each operation being rounded; in exact
arithmetic that is `(x + 30 cos(2 PI i / n), y + 30 sin(2 PI i / n))`, at squared
distance `30 * 30` from `(x, y)` when `cos` and `sin` satisfy
`cos a * cos a + sin a * sin a = 1`; for a known card with no count or a count
at most 1 it returns one object at `(x, y)`; for an unknown card it returns
`null`. -/
theorem improvedUnitSpawning_spread (fl : ℚ → ℚ) (cos sin : ℚ → ℚ) (PI : ℚ)
    (cardDatabase : String → Option CardData) (x y : ℚ) (cardType owner : String) :
    (∀ (cardData : CardData) (n : Nat), cardDatabase cardType = some cardData → 1 < n →
      cardData.count = some (n : ℚ) →
      (∃ l, improvedUnitSpawning fl cos sin PI cardDatabase x y cardType owner = some l ∧
        l.length = n ∧
        ∀ i, i < n → l[i]? = some
          (⟨spawnKindOf cardData,
            fl (x + fl (cos (fl ((i : ℚ) * fl (fl (PI * 2) / (n : ℚ)))) * 30)),
            fl (y + fl (sin (fl ((i : ℚ) * fl (fl (PI * 2) / (n : ℚ)))) * 30)),
            cardData, owner⟩ : SpawnedEntity)) ∧
      (∃ l, improvedUnitSpawning id cos sin PI cardDatabase x y cardType owner = some l ∧
        l.length = n ∧
        (∀ i, i < n → l[i]? = some
          (⟨spawnKindOf cardData, x + 30 * cos (2 * PI * (i : ℚ) / (n : ℚ)),
            y + 30 * sin (2 * PI * (i : ℚ) / (n : ℚ)), cardData, owner⟩ : SpawnedEntity)) ∧
        ((∀ a, cos a * cos a + sin a * sin a = 1) →
          ∀ e ∈ l, (e.x - x) * (e.x - x) + (e.y - y) * (e.y - y) = 30 * 30))) ∧
    (∀ cardData : CardData, cardDatabase cardType = some cardData →
      (cardData.count = none ∨ ∃ c, cardData.count = some c ∧ c ≤ 1) →
      improvedUnitSpawning fl cos sin PI cardDatabase x y cardType owner =
        some [⟨spawnKindOf cardData, x, y, cardData, owner⟩]) ∧
    (cardDatabase cardType = none →
      improvedUnitSpawning fl cos sin PI cardDatabase x y cardType owner = none) := by
  refine ⟨?_, ?_, ?_⟩
  · intro cardData n hcard hn hcount
    have hn0 : (n : ℚ) ≠ 0 := by
      have : (1 : ℚ) < (n : ℚ) := by exact_mod_cast hn
      linarith
    have hangle : ∀ j : Nat, (j : ℚ) * (PI * 2 / (n : ℚ)) = 2 * PI * (j : ℚ) / (n : ℚ) := by
      intro j
      field_simp
      ring
    refine ⟨⟨_, improvedUnitSpawning_natCast fl cos sin PI cardDatabase x y cardType owner
      cardData n hcard hn hcount, ?_, ?_⟩,
      ⟨_, improvedUnitSpawning_natCast id cos sin PI cardDatabase x y cardType owner
      cardData n hcard hn hcount, ?_, ?_, ?_⟩⟩
    · simp
    · intro i hi
      rw [List.getElem?_map, List.getElem?_range' _ _ hi]
      simp
    · simp
    · intro i hi
      rw [List.getElem?_map, List.getElem?_range' _ _ hi]
      simp only [Option.map_some', Nat.zero_add, Nat.one_mul, id, hangle]
      rw [mul_comm (cos _) 30, mul_comm (sin _) 30]
    · intro hcs e he
      obtain ⟨j, -, rfl⟩ := List.mem_map.1 he
      have := hcs ((j : ℚ) * (PI * 2 / (n : ℚ)))
      simp only [id]
      linear_combination 900 * this
  · intro cardData hcard hcount
    unfold improvedUnitSpawning
    rcases hcount with hnone | ⟨c, hc, hle⟩
    · simp only [hcard, hnone, List.map_cons, List.map_nil, spawnKindOf]
      split_ifs <;> rfl
    · have hcond : ¬ (c ≠ 0 ∧ c > 1) := fun h => absurd h.2 (not_lt.2 hle)
      simp only [hcard, hc, if_neg hcond, List.map_cons, List.map_nil, spawnKindOf]
      split_ifs <;> rfl
  · intro hcard
    unfold improvedUnitSpawning
    simp only [hcard]

/-- C11, amended, on the card `minions` of count 3, deployed at `(100, 200)`: three
units; in exact arithmetic each is at squared distance 900 from the deploy
point; and `null` for the card `dragon`, which the sample database does not
hold. -/
theorem improvedUnitSpawning_spread_witness :
    sampleCardDatabase "minions" = some ⟨some "troop", some ((3 : Nat) : ℚ)⟩ ∧
    (∀ a, cosQ a * cosQ a + sinQ a * sinQ a = 1) ∧
    (∃ l, improvedUnitSpawning roundDouble sampleMathCos sampleMathSin sampleMathPI
        sampleCardDatabase 100 200 "minions" "player" = some l ∧ l.length = 3) ∧
    (∃ l, improvedUnitSpawning id cosQ sinQ (22 / 7) sampleCardDatabase 100 200 "minions"
        "player" = some l ∧ l.length = 3 ∧
      ∀ e ∈ l, (e.x - 100) * (e.x - 100) + (e.y - 200) * (e.y - 200) = 30 * 30) ∧
    improvedUnitSpawning roundDouble sampleMathCos sampleMathSin sampleMathPI
      sampleCardDatabase 100 200 "dragon" "player" = none := by
  have hcard : sampleCardDatabase "minions" = some ⟨some "troop", some ((3 : Nat) : ℚ)⟩ := by
    simp [sampleCardDatabase]
  have hcs : ∀ a, cosQ a * cosQ a + sinQ a * sinQ a = 1 := cosQ_sq_add_sinQ_sq
  have h := improvedUnitSpawning_spread id cosQ sinQ (22 / 7) sampleCardDatabase 100 200
    "minions" "player"
  have h1 := improvedUnitSpawning_spread roundDouble sampleMathCos sampleMathSin sampleMathPI
    sampleCardDatabase 100 200 "minions" "player"
  have h2 := improvedUnitSpawning_spread roundDouble sampleMathCos sampleMathSin sampleMathPI
    sampleCardDatabase 100 200 "dragon" "player"
  obtain ⟨-, l, hl, hlen, -, hdist⟩ := h.1 _ 3 hcard (by decide) rfl
  obtain ⟨⟨l1, hl1, hlen1, -⟩, -⟩ := h1.1 _ 3 hcard (by decide) rfl
  exact ⟨hcard, hcs, ⟨l1, hl1, hlen1⟩, ⟨l, hl, hlen, hdist hcs⟩,
    h2.2.2 (by simp [sampleCardDatabase])⟩

/-! ## The frame of improvedFindTarget -/

/-- What a step of the scan keeps: the objects, the targets, the arrays other than
the four priority lists, and the next array reference. -/
theorem Store.categorize_frame (getDistance : Store → Nat → Nat → ℚ × Store)
    (hpure : ∀ s a b, (getDistance s a b).2 = s)
    (self p k b t : Nat) (store : Store) (item : ArrayItem) :
    (Store.categorize getDistance self p k b t store item).objects = store.objects ∧
    (Store.categorize getDistance self p k b t store item).target = store.target ∧
    (Store.categorize getDistance self p k b t store item).nextArray = store.nextArray ∧
    ∀ a, a ≠ p → a ≠ k → a ≠ b → a ≠ t →
      (Store.categorize getDistance self p k b t store item).arrays a = store.arrays a := by
  cases item with
  | candidate e d => exact ⟨rfl, rfl, rfl, fun _ _ _ _ _ => rfl⟩
  | object r =>
    unfold Store.categorize
    simp only [hpure]
    split_ifs
    all_goals
      refine ⟨rfl, rfl, rfl, ?_⟩
      intro a hp hk hb ht
      first
        | rfl
        | simp only [Store.push, if_neg hp, if_neg hk, if_neg hb, if_neg ht]

/-- What the whole scan keeps. -/
theorem Store.foldl_categorize_frame (getDistance : Store → Nat → Nat → ℚ × Store)
    (hpure : ∀ s a b, (getDistance s a b).2 = s)
    (self p k b t : Nat) (items : List ArrayItem) :
    ∀ store : Store,
      (items.foldl (Store.categorize getDistance self p k b t) store).objects =
        store.objects ∧
      (items.foldl (Store.categorize getDistance self p k b t) store).target =
        store.target ∧
      (items.foldl (Store.categorize getDistance self p k b t) store).nextArray =
        store.nextArray ∧
      ∀ a, a ≠ p → a ≠ k → a ≠ b → a ≠ t →
        (items.foldl (Store.categorize getDistance self p k b t) store).arrays a =
          store.arrays a := by
  induction items with
  | nil => exact fun store => ⟨rfl, rfl, rfl, fun _ _ _ _ _ => rfl⟩
  | cons item rest ih =>
    intro store
    obtain ⟨h1, h2, h3, h4⟩ := Store.categorize_frame getDistance hpure self p k b t store item
    obtain ⟨g1, g2, g3, g4⟩ := ih (Store.categorize getDistance self p k b t store item)
    rw [List.foldl_cons]
    refine ⟨g1.trans h1, g2.trans h2, g3.trans h3, ?_⟩
    intro a hp hk hb ht
    rw [g4 a hp hk hb ht, h4 a hp hk hb ht]

theorem Store.allocate_arrays_of_lt (store : Store) (items : List ArrayItem) (a : Nat)
    (h : a < store.nextArray) : (store.allocate items).arrays a = store.arrays a := by
  simp only [Store.allocate, if_neg (Nat.ne_of_lt h)]

/-- The frame of a call on the store: the arrays that exist before the call, the
fields of the objects and the targets of the objects other than `self` are kept. -/
theorem Store.improvedFindTarget_keeps (getDistance : Store → Nat → Nat → ℚ × Store)
    (hpure : ∀ s a b, (getDistance s a b).2 = s)
    (entities towers self : Nat) (store : Store) :
    (∀ a, a < store.nextArray →
      (Store.improvedFindTarget getDistance entities towers self store).arrays a =
        store.arrays a) ∧
    (Store.improvedFindTarget getDistance entities towers self store).objects =
      store.objects ∧
    (∀ r, r ≠ self →
      (Store.improvedFindTarget getDistance entities towers self store).target r =
        store.target r) := by
  suffices h : ∀ result, result = Store.improvedFindTarget getDistance entities towers self store →
      (∀ a, a < store.nextArray → result.arrays a = store.arrays a) ∧
        result.objects = store.objects ∧ (∀ r, r ≠ self → result.target r = store.target r) from
    h _ rfl
  intro result hresult
  unfold Store.improvedFindTarget at hresult
  lift_lets at hresult
  extract_lets p s1 k s2 b s3 t s4 sc s5 s6 e s7 tl at hresult
  have hp : p = store.nextArray := rfl
  have hk : k = store.nextArray + 1 := rfl
  have hb : b = store.nextArray + 2 := rfl
  have ht : t = store.nextArray + 3 := rfl
  have hs5 : s5.nextArray = store.nextArray + 5 := rfl
  obtain ⟨g1, g2, g3, g4⟩ :=
    Store.foldl_categorize_frame getDistance hpure self p k b t (s5.arrays sc) s5
  have he : e = store.nextArray + 5 := g3.trans hs5
  have htl : store.nextArray ≤ tl := by
    simp only [tl]
    split_ifs <;> omega
  have harrays : ∀ a, a < store.nextArray → s7.arrays a = store.arrays a := by
    intro a ha
    have h6 : s6.arrays a = s5.arrays a :=
      g4 a (by omega) (by omega) (by omega) (by omega)
    have h5 : s5.arrays a = store.arrays a := by
      simp only [s5, s4, s3, s2, s1, Store.allocate]
      rw [if_neg (by omega), if_neg (by omega), if_neg (by omega), if_neg (by omega),
        if_neg (by omega)]
    have h7 : s7.arrays a = s6.arrays a := by
      simp only [s7, Store.allocate]
      rw [if_neg (by omega)]
    rw [h7, h6, h5]
  have hobjects : s7.objects = store.objects := g1
  have htarget : s7.target = store.target := g2
  simp only at hresult
  by_cases hlen : (s7.arrays tl).length > 0
  · rw [if_pos hlen] at hresult
    subst hresult
    refine ⟨?_, hobjects, ?_⟩
    · intro a ha
      simp only [Store.setTarget, Store.sort]
      rw [if_neg (by omega)]
      exact harrays a ha
    · intro r hr
      simp only [Store.setTarget, Store.sort, if_neg hr]
      rw [htarget]
  · rw [if_neg hlen] at hresult
    subst hresult
    refine ⟨?_, hobjects, ?_⟩
    · intro a ha
      exact harrays a ha
    · intro r hr
      simp only [Store.setTarget, if_neg hr]
      rw [htarget]

/-- One step of the scan on the store files the object as `categorize` does. -/
theorem Store.categorize_buckets (getDistance : Store → Nat → Nat → ℚ × Store)
    (gd : Entity → Entity → ℚ)
    (hpure : ∀ s a b, (getDistance s a b).2 = s)
    (hgd : ∀ s a b, (getDistance s a b).1 = gd (s.objects a) (s.objects b))
    (self p k b t : Nat) (hpk : p ≠ k) (hpb : p ≠ b) (hpt : p ≠ t) (hkb : k ≠ b)
    (hkt : k ≠ t) (hbt : b ≠ t) (store : Store) (r : Nat) :
    (Store.categorize getDistance self p k b t store (ArrayItem.object r)).buckets p k b t =
      ClashRoyale.categorize gd (store.objects self) (store.buckets p k b t)
        (store.objects r) := by
  unfold Store.categorize ClashRoyale.categorize
  simp only [hpure, hgd]
  split_ifs
  · simp only [Store.buckets, Store.push, if_true, if_neg hpk.symm, if_neg hpb.symm,
      if_neg hpt.symm, List.map_append, List.map_cons, List.map_nil, toCandidate]
  · simp only [Store.buckets, Store.push, if_true, if_neg hpk, if_neg hkb.symm,
      if_neg hkt.symm, List.map_append, List.map_cons, List.map_nil, toCandidate]
  · simp only [Store.buckets, Store.push, if_true, if_neg hpb, if_neg hkb,
      if_neg hbt.symm, List.map_append, List.map_cons, List.map_nil, toCandidate]
  · simp only [Store.buckets, Store.push, if_true, if_neg hpt, if_neg hkt,
      if_neg hbt, List.map_append, List.map_cons, List.map_nil, toCandidate]
  · rfl
  · rfl

/-- The scan on the store files the objects as the scan on values does. -/
theorem Store.foldl_categorize_buckets (getDistance : Store → Nat → Nat → ℚ × Store)
    (gd : Entity → Entity → ℚ)
    (hpure : ∀ s a b, (getDistance s a b).2 = s)
    (hgd : ∀ s a b, (getDistance s a b).1 = gd (s.objects a) (s.objects b))
    (self p k b t : Nat) (hpk : p ≠ k) (hpb : p ≠ b) (hpt : p ≠ t) (hkb : k ≠ b)
    (hkt : k ≠ t) (hbt : b ≠ t) (refs : List Nat) :
    ∀ store : Store,
      ((refs.map ArrayItem.object).foldl (Store.categorize getDistance self p k b t)
          store).buckets p k b t =
        (refs.map store.objects).foldl (ClashRoyale.categorize gd (store.objects self))
          (store.buckets p k b t) := by
  induction refs with
  | nil => exact fun store => rfl
  | cons r rest ih =>
    intro store
    have hobj := (Store.categorize_frame getDistance hpure self p k b t store
      (ArrayItem.object r)).1
    rw [List.map_cons, List.foldl_cons, ih, hobj, List.map_cons, List.foldl_cons,
      Store.categorize_buckets getDistance gd hpure hgd self p k b t hpk hpb hpt hkb hkt hbt]

/-- A step of the scan pushes records `{entity, distance}` only. -/
theorem Store.categorize_isCandidate (getDistance : Store → Nat → Nat → ℚ × Store)
    (hpure : ∀ s a b, (getDistance s a b).2 = s)
    (self p k b t : Nat) (store : Store) (item : ArrayItem) (a : Nat)
    (h : ∀ i ∈ store.arrays a, i.isCandidate = true) :
    ∀ i ∈ (Store.categorize getDistance self p k b t store item).arrays a,
      i.isCandidate = true := by
  have hpush : ∀ (array r : Nat) (d : ℚ),
      ∀ i ∈ (store.push array (ArrayItem.candidate r d)).arrays a, i.isCandidate = true := by
    intro array r d i hi
    simp only [Store.push] at hi
    by_cases ha : a = array
    · rw [if_pos ha] at hi
      rcases List.mem_append.1 hi with hi | hi
      · exact h i (ha ▸ hi)
      · rw [List.mem_singleton.1 hi]
        rfl
    · rw [if_neg ha] at hi
      exact h i hi
  cases item with
  | candidate e d => exact h
  | object r =>
    unfold Store.categorize
    simp only [hpure]
    split_ifs
    · exact hpush p r _
    · exact hpush k r _
    · exact hpush b r _
    · exact hpush t r _
    · exact h
    · exact h

theorem Store.foldl_categorize_isCandidate (getDistance : Store → Nat → Nat → ℚ × Store)
    (hpure : ∀ s a b, (getDistance s a b).2 = s)
    (self p k b t : Nat) (a : Nat) (items : List ArrayItem) :
    ∀ store : Store, (∀ i ∈ store.arrays a, i.isCandidate = true) →
      ∀ i ∈ (items.foldl (Store.categorize getDistance self p k b t) store).arrays a,
        i.isCandidate = true := by
  induction items with
  | nil => exact fun store h => h
  | cons item rest ih =>
    intro store h
    rw [List.foldl_cons]
    exact ih _ (Store.categorize_isCandidate getDistance hpure self p k b t store item a h)

/-- The head of a list of records after the sort, read on the store and on
values. -/
theorem firstEntity_sort (objects : Nat → Entity) (items : List ArrayItem)
    (h : ∀ i ∈ items, i.isCandidate = true) :
    (firstEntity (items.insertionSort (fun i j => i.distance ≤ j.distance))).map objects =
      pickTarget (items.map (toCandidate objects)) := by
  have hdist : ∀ i : ArrayItem, (toCandidate objects i).distance = i.distance := by
    intro i
    cases i <;> rfl
  have hsort : sortByDistance (items.map (toCandidate objects)) =
      (items.insertionSort (fun i j => i.distance ≤ j.distance)).map (toCandidate objects) := by
    unfold sortByDistance
    rw [List.map_insertionSort (fun (i j : ArrayItem) => i.distance ≤ j.distance)
      (fun (a b : Candidate) => a.distance ≤ b.distance)]
    intro a _ b _
    rw [hdist, hdist]
  unfold pickTarget
  rw [hsort]
  cases hs : items.insertionSort (fun i j => i.distance ≤ j.distance) with
  | nil =>
    have hnil : items = [] := by
      have := List.length_insertionSort (fun (i j : ArrayItem) => i.distance ≤ j.distance) items
      rw [hs] at this
      exact List.length_eq_zero.1 this.symm
    rw [hnil]
    rfl
  | cons item rest =>
    have hmem : item ∈ items := by
      have : item ∈ items.insertionSort (fun i j => i.distance ≤ j.distance) := by
        rw [hs]
        exact List.mem_cons_self _ _
      exact (List.mem_insertionSort _).1 this
    have hlen : (items.map (toCandidate objects)).length > 0 := by
      rw [List.length_map]
      exact List.length_pos_of_mem hmem
    rw [if_pos hlen]
    have hcand := h item hmem
    cases item with
    | object r => cases hcand
    | candidate r d => rfl

/-- The choice of `targetList` among arrays, read on values. -/
theorem selectTargetList_map (objects : Nat → Entity) (self : Entity)
    (ap ak ab at0 : List ArrayItem) :
    (if ap.length > 0 then ap
      else if ak.length > 0 then ak
      else if self.targetType = some "building" ∧ ab.length > 0 then ab
      else if at0.length > 0 then at0
      else []).map (toCandidate objects) =
      selectTargetList self ⟨ap.map (toCandidate objects), ak.map (toCandidate objects),
        ab.map (toCandidate objects), at0.map (toCandidate objects)⟩ := by
  unfold selectTargetList
  simp only [List.length_map]
  split_ifs <;> rfl

/-- The target a call on the store sets is the target `improvedFindTarget`
computes on the values of the objects the game state holds. -/
theorem Store.improvedFindTarget_target (getDistance : Store → Nat → Nat → ℚ × Store)
    (gd : Entity → Entity → ℚ)
    (hpure : ∀ s a b, (getDistance s a b).2 = s)
    (hgd : ∀ s a b, (getDistance s a b).1 = gd (s.objects a) (s.objects b))
    (entities towers self : Nat) (store : Store) (es ts : List Nat)
    (hentities : entities < store.nextArray) (htowers : towers < store.nextArray)
    (hes : store.arrays entities = es.map ArrayItem.object)
    (hts : store.arrays towers = ts.map ArrayItem.object) (previous : Option Entity) :
    ((Store.improvedFindTarget getDistance entities towers self store).target self).map
        store.objects =
      (ClashRoyale.improvedFindTarget gd ⟨es.map store.objects, ts.map store.objects⟩
        ⟨store.objects self, previous⟩).target := by
  suffices h : ∀ result,
      result = Store.improvedFindTarget getDistance entities towers self store →
      (result.target self).map store.objects =
        pickTarget (selectTargetList (store.objects self)
          (collectTargets gd (store.objects self)
            ⟨es.map store.objects, ts.map store.objects⟩)) from
    h _ rfl
  intro result hresult
  unfold Store.improvedFindTarget at hresult
  lift_lets at hresult
  extract_lets p s1 k s2 b s3 t s4 sc s5 s6 e s7 tl at hresult
  have hp : p = store.nextArray := rfl
  have hk : k = store.nextArray + 1 := rfl
  have hb : b = store.nextArray + 2 := rfl
  have ht : t = store.nextArray + 3 := rfl
  have hsc : sc = store.nextArray + 4 := rfl
  have hs5 : s5.nextArray = store.nextArray + 5 := rfl
  obtain ⟨g1, -, g3, -⟩ :=
    Store.foldl_categorize_frame getDistance hpure self p k b t (s5.arrays sc) s5
  have he : e = store.nextArray + 5 := g3.trans hs5
  have hobjects : s7.objects = store.objects := g1
  have hold : ∀ a, a < store.nextArray → s4.arrays a = store.arrays a := by
    intro a ha
    simp only [s4, s3, s2, s1, Store.allocate]
    rw [if_neg (by omega), if_neg (by omega), if_neg (by omega), if_neg (by omega)]
  have hscan : s5.arrays sc = (es ++ ts).map ArrayItem.object := by
    have : s5.arrays sc = s4.arrays entities ++ s4.arrays towers := by
      simp only [s5, Store.allocate, if_true]
    rw [this, hold entities hentities, hold towers htowers, hes, hts, List.map_append]
  have hempty : ∀ a, a = p ∨ a = k ∨ a = b ∨ a = t → s5.arrays a = [] := by
    intro a ha
    simp only [s5, s4, s3, s2, s1, Store.allocate]
    rcases ha with ha | ha | ha | ha
    · rw [if_neg (by omega), if_neg (by omega), if_neg (by omega), if_neg (by omega),
        if_pos (by omega)]
    · rw [if_neg (by omega), if_neg (by omega), if_neg (by omega), if_pos (by omega)]
    · rw [if_neg (by omega), if_neg (by omega), if_pos (by omega)]
    · rw [if_neg (by omega), if_pos (by omega)]
  have hbuckets : s6.buckets p k b t =
      collectTargets gd (store.objects self) ⟨es.map store.objects, ts.map store.objects⟩ := by
    have h5 : s5.buckets p k b t = ⟨[], [], [], []⟩ := by
      simp only [Store.buckets, hempty p (Or.inl rfl), hempty k (Or.inr (Or.inl rfl)),
        hempty b (Or.inr (Or.inr (Or.inl rfl))), hempty t (Or.inr (Or.inr (Or.inr rfl))),
        List.map_nil]
    have h6 : s6 = ((es ++ ts).map ArrayItem.object).foldl
        (Store.categorize getDistance self p k b t) s5 := by
      rw [← hscan]
    rw [h6, Store.foldl_categorize_buckets getDistance gd hpure hgd self p k b t
      (by omega) (by omega) (by omega) (by omega) (by omega) (by omega), h5]
    unfold collectTargets
    rw [List.map_append]
    rfl
  have hcand6 : ∀ a, a = p ∨ a = k ∨ a = b ∨ a = t →
      ∀ i ∈ s6.arrays a, i.isCandidate = true := by
    intro a ha
    apply Store.foldl_categorize_isCandidate getDistance hpure self p k b t a (s5.arrays sc) s5
    intro i hi
    rw [hempty a ha] at hi
    cases hi
  have h7 : ∀ a, a = p ∨ a = k ∨ a = b ∨ a = t → s7.arrays a = s6.arrays a := by
    intro a ha
    simp only [s7, Store.allocate]
    rw [if_neg]
    show a ≠ e
    rcases ha with ha | ha | ha | ha <;> omega
  have h7e : s7.arrays e = [] := by
    simp only [s7, Store.allocate, if_true]
  have hitems : s7.arrays tl =
      if (s7.arrays p).length > 0 then s7.arrays p
      else if (s7.arrays k).length > 0 then s7.arrays k
      else if (s7.objects self).targetType = some "building" ∧ (s7.arrays b).length > 0
        then s7.arrays b
      else if (s7.arrays t).length > 0 then s7.arrays t
      else [] := by
    simp only [tl]
    split_ifs
    · rfl
    · rfl
    · rfl
    · rfl
    · exact h7e
  have hcand : ∀ i ∈ s7.arrays tl, i.isCandidate = true := by
    rw [hitems]
    intro i hi
    split_ifs at hi
    · rw [h7 p (Or.inl rfl)] at hi
      exact hcand6 p (Or.inl rfl) i hi
    · rw [h7 k (Or.inr (Or.inl rfl))] at hi
      exact hcand6 k (Or.inr (Or.inl rfl)) i hi
    · rw [h7 b (Or.inr (Or.inr (Or.inl rfl)))] at hi
      exact hcand6 b (Or.inr (Or.inr (Or.inl rfl))) i hi
    · rw [h7 t (Or.inr (Or.inr (Or.inr rfl)))] at hi
      exact hcand6 t (Or.inr (Or.inr (Or.inr rfl))) i hi
    · cases hi
  have hselect : (s7.arrays tl).map (toCandidate store.objects) =
      selectTargetList (store.objects self)
        (collectTargets gd (store.objects self)
          ⟨es.map store.objects, ts.map store.objects⟩) := by
    rw [hitems, hobjects, selectTargetList_map, ← hbuckets]
    have h6objects : s6.objects = store.objects := g1
    simp only [Store.buckets, h7 p (Or.inl rfl), h7 k (Or.inr (Or.inl rfl)),
      h7 b (Or.inr (Or.inr (Or.inl rfl))), h7 t (Or.inr (Or.inr (Or.inr rfl))), h6objects]
  simp only at hresult
  rw [← hselect]
  by_cases hlen : (s7.arrays tl).length > 0
  · rw [if_pos hlen] at hresult
    subst hresult
    have : ((s7.sort tl).setTarget self (firstEntity ((s7.sort tl).arrays tl))).target self =
        firstEntity ((s7.arrays tl).insertionSort (fun i j => i.distance ≤ j.distance)) := by
      simp only [Store.setTarget, Store.sort, if_true]
    rw [this]
    exact firstEntity_sort store.objects (s7.arrays tl) hcand
  · rw [if_neg hlen] at hresult
    subst hresult
    have hnil : s7.arrays tl = [] := List.length_eq_zero.1 (by omega)
    rw [hnil]
    simp only [Store.setTarget, if_true]
    rfl

/-- In the sample store the knight's call sets the princess tower as target. -/
theorem Store.improvedFindTarget_sampleStore :
    ((Store.improvedFindTarget sampleGetDistance 0 1 0 sampleStore).target 0).map
      sampleStore.objects = some samplePrincess := by
  have h := Store.improvedFindTarget_target sampleGetDistance euclid (fun _ _ _ => rfl)
    (fun _ _ _ => rfl) 0 1 0 sampleStore [0, 4, 3] [2, 1] (by decide) (by decide) rfl rfl none
  rw [h]
  exact sampleArena_target

/-- C13: a call of `improvedFindTarget` on the object `self`, run statement by
statement on a store in which the arrays `gameState.entities` and
`gameState.towers` exist before the call and `this.getDistance` writes nothing,
leaves both arrays with the same elements in the same order, leaves every other
array that exists before the call as it is, leaves the fields of every object
as they are, and leaves the `target` of every object other than `self` as it
is: only the `target` of `self` is assigned. -/
theorem improvedFindTarget_frame (getDistance : Store → Nat → Nat → ℚ × Store)
    (entities towers self : Nat) (store : Store)
    (hpure : ∀ s a b, (getDistance s a b).2 = s)
    (hentities : entities < store.nextArray) (htowers : towers < store.nextArray) :
    (Store.improvedFindTarget getDistance entities towers self store).arrays entities =
      store.arrays entities ∧
    (Store.improvedFindTarget getDistance entities towers self store).arrays towers =
      store.arrays towers ∧
    (∀ a, a < store.nextArray →
      (Store.improvedFindTarget getDistance entities towers self store).arrays a =
        store.arrays a) ∧
    (Store.improvedFindTarget getDistance entities towers self store).objects =
      store.objects ∧
    (∀ r, r ≠ self →
      (Store.improvedFindTarget getDistance entities towers self store).target r =
        store.target r) := by
  obtain ⟨h1, h2, h3⟩ :=
    Store.improvedFindTarget_keeps getDistance hpure entities towers self store
  exact ⟨h1 entities hentities, h1 towers htowers, h1, h2, h3⟩

/-- C13 in the sample store, for the knight's call: the two arrays of the game
state, the objects and the targets of the other objects are kept, while the
knight's target is set to the princess tower. -/
theorem improvedFindTarget_frame_witness :
    (∀ s a b, (sampleGetDistance s a b).2 = s) ∧
    0 < sampleStore.nextArray ∧ 1 < sampleStore.nextArray ∧
    ((Store.improvedFindTarget sampleGetDistance 0 1 0 sampleStore).target 0).map
      sampleStore.objects = some samplePrincess ∧
    (Store.improvedFindTarget sampleGetDistance 0 1 0 sampleStore).arrays 0 =
      [ArrayItem.object 0, ArrayItem.object 4, ArrayItem.object 3] ∧
    (Store.improvedFindTarget sampleGetDistance 0 1 0 sampleStore).arrays 1 =
      [ArrayItem.object 2, ArrayItem.object 1] ∧
    (Store.improvedFindTarget sampleGetDistance 0 1 0 sampleStore).objects =
      sampleStore.objects ∧
    (∀ r, r ≠ 0 →
      (Store.improvedFindTarget sampleGetDistance 0 1 0 sampleStore).target r = none) :=
  have hpure : ∀ s a b, (sampleGetDistance s a b).2 = s := fun _ _ _ => rfl
  have h0 : 0 < sampleStore.nextArray := by decide
  have h1 : 1 < sampleStore.nextArray := by decide
  have h := improvedFindTarget_frame sampleGetDistance 0 1 0 sampleStore hpure h0 h1
  ⟨hpure, h0, h1, Store.improvedFindTarget_sampleStore, h.1, h.2.1, h.2.2.2.1, h.2.2.2.2⟩

/-! ## EnhancedGameState.update -/

/-- When no `update` call brings a dead object back, a loop keeps the dead
objects dead and calls `update` only on objects alive at the start. -/
theorem forEachUpdate_dead (objectUpdate : Nat → ℚ → (Nat → Entity) → (Nat → Entity))
    (deltaTime : ℚ) (heap0 : Nat → Entity)
    (hmono : ∀ r dt (h : Nat → Entity) i, (h i).isDead = true →
      (objectUpdate r dt h i).isDead = true) (l : List Nat) :
    ∀ run : UpdateRun,
      ((∀ i, (heap0 i).isDead = true → (run.heap i).isDead = true) ∧
        ∀ x ∈ run.updated, (heap0 x).isDead = false) →
      ((∀ i, (heap0 i).isDead = true →
          ((forEachUpdate objectUpdate deltaTime l run).heap i).isDead = true) ∧
        ∀ x ∈ (forEachUpdate objectUpdate deltaTime l run).updated,
          (heap0 x).isDead = false) := by
  induction l with
  | nil => intro run h; exact h
  | cons r rest ih =>
    intro run h
    obtain ⟨h1, h2⟩ := h
    unfold forEachUpdate
    by_cases hr : (run.heap r).isDead = false
    · rw [if_pos hr]
      apply ih
      refine ⟨fun i hi => hmono r deltaTime run.heap i (h1 i hi), ?_⟩
      intro x hx
      rcases List.mem_append.1 hx with hx | hx
      · exact h2 x hx
      · rw [List.mem_singleton.1 hx]
        cases h0 : (heap0 r).isDead with
        | false => rfl
        | true =>
          rw [h1 r h0] at hr
          cases hr
    · rw [if_neg hr]
      exact ih run ⟨h1, h2⟩

theorem forEachUpdate_cons_alive (objectUpdate : Nat → ℚ → (Nat → Entity) → (Nat → Entity))
    (deltaTime : ℚ) (r : Nat) (rest : List Nat) (run : UpdateRun)
    (h : (run.heap r).isDead = false) :
    forEachUpdate objectUpdate deltaTime (r :: rest) run =
      forEachUpdate objectUpdate deltaTime rest
        { heap := objectUpdate r deltaTime run.heap, updated := run.updated ++ [r] } := by
  rw [forEachUpdate, if_pos h]

theorem forEachUpdate_cons_dead (objectUpdate : Nat → ℚ → (Nat → Entity) → (Nat → Entity))
    (deltaTime : ℚ) (r : Nat) (rest : List Nat) (run : UpdateRun)
    (h : (run.heap r).isDead = true) :
    forEachUpdate objectUpdate deltaTime (r :: rest) run =
      forEachUpdate objectUpdate deltaTime rest run := by
  rw [forEachUpdate, if_neg (by rw [h]; decide)]

theorem forEachUpdate_nil (objectUpdate : Nat → ℚ → (Nat → Entity) → (Nat → Entity))
    (deltaTime : ℚ) (run : UpdateRun) :
    forEachUpdate objectUpdate deltaTime [] run = run := rfl

theorem sampleHeap_isDead (r : Nat) : (sampleHeap r).isDead = decide (r = 4) := rfl

theorem sampleObjectUpdate_one (heap : Nat → Entity) :
    sampleObjectUpdate 1 16 heap = heap := by
  simp [sampleObjectUpdate]

theorem sampleObjectUpdate_two (heap : Nat → Entity) (i : Nat) :
    (sampleObjectUpdate 2 16 heap i).isDead = (decide (i = 1) || (heap i).isDead) := by
  by_cases hi : i = 1
  · simp [sampleObjectUpdate, hi]
  · simp [sampleObjectUpdate, hi]

theorem sampleObjectUpdate_three (heap : Nat → Entity) (i : Nat) :
    (sampleObjectUpdate 3 16 heap i).isDead = (!decide (i = 4) && (heap i).isDead) := by
  by_cases hi : i = 4
  · simp [sampleObjectUpdate, hi]
  · simp [sampleObjectUpdate, hi]

/-- The run in which a tower shoots the troop 1 after the troop's own update. -/
theorem update_sampleStateTower :
    (EnhancedGameState.update sampleObjectUpdate 16 0 1 sampleStateTower sampleHeap).2.updated =
        [1, 2] ∧
      (EnhancedGameState.update sampleObjectUpdate 16 0 1 sampleStateTower sampleHeap).1.entities =
        [] := by
  have hdt : (16 : ℚ) - sampleStateTower.lastUpdate = 16 := by norm_num [sampleStateTower]
  have h1 : forEachUpdate sampleObjectUpdate 16 [1] { heap := sampleHeap, updated := [] } =
      { heap := sampleHeap, updated := [1] } := by
    rw [forEachUpdate_cons_alive _ _ _ _ _ (by rw [sampleHeap_isDead]; decide),
      forEachUpdate_nil, sampleObjectUpdate_one]
    rfl
  have h2 : forEachUpdate sampleObjectUpdate 16 [2] { heap := sampleHeap, updated := [1] } =
      { heap := sampleObjectUpdate 2 16 sampleHeap, updated := [1, 2] } := by
    rw [forEachUpdate_cons_alive _ _ _ _ _ (by rw [sampleHeap_isDead]; decide),
      forEachUpdate_nil]
    rfl
  have hdead : (sampleObjectUpdate 2 16 sampleHeap 1).isDead = true := by
    rw [sampleObjectUpdate_two]; rfl
  unfold EnhancedGameState.update
  simp only [hdt]
  have he : sampleStateTower.entities = [1] := rfl
  have ht : sampleStateTower.towers = [2] := rfl
  rw [he, ht, h1, h2]
  refine ⟨rfl, ?_⟩
  simp only [List.filter, hdead, Bool.not_true]

/-- The run in which the troop 3 brings the dead troop 4 back before its turn. -/
theorem update_sampleStateRevive :
    (EnhancedGameState.update sampleObjectUpdate 16 0 1 sampleStateRevive sampleHeap).2.updated =
      [3, 4] := by
  have hdt : (16 : ℚ) - sampleStateRevive.lastUpdate = 16 := by norm_num [sampleStateRevive]
  have h1 : forEachUpdate sampleObjectUpdate 16 [3, 4] { heap := sampleHeap, updated := [] } =
      { heap := sampleObjectUpdate 4 16 (sampleObjectUpdate 3 16 sampleHeap),
        updated := [3, 4] } := by
    rw [forEachUpdate_cons_alive _ _ _ _ _ (by rw [sampleHeap_isDead]; decide),
      forEachUpdate_cons_alive _ _ _ _ _
        (by show (sampleObjectUpdate 3 16 sampleHeap 4).isDead = false
            rw [sampleObjectUpdate_three]; rfl),
      forEachUpdate_nil]
    rfl
  unfold EnhancedGameState.update
  simp only [hdt]
  have he : sampleStateRevive.entities = [3, 4] := rfl
  have ht : sampleStateRevive.towers = [] := rfl
  rw [he, ht, h1, forEachUpdate_nil]

/-- C12 as stated fails in two ways.  A troop that is alive after its own update
and is shot by a tower later in the same call is removed from the list; and a
troop that is dead when `update` starts is updated when an earlier troop brings
it back. -/
theorem update_drops_entity_killed_later :
    1 ∈ (EnhancedGameState.update sampleObjectUpdate 16 0 1 sampleStateTower
      sampleHeap).2.updated ∧
    (sampleObjectUpdate 1 16 sampleHeap 1).isDead = false ∧
    1 ∈ sampleStateTower.entities ∧
    1 ∉ (EnhancedGameState.update sampleObjectUpdate 16 0 1 sampleStateTower
      sampleHeap).1.entities ∧
    (sampleHeap 4).isDead = true ∧
    4 ∈ (EnhancedGameState.update sampleObjectUpdate 16 0 1 sampleStateRevive
      sampleHeap).2.updated := by
  rw [update_sampleStateTower.1, update_sampleStateTower.2, update_sampleStateRevive,
    sampleObjectUpdate_one]
  refine ⟨by simp, rfl, ?_, by simp, rfl, by simp⟩
  show 1 ∈ [1]
  simp

/-- C12, amended: after a call of `update` no element of `entities` is dead;
every element of the old list that is not dead once all the updates of the call
have run is still in the list; the new list is a sublist of the old one, so the
survivors keep their order; and when no update brings a dead object back, an
object that is dead when `update` starts is not updated. -/
theorem update_removes_dead (objectUpdate : Nat → ℚ → (Nat → Entity) → (Nat → Entity))
    (now updateStart updateEnd : ℚ) (self : EnhancedGameState) (heap : Nat → Entity) :
    (∀ r ∈ (EnhancedGameState.update objectUpdate now updateStart updateEnd self
        heap).1.entities,
      ((EnhancedGameState.update objectUpdate now updateStart updateEnd self
        heap).2.heap r).isDead = false) ∧
    (∀ r ∈ self.entities,
      ((EnhancedGameState.update objectUpdate now updateStart updateEnd self
        heap).2.heap r).isDead = false →
      r ∈ (EnhancedGameState.update objectUpdate now updateStart updateEnd self
        heap).1.entities) ∧
    List.Sublist
      (EnhancedGameState.update objectUpdate now updateStart updateEnd self heap).1.entities
      self.entities ∧
    ((∀ r dt (h : Nat → Entity) i, (h i).isDead = true →
        (objectUpdate r dt h i).isDead = true) →
      ∀ r, (heap r).isDead = true →
        r ∉ (EnhancedGameState.update objectUpdate now updateStart updateEnd self
          heap).2.updated) := by
  refine ⟨?_, ?_, ?_, ?_⟩
  · intro r hr
    have := (List.mem_filter.1 hr).2
    simpa using this
  · intro r hr halive
    exact List.mem_filter.2 ⟨hr, by simpa using halive⟩
  · exact List.filter_sublist _
  · intro hmono r hdead hmem
    have h1 := forEachUpdate_dead objectUpdate (now - self.lastUpdate) heap hmono
      self.entities { heap := heap, updated := [] }
      ⟨fun i hi => hi, fun x hx => absurd hx (List.not_mem_nil _)⟩
    have h2 := forEachUpdate_dead objectUpdate (now - self.lastUpdate) heap hmono
      self.towers _ h1
    have := h2.2 r hmem
    rw [hdead] at this
    cases this

theorem update_sampleStateRevive_idle :
    (EnhancedGameState.update sampleIdleUpdate 16 0 1 sampleStateRevive sampleHeap).1.entities =
      [3] := by
  have hdt : (16 : ℚ) - sampleStateRevive.lastUpdate = 16 := by norm_num [sampleStateRevive]
  have h1 : forEachUpdate sampleIdleUpdate 16 [3, 4] { heap := sampleHeap, updated := [] } =
      { heap := sampleHeap, updated := [3] } := by
    rw [forEachUpdate_cons_alive _ _ _ _ _ (by rw [sampleHeap_isDead]; decide),
      forEachUpdate_cons_dead _ _ _ _ _
        (by show (sampleHeap 4).isDead = true
            rfl),
      forEachUpdate_nil]
    rfl
  unfold EnhancedGameState.update
  simp only [hdt]
  have he : sampleStateRevive.entities = [3, 4] := rfl
  have ht : sampleStateRevive.towers = [] := rfl
  rw [he, ht, h1, forEachUpdate_nil]
  simp only [List.filter, sampleHeap_isDead]
  rfl

/-- C12, amended, on a state with the troops 3 and 4, of which 4 is dead, and an
`update` method that changes nothing: 4 is not updated and only 3 is kept. -/
theorem update_removes_dead_witness :
    (∀ r dt (h : Nat → Entity) i, (h i).isDead = true →
      (sampleIdleUpdate r dt h i).isDead = true) ∧
    (sampleHeap 4).isDead = true ∧
    4 ∉ (EnhancedGameState.update sampleIdleUpdate 16 0 1 sampleStateRevive
      sampleHeap).2.updated ∧
    (EnhancedGameState.update sampleIdleUpdate 16 0 1 sampleStateRevive
      sampleHeap).1.entities = [3] :=
  have hmono : ∀ r dt (h : Nat → Entity) i, (h i).isDead = true →
      (sampleIdleUpdate r dt h i).isDead = true := fun _ _ _ _ hi => hi
  have hdead : (sampleHeap 4).isDead = true := by simp [sampleHeap]
  ⟨hmono, hdead,
    (update_removes_dead sampleIdleUpdate 16 0 1 sampleStateRevive sampleHeap).2.2.2 hmono 4
      hdead,
    update_sampleStateRevive_idle⟩

end ClashRoyale

namespace TestRunners

/-! ## The Mines tester -/

/-- C14: when the test function throws an error object with message `m`,
`runTest` returns normally, leaves `passCount` unchanged, adds one to `testCount`
and to `failCount`, and appends one result with `passed = false` and the message
`Test threw error: ` followed by `m`. -/
theorem runTest_of_throws (typeError : ErrorObject) (t : MinesGameTester)
    (testName m : String) (stack : Option String) :
    (MinesGameTester.runTest typeError t testName
        (RunOutcome.throws (Thrown.error ⟨some m, stack⟩))).escaped = false ∧
    (MinesGameTester.runTest typeError t testName
        (RunOutcome.throws (Thrown.error ⟨some m, stack⟩))).tester.passCount = t.passCount ∧
    (MinesGameTester.runTest typeError t testName
        (RunOutcome.throws (Thrown.error ⟨some m, stack⟩))).tester.failCount =
      t.failCount + 1 ∧
    (MinesGameTester.runTest typeError t testName
        (RunOutcome.throws (Thrown.error ⟨some m, stack⟩))).tester.testCount =
      t.testCount + 1 ∧
    (MinesGameTester.runTest typeError t testName
        (RunOutcome.throws (Thrown.error ⟨some m, stack⟩))).tester.testResults =
      t.testResults ++
        [{ name := testName, passed := JsValue.bool false,
           message := JsValue.string ("Test threw error: " ++ m),
           details := propertyValue stack }] := by
  refine ⟨rfl, rfl, rfl, rfl, rfl⟩

theorem runTestCatch_consistent (t : MinesGameTester) (testName : String) (e : ErrorObject)
    (h : t.testCount = t.passCount + t.failCount + 1 ∧
      t.passCount + t.failCount = t.testResults.length) :
    (MinesGameTester.runTestCatch t testName (Thrown.error e)).escaped = false ∧
      (MinesGameTester.runTestCatch t testName (Thrown.error e)).tester.Consistent := by
  obtain ⟨h1, h2⟩ := h
  refine ⟨rfl, ?_, ?_⟩
  · simp only [MinesGameTester.runTestCatch]
    omega
  · simp only [MinesGameTester.runTestCatch, List.length_append, List.length_singleton]
    omega

/-- One `runTest` whose test function does not throw `null` or `undefined` ends
normally and keeps the tallies consistent. -/
theorem runTest_consistent (typeError : ErrorObject) (t : MinesGameTester)
    (testName : String) (testFunction : RunOutcome) (ht : t.Consistent)
    (hf : testFunction ≠ RunOutcome.throws Thrown.nullish) :
    (MinesGameTester.runTest typeError t testName testFunction).escaped = false ∧
      (MinesGameTester.runTest typeError t testName testFunction).tester.Consistent := by
  obtain ⟨h1, h2⟩ := ht
  cases testFunction with
  | returns result =>
    cases result with
    | nullish =>
      exact runTestCatch_consistent _ testName typeError
        ⟨by show t.testCount + 1 = t.passCount + t.failCount + 1; omega, h2⟩
    | primitive =>
      refine ⟨rfl, ?_, ?_⟩
      · simp only [MinesGameTester.runTest]
        omega
      · simp only [MinesGameTester.runTest, List.length_append, List.length_singleton]
        omega
    | object passed message details =>
      cases hp : passed.truthy with
      | true =>
        refine ⟨rfl, ?_, ?_⟩
        · simp only [MinesGameTester.runTest, hp, if_true]
          omega
        · simp only [MinesGameTester.runTest, hp, if_true, List.length_append,
            List.length_singleton]
          omega
      | false =>
        have hne : ¬ (false = true) := by decide
        refine ⟨rfl, ?_, ?_⟩
        · simp only [MinesGameTester.runTest, hp, if_neg hne]
          omega
        · simp only [MinesGameTester.runTest, hp, if_neg hne, List.length_append,
            List.length_singleton]
          omega
  | throws error =>
    cases error with
    | nullish => exact absurd rfl hf
    | error e =>
      exact runTestCatch_consistent _ testName e
        ⟨by show t.testCount + 1 = t.passCount + t.failCount + 1; omega, h2⟩

theorem runTests_consistent (typeError : ErrorObject) (tests : List (String × RunOutcome)) :
    ∀ t : MinesGameTester, t.Consistent →
      (∀ p ∈ tests, p.2 ≠ RunOutcome.throws Thrown.nullish) →
      (MinesGameTester.runTests typeError tests t).tester.Consistent := by
  induction tests with
  | nil => intro t ht _; exact ht
  | cons p rest ih =>
    intro t ht hall
    obtain ⟨testName, testFunction⟩ := p
    have h := runTest_consistent typeError t testName testFunction ht
      (hall (testName, testFunction) (List.mem_cons_self _ _))
    unfold MinesGameTester.runTests
    simp only [h.1]
    exact ih _ h.2 (fun q hq => hall q (List.mem_cons_of_mem _ hq))

theorem runAllTests_consistent (typeError : ErrorObject) (gameFound : Bool)
    (outcomes : Nat → RunOutcome) (t : MinesGameTester) (ht : t.Consistent)
    (hall : ∀ i, outcomes i ≠ RunOutcome.throws Thrown.nullish) :
    (MinesGameTester.runAllTests typeError gameFound outcomes t).tester.Consistent := by
  unfold MinesGameTester.runAllTests
  by_cases hg : gameFound = false
  · rw [if_pos hg]; exact ht
  · rw [if_neg hg]
    apply runTests_consistent
    · exact ⟨rfl, rfl⟩
    · intro p hp
      have h2 := (List.of_mem_zip hp).2
      obtain ⟨i, -, hi⟩ := List.mem_map.1 h2
      rw [← hi]
      exact hall i

/-- C16 as stated fails for a test function that throws `null`: on a new tester
one `runTest` with such a function ends by an exception, with `testCount = 1`,
`passCount + failCount = 0` and no result recorded. -/
theorem tallies_inconsistent_after_throw_null :
    (MinesGameTester.runTest sampleTypeError MinesGameTester.new "thrower"
      (RunOutcome.throws Thrown.nullish)).escaped = true ∧
    (MinesGameTester.invokeAll sampleTypeError MinesGameTester.new
      [TesterInvocation.runTest "thrower" (RunOutcome.throws Thrown.nullish)]).testCount = 1 ∧
    (MinesGameTester.invokeAll sampleTypeError MinesGameTester.new
      [TesterInvocation.runTest "thrower" (RunOutcome.throws Thrown.nullish)]).passCount = 0 ∧
    (MinesGameTester.invokeAll sampleTypeError MinesGameTester.new
      [TesterInvocation.runTest "thrower" (RunOutcome.throws Thrown.nullish)]).failCount = 0 ∧
    (MinesGameTester.invokeAll sampleTypeError MinesGameTester.new
      [TesterInvocation.runTest "thrower"
        (RunOutcome.throws Thrown.nullish)]).testResults.length = 0 ∧
    ¬ (MinesGameTester.invokeAll sampleTypeError MinesGameTester.new
      [TesterInvocation.runTest "thrower" (RunOutcome.throws Thrown.nullish)]).Consistent := by
  refine ⟨rfl, rfl, rfl, rfl, rfl, ?_⟩
  intro h
  have h1 : (1 : Nat) = 0 + 0 := h.1
  omega

/-- C16, amended: starting from a new tester, after any sequence of `runTest` and
`runAllTests` calls in which no test function throws `null` or `undefined` (the
functions may pass, fail, throw any other value or return a malformed result),
`testCount = passCount + failCount = testResults.length`. -/
theorem tallies_consistent (typeError : ErrorObject) (calls : List TesterInvocation)
    (hcalls : ∀ c ∈ calls, c.ThrowsNoNullish) :
    (MinesGameTester.invokeAll typeError MinesGameTester.new calls).testCount =
      (MinesGameTester.invokeAll typeError MinesGameTester.new calls).passCount +
        (MinesGameTester.invokeAll typeError MinesGameTester.new calls).failCount ∧
    (MinesGameTester.invokeAll typeError MinesGameTester.new calls).passCount +
        (MinesGameTester.invokeAll typeError MinesGameTester.new calls).failCount =
      (MinesGameTester.invokeAll typeError MinesGameTester.new calls).testResults.length := by
  have hgen : ∀ (cs : List TesterInvocation) (t : MinesGameTester), t.Consistent →
      (∀ c ∈ cs, c.ThrowsNoNullish) →
      (MinesGameTester.invokeAll typeError t cs).Consistent := by
    intro cs
    induction cs with
    | nil => intro t ht _; exact ht
    | cons c rest ih =>
      intro t ht hall
      have hc := hall c (List.mem_cons_self _ _)
      have hstep : (MinesGameTester.invoke typeError t c).Consistent := by
        cases c with
        | runTest testName testFunction =>
          exact (runTest_consistent typeError t testName testFunction ht hc).2
        | runAllTests gameFound outcomes =>
          exact runAllTests_consistent typeError gameFound outcomes t ht hc
      exact ih _ hstep (fun d hd => hall d (List.mem_cons_of_mem _ hd))
  exact hgen calls MinesGameTester.new ⟨rfl, rfl⟩ hcalls

/-- C16, amended, on a sequence of a passing test, a throwing test and a full
`runAllTests` whose test functions all return `undefined`. -/
theorem tallies_consistent_witness :
    (∀ c ∈ [TesterInvocation.runTest "a"
          (RunOutcome.returns (TestReturn.object (JsValue.bool true) JsValue.undefined
            JsValue.undefined)),
        TesterInvocation.runTest "b" (RunOutcome.throws (Thrown.error ⟨some "boom", none⟩)),
        TesterInvocation.runAllTests true (fun _ => RunOutcome.returns TestReturn.nullish)],
      c.ThrowsNoNullish) ∧
    (MinesGameTester.invokeAll sampleTypeError MinesGameTester.new
      [TesterInvocation.runTest "a"
          (RunOutcome.returns (TestReturn.object (JsValue.bool true) JsValue.undefined
            JsValue.undefined)),
        TesterInvocation.runTest "b" (RunOutcome.throws (Thrown.error ⟨some "boom", none⟩)),
        TesterInvocation.runAllTests true
          (fun _ => RunOutcome.returns TestReturn.nullish)]).testCount =
      (MinesGameTester.invokeAll sampleTypeError MinesGameTester.new
        [TesterInvocation.runTest "a"
          (RunOutcome.returns (TestReturn.object (JsValue.bool true) JsValue.undefined
            JsValue.undefined)),
        TesterInvocation.runTest "b" (RunOutcome.throws (Thrown.error ⟨some "boom", none⟩)),
        TesterInvocation.runAllTests true
          (fun _ => RunOutcome.returns TestReturn.nullish)]).passCount +
      (MinesGameTester.invokeAll sampleTypeError MinesGameTester.new
        [TesterInvocation.runTest "a"
          (RunOutcome.returns (TestReturn.object (JsValue.bool true) JsValue.undefined
            JsValue.undefined)),
        TesterInvocation.runTest "b" (RunOutcome.throws (Thrown.error ⟨some "boom", none⟩)),
        TesterInvocation.runAllTests true
          (fun _ => RunOutcome.returns TestReturn.nullish)]).failCount :=
  have hcalls : ∀ c ∈ [TesterInvocation.runTest "a"
          (RunOutcome.returns (TestReturn.object (JsValue.bool true) JsValue.undefined
            JsValue.undefined)),
        TesterInvocation.runTest "b" (RunOutcome.throws (Thrown.error ⟨some "boom", none⟩)),
        TesterInvocation.runAllTests true (fun _ => RunOutcome.returns TestReturn.nullish)],
      c.ThrowsNoNullish := by
    intro c hc
    simp only [List.mem_cons, List.mem_singleton, List.not_mem_nil, or_false] at hc
    rcases hc with rfl | rfl | rfl
    · intro h; cases h
    · intro h; cases h
    · intro i h; cases h
  ⟨hcalls, (tallies_consistent sampleTypeError _ hcalls).1⟩

/-! ## testMultiplierCalculations -/

/-- The loop ends with `allCorrect` true exactly when it starts so and every
round yields a multiplier that the tolerance test does not reject. -/
theorem multiplierLoop_true_iff (coercion : NumberCoercion) (page : Nat → MultiplierReply)
    (l : List Nat) :
    ∀ (allCorrect : Bool) (details : List Nat),
      (∃ details2, multiplierLoop coercion page l (allCorrect, details) =
          Except.ok (true, details2)) ↔
        allCorrect = true ∧ ∀ m ∈ l, ∃ v, page m = MultiplierReply.multiplier v ∧
          multiplierIsOff coercion v (expectedMultipliers m) = false := by
  induction l with
  | nil =>
    intro allCorrect details
    simp only [multiplierLoop, List.not_mem_nil, false_imp_iff, implies_true, and_true]
    constructor
    · rintro ⟨d, hd⟩
      have := Except.ok.inj hd
      exact (Prod.mk.inj this).1
    · intro h
      exact ⟨details, by rw [h]⟩
  | cons m rest ih =>
    intro allCorrect details
    cases hpage : page m with
    | throws error =>
      simp only [multiplierLoop, hpage]
      constructor
      · rintro ⟨d, hd⟩
        cases hd
      · rintro ⟨-, hall⟩
        obtain ⟨v, hv, -⟩ := hall m (List.mem_cons_self _ _)
        rw [hpage] at hv
        cases hv
    | multiplier v =>
      cases hoff : multiplierIsOff coercion v (expectedMultipliers m) with
      | true =>
        simp only [multiplierLoop, hpage, hoff, if_true]
        rw [ih]
        constructor
        · rintro ⟨h, -⟩
          cases h
        · rintro ⟨-, hall⟩
          obtain ⟨w, hw, hw2⟩ := hall m (List.mem_cons_self _ _)
          rw [hpage] at hw
          cases hw
          rw [hoff] at hw2
          cases hw2
      | false =>
        have hne : ¬ (false = true) := by decide
        simp only [multiplierLoop, hpage, hoff, if_neg hne]
        rw [ih]
        constructor
        · rintro ⟨h, hall⟩
          refine ⟨h, ?_⟩
          intro k hk
          rcases List.mem_cons.1 hk with rfl | hk
          · exact ⟨v, hpage, hoff⟩
          · exact hall k hk
        · rintro ⟨h, hall⟩
          exact ⟨h, fun k hk => hall k (List.mem_cons_of_mem _ hk)⟩

theorem mem_range_one_ten (m : Nat) : m ∈ List.range' 1 10 ↔ 1 ≤ m ∧ m ≤ 10 := by
  rw [List.mem_range']
  constructor
  · rintro ⟨i, hi, rfl⟩
    omega
  · rintro ⟨h1, h2⟩
    exact ⟨m - 1, by omega, by omega⟩

/-- The test passes exactly when the loop ends with `allCorrect` true. -/
theorem multiplierTestPassed_iff_loop (coercion : NumberCoercion) (typeError : ErrorObject)
    (page : Nat → MultiplierReply) (t : MinesGameTester) :
    MultiplierTestPassed coercion typeError page t ↔
      ∃ details, multiplierLoop coercion page (List.range' 1 10) (true, []) =
        Except.ok (true, details) := by
  unfold MultiplierTestPassed MinesGameTester.testMultiplierCalculations
    multiplierTestFunction
  cases hloop : multiplierLoop coercion page (List.range' 1 10) (true, []) with
  | error e =>
    constructor
    · rintro ⟨h1, h2⟩
      cases e with
      | nullish => simp [MinesGameTester.runTest, MinesGameTester.runTestCatch] at h1
      | error e =>
        simp [MinesGameTester.runTest, MinesGameTester.runTestCatch] at h2
    · rintro ⟨d, hd⟩
      cases hd
  | ok state =>
    obtain ⟨allCorrect, details⟩ := state
    cases allCorrect with
    | true =>
      constructor
      · intro _
        exact ⟨details, rfl⟩
      · intro _
        exact ⟨rfl, by simp [MinesGameTester.runTest, JsValue.truthy]⟩
    | false =>
      constructor
      · rintro ⟨-, h2⟩
        simp [MinesGameTester.runTest, JsValue.truthy] at h2
      · rintro ⟨d, hd⟩
        have := (Prod.mk.inj (Except.ok.inj hd)).1
        cases this

/-- The test passes exactly when, at every mine count from 1 to 10, the round
raises no exception and the tolerance test does not reject the value read. -/
theorem multiplier_test_passes_iff (coercion : NumberCoercion) (typeError : ErrorObject)
    (page : Nat → MultiplierReply) (t : MinesGameTester) :
    MultiplierTestPassed coercion typeError page t ↔
      ∀ m, 1 ≤ m → m ≤ 10 → ∃ v, page m = MultiplierReply.multiplier v ∧
        multiplierIsOff coercion v (expectedMultipliers m) = false := by
  rw [multiplierTestPassed_iff_loop, multiplierLoop_true_iff]
  constructor
  · rintro ⟨-, hall⟩ m h1 h2
    exact hall m ((mem_range_one_ten m).2 ⟨h1, h2⟩)
  · intro hall
    refine ⟨rfl, ?_⟩
    intro m hm
    obtain ⟨h1, h2⟩ := (mem_range_one_ten m).1 hm
    exact hall m h1 h2

/-- The double written `0.01`. -/
theorem roundDouble_hundredth :
    ClashRoyale.roundDouble 0.01 = 5764607523034235 / 2 ^ 59 := by
  rw [ClashRoyale.roundDouble_eq _ (-7) (by norm_num) (by norm_num) (by norm_num),
    ClashRoyale.roundHalfEven_of_gt _ 5764607523034234 (by norm_num) (by norm_num)]
  norm_num

/-- The double written `0.2`, the table value at one mine. -/
theorem expectedMultipliers_one : expectedMultipliers 1 = 3602879701896397 / 2 ^ 54 := by
  unfold expectedMultipliers
  simp only
  rw [ClashRoyale.roundDouble_eq _ (-3) (by norm_num) (by norm_num) (by norm_num),
    ClashRoyale.roundHalfEven_of_gt _ 7205759403792793 (by norm_num) (by norm_num)]
  norm_num

/-- A multiplier `null` is rejected: it converts to `0`, and `0 - 0.2` is more than
`0.01` away from zero. -/
theorem multiplierIsOff_null (coercion : NumberCoercion) :
    multiplierIsOff coercion JsValue.null (expectedMultipliers 1) = true := by
  have h : ClashRoyale.roundDouble (0 - 3602879701896397 / 2 ^ 54) =
      -3602879701896397 / 2 ^ 54 := by
    have h2 : (0 : ℚ) - 3602879701896397 / 2 ^ 54 = -3602879701896397 / 2 ^ 54 := by norm_num
    rw [h2]
    exact ClashRoyale.roundDouble_of_exact_abs _ (-3) (-7205759403792794)
      (by rw [abs_of_neg (by norm_num)]; norm_num)
      (by rw [abs_of_neg (by norm_num)]; norm_num) (by norm_num)
  simp only [multiplierIsOff, JsValue.toNumber, expectedMultipliers_one, h,
    roundDouble_hundredth]
  rw [abs_of_neg (by norm_num)]
  simp only [gt_iff_lt, decide_eq_true_eq]
  norm_num

/-- The double `0.19` is rejected at one mine, although `0.19` is within `0.01` of
`0.2`: the difference of the doubles `0.19` and `0.2` is
`-0.010000000000000009`, which is more than the double `0.01` away from zero. -/
theorem multiplierIsOff_nineteen_hundredths (coercion : NumberCoercion) :
    ClashRoyale.roundDouble 0.19 = 3422735716801577 / 2 ^ 54 ∧
    multiplierIsOff coercion (JsValue.number (3422735716801577 / 2 ^ 54))
      (expectedMultipliers 1) = true := by
  have h : ClashRoyale.roundDouble (3422735716801577 / 2 ^ 54 - 3602879701896397 / 2 ^ 54) =
      -45035996273705 / 2 ^ 52 := by
    have h2 : (3422735716801577 : ℚ) / 2 ^ 54 - 3602879701896397 / 2 ^ 54 =
        -45035996273705 / 2 ^ 52 := by norm_num
    rw [h2]
    exact ClashRoyale.roundDouble_of_exact_abs _ (-7) (-5764607523034240)
      (by rw [abs_of_neg (by norm_num)]; norm_num)
      (by rw [abs_of_neg (by norm_num)]; norm_num) (by norm_num)
  refine ⟨?_, ?_⟩
  · rw [ClashRoyale.roundDouble_eq _ (-3) (by norm_num) (by norm_num) (by norm_num),
      ClashRoyale.roundHalfEven_of_gt _ 6845471433603153 (by norm_num) (by norm_num)]
    norm_num
  · simp only [multiplierIsOff, JsValue.toNumber, expectedMultipliers_one, h,
      roundDouble_hundredth]
    rw [abs_of_neg (by norm_num)]
    simp only [gt_iff_lt, decide_eq_true_eq]
    norm_num

/-- A page whose multiplier is the table value passes the test. -/
theorem multiplier_test_passes_on_table (coercion : NumberCoercion) (typeError : ErrorObject)
    (t : MinesGameTester) : MultiplierTestPassed coercion typeError samplePageExact t := by
  rw [multiplier_test_passes_iff]
  intro m _ _
  refine ⟨_, rfl, ?_⟩
  simp only [multiplierIsOff, JsValue.toNumber, sub_self, ClashRoyale.roundDouble_zero,
    abs_zero, roundDouble_hundredth]
  simp only [gt_iff_lt, decide_eq_false_iff_not, not_lt]
  norm_num

/-- C20 fails in the code on a page whose game has no `multiplier`: at every mine
count the value read is `undefined`, the difference is `NaN`, no comparison
rejects it, and the test passes with the message that all multiplier
calculations are correct, although no multiplier read is within 0.01 of the
table. -/
theorem multiplier_test_passes_without_number :
    (∀ m, samplePageNoMultiplier m = MultiplierReply.multiplier JsValue.undefined) ∧
    MultiplierTestPassed sampleCoercion sampleTypeError samplePageNoMultiplier
      MinesGameTester.new ∧
    (MinesGameTester.testMultiplierCalculations sampleCoercion sampleTypeError
      samplePageNoMultiplier MinesGameTester.new).tester.testResults =
      [{ name := "Multiplier Calculations", passed := JsValue.bool true,
         message := JsValue.string "All multiplier calculations are correct",
         details := JsValue.object 0 }] ∧
    ¬ MultipliersWithinTolerance sampleCoercion samplePageNoMultiplier := by
  refine ⟨fun _ => rfl, ?_, ?_, ?_⟩
  · rw [multiplier_test_passes_iff]
    exact fun m _ _ => ⟨JsValue.undefined, rfl, rfl⟩
  · rfl
  · intro h
    obtain ⟨v, q, hv, hq, -⟩ := h 1 (le_refl 1) (by decide)
    simp only [samplePageNoMultiplier] at hv
    cases hv
    cases hq

/-! ## The Clash Royale test suite -/

/-- C15 as stated fails for a check function that throws `null`: `test` ends by
an exception (it returns nothing) and appends no result. -/
theorem test_lets_throw_null_escape :
    (ClashRoyaleTestSuite.test ClashRoyaleTestSuite.new "thrower"
      ⟨[], [], [], CheckOutcome.throws Thrown.nullish⟩).returned = none ∧
    (ClashRoyaleTestSuite.test ClashRoyaleTestSuite.new "thrower"
      ⟨[], [], [], CheckOutcome.throws Thrown.nullish⟩).suite.testResults.length = 0 := by
  exact ⟨rfl, rfl⟩

/-- C15, amended: for every check function that does not throw `null` or
`undefined`, `test` appends exactly one result.  If the function throws, the
result has `passed = false`, status `💥 ERROR` and the `message` of what was
thrown, and `test` returns `false`; if it returns `v`, the result has
`passed = v`, status `✅ PASS` when `v` is truthy and `❌ FAIL` when it is not,
and `test` returns `v`. -/
theorem test_records_one_result (s : ClashRoyaleTestSuite) (name : String)
    (bugs polishIssues authenticityIssues : List Issue) :
    (∀ e : ErrorObject,
      (ClashRoyaleTestSuite.test s name
          ⟨bugs, polishIssues, authenticityIssues,
            CheckOutcome.throws (Thrown.error e)⟩).suite.testResults =
        s.testResults ++
          [{ name := name, passed := JsValue.bool false, status := "💥 ERROR",
             error := some (propertyValue e.message) }] ∧
      (ClashRoyaleTestSuite.test s name
          ⟨bugs, polishIssues, authenticityIssues,
            CheckOutcome.throws (Thrown.error e)⟩).returned = some (JsValue.bool false)) ∧
    (∀ v : JsValue,
      (ClashRoyaleTestSuite.test s name
          ⟨bugs, polishIssues, authenticityIssues, CheckOutcome.returns v⟩).suite.testResults =
        s.testResults ++
          [{ name := name, passed := v,
             status := if v.truthy = true then "✅ PASS" else "❌ FAIL", error := none }] ∧
      (ClashRoyaleTestSuite.test s name
          ⟨bugs, polishIssues, authenticityIssues, CheckOutcome.returns v⟩).returned = some v) ∧
    (∀ testFunction : CheckRun, testFunction.outcome ≠ CheckOutcome.throws Thrown.nullish →
      (ClashRoyaleTestSuite.test s name testFunction).suite.testResults.length =
        s.testResults.length + 1 ∧
      (ClashRoyaleTestSuite.test s name testFunction).returned ≠ none) := by
  refine ⟨fun e => ⟨rfl, rfl⟩, fun v => ⟨rfl, rfl⟩, ?_⟩
  intro testFunction hne
  obtain ⟨b, p, a, outcome⟩ := testFunction
  cases outcome with
  | returns v =>
    refine ⟨?_, ?_⟩
    · simp [ClashRoyaleTestSuite.test]
    · simp [ClashRoyaleTestSuite.test]
  | throws error =>
    cases error with
    | nullish => exact absurd rfl hne
    | error e =>
      refine ⟨?_, ?_⟩
      · simp [ClashRoyaleTestSuite.test]
      · simp [ClashRoyaleTestSuite.test]

/-- A check that does not throw `null` or `undefined` ends `test` normally with
one more result. -/
theorem test_of_not_nullish (s : ClashRoyaleTestSuite) (name : String) (c : CheckRun)
    (hc : c.outcome ≠ CheckOutcome.throws Thrown.nullish) :
    (∃ v, (ClashRoyaleTestSuite.test s name c).returned = some v) ∧
      (ClashRoyaleTestSuite.test s name c).suite.testResults.length =
        s.testResults.length + 1 := by
  obtain ⟨b, p, a, outcome⟩ := c
  cases outcome with
  | returns v =>
    exact ⟨⟨v, rfl⟩, by simp [ClashRoyaleTestSuite.test]⟩
  | throws error =>
    cases error with
    | nullish => exact absurd rfl hc
    | error e =>
      exact ⟨⟨JsValue.bool false, rfl⟩, by simp [ClashRoyaleTestSuite.test]⟩

/-- A check that throws `null` or `undefined` makes `test` end by an exception,
with no result appended. -/
theorem test_of_nullish (s : ClashRoyaleTestSuite) (name : String) (c : CheckRun)
    (hc : c.outcome = CheckOutcome.throws Thrown.nullish) :
    (ClashRoyaleTestSuite.test s name c).returned = none ∧
      (ClashRoyaleTestSuite.test s name c).suite.testResults = s.testResults := by
  obtain ⟨b, p, a, outcome⟩ := c
  cases hc
  exact ⟨rfl, rfl⟩

/-- A run of checks none of which throws `null` or `undefined` ends normally
with one result per check. -/
theorem runChecks_of_not_nullish (environment : Nat → CheckRun) :
    ∀ (names : List String) (indices : List Nat) (s : ClashRoyaleTestSuite),
      names.length = indices.length →
      (∀ i ∈ indices, (environment i).outcome ≠ CheckOutcome.throws Thrown.nullish) →
      (ClashRoyaleTestSuite.runChecks (names.zip (indices.map environment)) s).2 = false ∧
        (ClashRoyaleTestSuite.runChecks
          (names.zip (indices.map environment)) s).1.testResults.length =
          s.testResults.length + names.length := by
  intro names
  induction names with
  | nil =>
    intro indices s _ _
    simp [ClashRoyaleTestSuite.runChecks]
  | cons name rest ih =>
    intro indices s hlen hall
    cases indices with
    | nil => simp at hlen
    | cons i is =>
      have hlen2 : rest.length = is.length := by simpa using hlen
      obtain ⟨⟨v, hv⟩, hlen3⟩ :=
        test_of_not_nullish s name (environment i) (hall i (List.mem_cons_self _ _))
      rw [List.map_cons, List.zip_cons_cons]
      simp only [ClashRoyaleTestSuite.runChecks, hv]
      obtain ⟨h1, h2⟩ := ih is _ hlen2 (fun j hj => hall j (List.mem_cons_of_mem _ hj))
      refine ⟨h1, ?_⟩
      rw [h2, hlen3, List.length_cons]
      omega

/-- A run of checks ends at the first check that throws `null` or `undefined`:
the results are those of the checks before it. -/
theorem runChecks_stops (environment : Nat → CheckRun) :
    ∀ (k : Nat) (names : List String) (start : Nat) (s : ClashRoyaleTestSuite),
      k < names.length →
      (∀ i, i < k → (environment (start + i)).outcome ≠ CheckOutcome.throws Thrown.nullish) →
      (environment (start + k)).outcome = CheckOutcome.throws Thrown.nullish →
      (ClashRoyaleTestSuite.runChecks
          (names.zip ((List.range' start names.length).map environment)) s).2 = true ∧
        (ClashRoyaleTestSuite.runChecks
          (names.zip ((List.range' start names.length).map environment)) s).1.testResults.length =
          s.testResults.length + k := by
  intro k
  induction k with
  | zero =>
    intro names start s hk _ hthrow
    cases names with
    | nil => simp at hk
    | cons name rest =>
      obtain ⟨h1, h2⟩ := test_of_nullish s name (environment start) hthrow
      rw [List.length_cons, List.range'_succ, List.map_cons, List.zip_cons_cons]
      simp only [ClashRoyaleTestSuite.runChecks, h1, h2, Nat.add_zero, and_self]
  | succ k ih =>
    intro names start s hk hbefore hthrow
    cases names with
    | nil => simp at hk
    | cons name rest =>
      have hk2 : k < rest.length := by
        rw [List.length_cons] at hk
        omega
      obtain ⟨⟨v, hv⟩, hlen⟩ :=
        test_of_not_nullish s name (environment start) (hbefore 0 (Nat.succ_pos k))
      rw [List.length_cons, List.range'_succ, List.map_cons, List.zip_cons_cons]
      simp only [ClashRoyaleTestSuite.runChecks, hv]
      obtain ⟨h1, h2⟩ := ih rest (start + 1) _ hk2
        (fun i hi => by
          have := hbefore (i + 1) (by omega)
          rwa [show start + 1 + i = start + (i + 1) by omega])
        (by rwa [show start + 1 + k = start + (k + 1) by omega])
      refine ⟨h1, ?_⟩
      rw [h2, hlen]
      omega

theorem suiteCheckNames_length : suiteCheckNames.length = 37 := by
  simp [suiteCheckNames, testGameMechanics, testCardFunctionality, testTowerBehavior,
    testElixirSystem, testPathfinding, testBridgeRestrictions, testWinConditions,
    testXBowFunctionality, testBuildingLifetimes, testSpellEffects, testTroopAbilities,
    testVisualEffects, testAuthenticityIssues, testPolishIssues, testPerformanceIssues,
    testUIUXIssues]

/-- C19 as stated fails in an environment whose `Tower.toString` throws `null`:
the eighth check, `Tower HP authenticity`, makes `test` end by an exception, so
that `runAllTests` stops with 7 results recorded and generates no report. -/
theorem runAllTests_stops_at_thrown_null :
    suiteCheckNames[7]? = some "Tower HP authenticity" ∧
    (sampleEnvironmentTowerThrows 7).outcome = CheckOutcome.throws Thrown.nullish ∧
    (ClashRoyaleTestSuite.runAllTests sampleEnvironmentTowerThrows
      ClashRoyaleTestSuite.new).1.testResults.length = 7 ∧
    (ClashRoyaleTestSuite.runAllTests sampleEnvironmentTowerThrows
      ClashRoyaleTestSuite.new).2 = none := by
  have hbefore : ∀ i, i < 7 →
      (sampleEnvironmentTowerThrows (0 + i)).outcome ≠ CheckOutcome.throws Thrown.nullish := by
    intro i hi
    have h7 : ¬ (0 + i = 7) := by omega
    simp only [sampleEnvironmentTowerThrows, if_neg h7, sampleEnvironment]
    intro h
    cases h
  obtain ⟨h1, h2⟩ := runChecks_stops sampleEnvironmentTowerThrows 7 suiteCheckNames 0
    ClashRoyaleTestSuite.new (by rw [suiteCheckNames_length]; decide) hbefore rfl
  rw [← List.range_eq_range'] at h1 h2
  refine ⟨rfl, rfl, ?_, ?_⟩
  · unfold ClashRoyaleTestSuite.runAllTests
    simp only [h1, if_true]
    rw [h2]
    rfl
  · unfold ClashRoyaleTestSuite.runAllTests
    simp only [h1, if_true]

/-- C19, amended: on a new suite, whatever each check returns or throws in the
environment, if none of the 37 checks throws `null` or `undefined` then
`runAllTests` records exactly 37 results and generates a report whose
`totalTests` is 37; and if the check of index `k` is the first that throws `null`
or `undefined`, `runAllTests` ends there by an exception, with the `k` results of
the checks before it and no report. -/
theorem runAllTests_records_37 (environment : Nat → CheckRun) :
    ((∀ i, i < 37 → (environment i).outcome ≠ CheckOutcome.throws Thrown.nullish) →
      (ClashRoyaleTestSuite.runAllTests environment
        ClashRoyaleTestSuite.new).1.testResults.length = 37 ∧
      ∃ report, (ClashRoyaleTestSuite.runAllTests environment ClashRoyaleTestSuite.new).2 =
        some report ∧ report.totalTests = 37) ∧
    (∀ k, k < 37 →
      (∀ i, i < k → (environment i).outcome ≠ CheckOutcome.throws Thrown.nullish) →
      (environment k).outcome = CheckOutcome.throws Thrown.nullish →
      (ClashRoyaleTestSuite.runAllTests environment
        ClashRoyaleTestSuite.new).1.testResults.length = k ∧
      (ClashRoyaleTestSuite.runAllTests environment ClashRoyaleTestSuite.new).2 = none) := by
  constructor
  · intro h
    obtain ⟨h1, h2⟩ := runChecks_of_not_nullish environment suiteCheckNames
      (List.range suiteCheckNames.length) ClashRoyaleTestSuite.new (by simp)
      (by
        intro i hi
        rw [suiteCheckNames_length] at hi
        exact h i (List.mem_range.1 hi))
    have h3 : (ClashRoyaleTestSuite.runChecks
        (suiteCheckNames.zip ((List.range suiteCheckNames.length).map environment))
        ClashRoyaleTestSuite.new).1.testResults.length = 37 := by
      rw [h2, suiteCheckNames_length]
      rfl
    unfold ClashRoyaleTestSuite.runAllTests
    simp only [h1]
    refine ⟨h3, _, rfl, ?_⟩
    exact h3
  · intro k hk hbefore hthrow
    obtain ⟨h1, h2⟩ := runChecks_stops environment k suiteCheckNames 0
      ClashRoyaleTestSuite.new (by rw [suiteCheckNames_length]; exact hk)
      (fun i hi => by rw [Nat.zero_add]; exact hbefore i hi)
      (by rw [Nat.zero_add]; exact hthrow)
    rw [← List.range_eq_range'] at h1 h2
    unfold ClashRoyaleTestSuite.runAllTests
    simp only [h1, if_true]
    rw [h2]
    exact ⟨Nat.zero_add k, trivial⟩

/-- C19, amended, in an environment where every check returns `false`: no check
throws, 37 results are recorded and the report counts 37 tests. -/
theorem runAllTests_records_37_witness :
    (∀ i, i < 37 → (sampleEnvironment i).outcome ≠ CheckOutcome.throws Thrown.nullish) ∧
    (ClashRoyaleTestSuite.runAllTests sampleEnvironment
      ClashRoyaleTestSuite.new).1.testResults.length = 37 ∧
    ∃ report, (ClashRoyaleTestSuite.runAllTests sampleEnvironment ClashRoyaleTestSuite.new).2 =
      some report ∧ report.totalTests = 37 :=
  have h : ∀ i, i < 37 →
      (sampleEnvironment i).outcome ≠ CheckOutcome.throws Thrown.nullish := by
    intro i _ hi
    cases hi
  ⟨h, (runAllTests_records_37 sampleEnvironment).1 h⟩

/-- C15, amended, on a check that returns the number 0.65: one result is
appended and `test` returns. -/
theorem test_records_one_result_witness :
    (⟨[], [], [], CheckOutcome.returns (JsValue.number (13 / 20))⟩ : CheckRun).outcome ≠
      CheckOutcome.throws Thrown.nullish ∧
    (ClashRoyaleTestSuite.test ClashRoyaleTestSuite.new "Arena size proportions"
      ⟨[], [], [], CheckOutcome.returns (JsValue.number (13 / 20))⟩).suite.testResults.length =
      ClashRoyaleTestSuite.new.testResults.length + 1 ∧
    (ClashRoyaleTestSuite.test ClashRoyaleTestSuite.new "Arena size proportions"
      ⟨[], [], [], CheckOutcome.returns (JsValue.number (13 / 20))⟩).returned ≠ none :=
  have hne : (⟨[], [], [], CheckOutcome.returns (JsValue.number (13 / 20))⟩ : CheckRun).outcome ≠
      CheckOutcome.throws Thrown.nullish := by
    intro h; cases h
  ⟨hne,
    (test_records_one_result ClashRoyaleTestSuite.new "Arena size proportions" [] [] []).2.2
      ⟨[], [], [], CheckOutcome.returns (JsValue.number (13 / 20))⟩ hne⟩

end TestRunners
